import Mathlib

/-!
# The sync data type manager (`sync/glue/data_type_manager_impl.cc`)

A shallow embedding of `browser_sync::DataTypeManagerImpl`: the orchestrator's
fields, the collaborators it talks to (data type controllers, the sync backend,
the notification registrar) and every member function of the class, written as
state-passing functions that may fail.  A failed `DCHECK`, a `NOTREACHED` and a
null dereference end a run with a `Fault`: this is the debug build.  The release
build, in which `DCHECK` and `NOTREACHED` expand to nothing and the code runs on, is
given separately in the namespace `Release`.  Every call is made on the one UI thread,
so the thread assertions (`ChromeThread::CurrentlyOn`) hold and are left out; logging
is left out as well, except where a logged name is read through a pointer that can be
null.
-/

namespace browser_sync

/-! ## Identities and the start order -/

/-- Modelled from the spec: the enumeration `syncable::ModelType` is declared in a
header that is not part of the sources at hand.  An identity is represented by the
value of its enumerator; `std::set` and `std::map` iterate in ascending value. -/
abbrev ModelType := Nat

namespace syncable

/-- Modelled from the spec: enumerator of `syncable::ModelType`; only the fact that
the four enumerators named by `kStartOrder` are distinct is ever used. -/
def BOOKMARKS : ModelType := 2

/-- Modelled from the spec: enumerator of `syncable::ModelType`. -/
def PREFERENCES : ModelType := 3

/-- Modelled from the spec: enumerator of `syncable::ModelType`. -/
def AUTOFILL : ModelType := 4

/-- Modelled from the spec: enumerator of `syncable::ModelType`. -/
def TYPED_URLS : ModelType := 6

end syncable

/-- The table `kStartOrder`. -/
def kStartOrder : List ModelType :=
  [syncable.BOOKMARKS, syncable.PREFERENCES, syncable.AUTOFILL, syncable.TYPED_URLS]

/-- The map `start_order_` as the constructor fills it: `start_order_[kStartOrder[i]] = i`. -/
def start_order_ : List (ModelType × Nat) :=
  (List.range kStartOrder.length).map (fun i => (kStartOrder.getD i 0, i))

/-- The lookup `(*order_)[type]` of `SortComparator`: the rank stored for `type`, and the
value-initialised `0` that `std::map::operator[]` inserts for a type the table does not
name (the insertion does not change any later lookup, so the map is not threaded). -/
def order (t : ModelType) : Nat :=
  match start_order_.lookup t with
  | some i => i
  | none => 0

/-- A `DataTypeController*` that is not null: the controller object is identified by
the model type its `type()` returns. -/
structure DataTypeController where
  type : ModelType
deriving DecidableEq, Repr

namespace DataTypeController

/-- The enumeration `DataTypeController::State`. -/
inductive State where
  | NOT_RUNNING
  | MODEL_STARTING
  | ASSOCIATING
  | RUNNING
  | STOPPING
deriving DecidableEq, Repr

/-- The enumeration `DataTypeController::StartResult`: the five results the manager
names, and `OTHER` for any result that reaches the `default:` label. -/
inductive StartResult where
  | OK
  | OK_FIRST_RUN
  | ABORTED
  | ASSOCIATION_FAILED
  | UNRECOVERABLE_ERROR
  | OTHER
deriving DecidableEq, Repr

end DataTypeController

namespace DataTypeManager

/-- The enumeration `DataTypeManager::State`, with every enumerator the code names. -/
inductive State where
  | STOPPED
  | DOWNLOAD_PENDING
  | PAUSE_PENDING
  | CONFIGURING
  | RESUME_PENDING
  | CONFIGURED
  | STOPPING
  | RESTARTING
deriving DecidableEq, Repr

/-- The enumeration `DataTypeManager::ConfigureResult`. -/
inductive ConfigureResult where
  | OK
  | ASSOCIATION_FAILED
  | ABORTED
  | UNRECOVERABLE_ERROR
deriving DecidableEq, Repr

end DataTypeManager

/-- The two notification types the manager observes. -/
inductive NotificationType where
  | SYNC_PAUSED
  | SYNC_RESUMED
deriving DecidableEq, Repr

/-- How a run of the code can fail. -/
inductive Fault where
  | dcheck
  | null_deref
  | not_reached
deriving DecidableEq, Repr

/-- The type `TypeSet`, a `std::set<syncable::ModelType>`: its elements in iteration
order, which is strictly ascending. -/
structure TypeSet where
  elems : List ModelType
  sorted : elems.Sorted (· < ·)

/-- The type `DataTypeController::TypeMap`, a `std::map` from model type to controller
pointer, as its entries in iteration order; `none` is a null pointer. -/
abbrev TypeMap := List (ModelType × Option DataTypeController)

/-- The lookup half of `std::map::operator[]`: the pointer stored under `k`, null when
the key is absent. -/
def TypeMap.find (m : TypeMap) (k : ModelType) : Option DataTypeController :=
  match m.lookup k with
  | some p => p
  | none => none

/-- The insertion half of `std::map::operator[]`: an absent key gets a value-initialised
(null) entry at its place in key order; a present key leaves the map as it is. -/
def TypeMap.touch : TypeMap → ModelType → TypeMap
  | [], k => [(k, none)]
  | (k1, p) :: rest, k =>
    if k = k1 then (k1, p) :: rest
    else if k < k1 then (k, none) :: (k1, p) :: rest
    else (k1, p) :: TypeMap.touch rest k

/-! ## The world: the manager's fields and its collaborators -/

/-- The manager's member variables together with the state of its collaborators. -/
structure Machine where
  /-- Field `state_`. -/
  state_ : DataTypeManager.State
  /-- Field `needs_start_`. -/
  needs_start_ : List DataTypeController
  /-- Field `needs_stop_`. -/
  needs_stop_ : List DataTypeController
  /-- Field `current_dtc_`; `none` is `NULL`. -/
  current_dtc_ : Option DataTypeController
  /-- Field `controllers_`. -/
  controllers_ : TypeMap
  /-- Modelled from the spec: what `state()` of each controller returns. -/
  dtc_state : ModelType → DataTypeController.State
  /-- Modelled from the spec: whether `notification_registrar_` holds a registration
  for `SYNC_PAUSED`. -/
  paused_observer : Bool
  /-- Modelled from the spec: whether `notification_registrar_` holds a registration
  for `SYNC_RESUMED`. -/
  resumed_observer : Bool
  /-- Modelled from the spec: whether the backend accepts a request made now. -/
  backend_accepting : Bool
  /-- Modelled from the spec: accepted pause requests the backend has not answered. -/
  pending_pause : Nat
  /-- Modelled from the spec: accepted resume requests the backend has not answered. -/
  pending_resume : Nat

/-- A call that crosses the manager's boundary, inbound or outbound. -/
inductive Effect where
  /-- Inbound: `Configure(desired_types)`. -/
  | CallConfigure (desired : List ModelType)
  /-- Inbound: `Stop()`. -/
  | CallStop
  /-- Inbound: `Observe(type, ...)`. -/
  | CallObserve (type : NotificationType)
  /-- Inbound: `TypeStartCallback(result)`. -/
  | CallTypeStartCallback (result : DataTypeController.StartResult)
  /-- Outbound: `dtc->Start(true, callback)`. -/
  | Start (dtc : DataTypeController)
  /-- Outbound: `dtc->Stop()`. -/
  | Stop (dtc : DataTypeController)
  /-- Outbound: `backend_->RequestPause()` and what it returned. -/
  | RequestPause (accepted : Bool)
  /-- Outbound: `backend_->RequestResume()` and what it returned. -/
  | RequestResume (accepted : Bool)
  /-- Outbound: `notification_registrar_.Add`. -/
  | AddObserver (type : NotificationType)
  /-- Outbound: `notification_registrar_.Remove`. -/
  | RemoveObserver (type : NotificationType)
  /-- Outbound: the `SYNC_CONFIGURE_START` notification. -/
  | NotifyStart
  /-- Outbound: the `SYNC_CONFIGURE_DONE` notification and its details. -/
  | NotifyDone (result : DataTypeManager.ConfigureResult)
deriving DecidableEq, Repr

/-- The machine together with the chronological record of boundary calls, each with
the machine as it was at the moment of the call. -/
structure World extends Machine where
  trace : List (Effect × Machine)

/-- Records a boundary call. -/
def World.emit (e : Effect) (w : World) : World :=
  { w with trace := w.trace ++ [(e, w.toMachine)] }

/-- The macro `DCHECK(condition)` as a debug build expands it: a false condition ends
the run.  (A release build expands it to nothing; see the namespace `Release`.) -/
def DCHECK (c : Bool) : Except Fault Unit :=
  if c then .ok () else .error .dcheck

/-! ## The collaborators -/

/-- Modelled from the spec: `DataTypeController::Start(first_run, callback)`.  The call
is recorded; a controller that is `NOT_RUNNING` begins its start (`MODEL_STARTING`) and
will run the callback later, exactly once (see `Event.StartDone`); the spec says nothing
of a start requested in another state, and the controller then stays as it is.  A
callback run before `Start` returns is the same run as one delivered as the next event,
because no caller of `Start` does anything after it returns. -/
def DataTypeController.Start (dtc : DataTypeController) (w : World) : World :=
  let w1 := w.emit (.Start dtc)
  if w1.dtc_state dtc.type = .NOT_RUNNING then
    { w1 with dtc_state := Function.update w1.dtc_state dtc.type .MODEL_STARTING }
  else w1

/-- Modelled from the spec: `DataTypeController::Stop()`: synchronous, always leaves the
controller `NOT_RUNNING`.  When a start is in progress the start is aborted, "which will
synchronously invoke the start callback" (comment in `DataTypeManagerImpl::Stop`): the
second component is the result that callback is then run with. -/
def DataTypeController.Stop (dtc : DataTypeController) (w : World) :
    World × Option DataTypeController.StartResult :=
  let w1 := w.emit (.Stop dtc)
  let st := w1.dtc_state dtc.type
  let w2 : World := { w1 with dtc_state := Function.update w1.dtc_state dtc.type .NOT_RUNNING }
  if st = .MODEL_STARTING ∨ st = .ASSOCIATING then (w2, some .ABORTED) else (w2, none)

/-- Modelled from the spec: `SyncBackendHost::RequestPause()`; `false` is an immediate
rejection, an accepted request is answered later by one `SYNC_PAUSED` notification. -/
def SyncBackendHost.RequestPause (w : World) : Bool × World :=
  let w1 := w.emit (.RequestPause w.backend_accepting)
  if w1.backend_accepting then (true, { w1 with pending_pause := w1.pending_pause + 1 })
  else (false, w1)

/-- Modelled from the spec: `SyncBackendHost::RequestResume()`; `false` is an immediate
rejection, an accepted request is answered later by one `SYNC_RESUMED` notification. -/
def SyncBackendHost.RequestResume (w : World) : Bool × World :=
  let w1 := w.emit (.RequestResume w.backend_accepting)
  if w1.backend_accepting then (true, { w1 with pending_resume := w1.pending_resume + 1 })
  else (false, w1)

/-! ## `DataTypeManagerImpl` -/

namespace DataTypeManagerImpl

open DataTypeManager

/-- The loop of the constructor over `controllers_`:
`DCHECK_EQ(DataTypeController::NOT_RUNNING, (*it).second->state())`. -/
def create.loop (dtc_state : ModelType → DataTypeController.State) :
    TypeMap → Except Fault Unit
  | [] => .ok ()
  | (_, none) :: _ => .error .null_deref
  | (_, some dtc) :: rest =>
    if dtc_state dtc.type = .NOT_RUNNING then create.loop dtc_state rest
    else .error .dcheck

/-- The constructor (the backend pointer is taken to be non-null): the table
`kStartOrder` is not empty, every controller handed in is `NOT_RUNNING`, the state is
`STOPPED` and there is no current controller; nothing is pending at the collaborators. -/
def create (controllers : TypeMap) (dtc_state : ModelType → DataTypeController.State)
    (backend_accepting : Bool) : Except Fault World := do
  DCHECK (decide (0 < kStartOrder.length))
  create.loop dtc_state controllers
  pure
    { state_ := .STOPPED, needs_start_ := [], needs_stop_ := [], current_dtc_ := none,
      controllers_ := controllers, dtc_state := dtc_state,
      paused_observer := false, resumed_observer := false,
      backend_accepting := backend_accepting, pending_pause := 0, pending_resume := 0,
      trace := [] }

/-- Member `AddObserver`. -/
def AddObserver (type : NotificationType) (w : World) : World :=
  let w1 := w.emit (.AddObserver type)
  match type with
  | .SYNC_PAUSED => { w1 with paused_observer := true }
  | .SYNC_RESUMED => { w1 with resumed_observer := true }

/-- Member `RemoveObserver`. -/
def RemoveObserver (type : NotificationType) (w : World) : World :=
  let w1 := w.emit (.RemoveObserver type)
  match type with
  | .SYNC_PAUSED => { w1 with paused_observer := false }
  | .SYNC_RESUMED => { w1 with resumed_observer := false }

/-- Member `NotifyStart`. -/
def NotifyStart (w : World) : World :=
  w.emit .NotifyStart

/-- Member `NotifyDone`. -/
def NotifyDone (result : ConfigureResult) (w : World) : World :=
  w.emit (.NotifyDone result)

/-- The loop of `FinishStop` over `controllers_`: `Stop()` on every controller whose
state is `RUNNING`.  The entry is dereferenced without a null test.  A running
controller has no start in progress, so its `Stop` runs no callback. -/
def FinishStop.loop : TypeMap → World → Except Fault World
  | [], w => .ok w
  | (_, none) :: _, _ => .error .null_deref
  | (_, some dtc) :: rest, w =>
    if w.dtc_state dtc.type = .RUNNING then
      FinishStop.loop rest (DataTypeController.Stop dtc w).1
    else FinishStop.loop rest w

/-- Member `FinishStop`. -/
def FinishStop (w : World) : Except Fault World := do
  DCHECK (w.state_ = .CONFIGURING ∨ w.state_ = .STOPPING ∨
          w.state_ = .PAUSE_PENDING ∨ w.state_ = .RESUME_PENDING)
  let w1 ← FinishStop.loop w.controllers_ w
  pure { w1 with state_ := .STOPPED }

/-- Member `ResumeSyncer`. -/
def ResumeSyncer (w : World) : Except Fault World :=
  let w1 := AddObserver .SYNC_RESUMED w
  let r := SyncBackendHost.RequestResume w1
  if r.1 then .ok r.2
  else do
    let w2 := RemoveObserver .SYNC_RESUMED r.2
    let w3 ← FinishStop w2
    pure (NotifyDone .UNRECOVERABLE_ERROR w3)

/-- Member `PauseSyncer`. -/
def PauseSyncer (w : World) : Except Fault World :=
  let w1 := AddObserver .SYNC_PAUSED w
  let r := SyncBackendHost.RequestPause w1
  if r.1 then .ok r.2
  else do
    let w2 := RemoveObserver .SYNC_PAUSED r.2
    let w3 ← FinishStop w2
    pure (NotifyDone .UNRECOVERABLE_ERROR w3)

/-- Member `StartNextType`. -/
def StartNextType (w : World) : Except Fault World :=
  match w.needs_start_ with
  | dtc :: _ =>
    let w1 : World := { w with current_dtc_ := some dtc }
    .ok (DataTypeController.Start dtc w1)
  | [] => do
    DCHECK (w.state_ = .CONFIGURING)
    let w1 : World := { w with state_ := .RESUME_PENDING }
    ResumeSyncer w1

/-- The `switch` of `TypeStartCallback` from a start result to a configure result;
`none` is the `default:` label (`NOTREACHED`). -/
def TypeStartCallback.configure_result :
    DataTypeController.StartResult → Option ConfigureResult
  | .ABORTED => some .ABORTED
  | .ASSOCIATION_FAILED => some .ASSOCIATION_FAILED
  | .UNRECOVERABLE_ERROR => some .UNRECOVERABLE_ERROR
  | _ => none

/-- Member `TypeStartCallback`. -/
def TypeStartCallback (result : DataTypeController.StartResult) (w : World) :
    Except Fault World :=
  if w.current_dtc_ = none then .error .dcheck
  else if w.state_ = .RESTARTING then ResumeSyncer w
  else
    let started_dtc := w.current_dtc_
    match w.needs_start_ with
    | [] => .error .dcheck
    | head :: tail =>
      if some head = started_dtc then
        let w1 : World := { w with needs_start_ := tail, current_dtc_ := none }
        if w1.state_ = .STOPPING then do
          let w2 ← FinishStop w1
          pure (NotifyDone .ABORTED w2)
        else if w1.state_ = .STOPPED then .ok w1
        else if result = .OK ∨ result = .OK_FIRST_RUN then StartNextType w1
        else do
          let w2 ← FinishStop w1
          match TypeStartCallback.configure_result result with
          | some configure_result => pure (NotifyDone configure_result w2)
          | none => .error .not_reached
      else .error .dcheck

/-- A call of `dtc->Stop()` made by the manager, with the start callback run inside it
when the controller aborts a start in progress. -/
def callStop (dtc : DataTypeController) (w : World) : Except Fault World :=
  match DataTypeController.Stop dtc w with
  | (w1, some result) => TypeStartCallback result (w1.emit (.CallTypeStartCallback result))
  | (w1, none) => .ok w1

/-- The loop of `Restart` over `needs_stop_`. -/
def Restart.loop : List DataTypeController → World → Except Fault World
  | [], w => .ok w
  | dtc :: rest, w => do
    let w1 ← callStop dtc w
    Restart.loop rest w1

/-- Member `Restart`. -/
def Restart (w : World) : Except Fault World :=
  if w.state_ = .DOWNLOAD_PENDING ∨ w.state_ = .PAUSE_PENDING ∨
     w.state_ = .CONFIGURING ∨ w.state_ = .RESUME_PENDING then
    .ok { w with state_ := .RESTARTING }
  else do
    DCHECK (w.state_ = .STOPPED ∨ w.state_ = .RESTARTING ∨ w.state_ = .CONFIGURED)
    let w1 : World := { w with current_dtc_ := none }
    let w2 := if w1.state_ = .STOPPED ∨ w1.state_ = .CONFIGURED then NotifyStart w1 else w1
    let w3 ← Restart.loop w2.needs_stop_ w2
    let w4 : World := { w3 with needs_stop_ := [] }
    let w5 : World := { w4 with state_ := .PAUSE_PENDING }
    PauseSyncer w5

/-- The first loop of `Configure`, over `desired_types`: `controllers_[*it]` is looked
up (an absent key is inserted with a null pointer) and a non-null controller that is
`NOT_RUNNING` or `STOPPING` is pushed back.  Returns the list built and the map. -/
def Configure.start_loop (dtc_state : ModelType → DataTypeController.State) :
    List ModelType → TypeMap → List DataTypeController × TypeMap
  | [], m => ([], m)
  | t :: ts, m =>
    let m1 := m.touch t
    let r := Configure.start_loop dtc_state ts m1
    match m1.find t with
    | some dtc =>
      if dtc_state dtc.type = .NOT_RUNNING ∨ dtc_state dtc.type = .STOPPING then
        (dtc :: r.1, r.2)
      else r
    | none => r

/-- The second loop of `Configure`, over `controllers_`: every entry is dereferenced
(no null test), and a controller whose type is not desired and that is
`MODEL_STARTING`, `ASSOCIATING` or `RUNNING` is pushed back. -/
def Configure.stop_loop (dtc_state : ModelType → DataTypeController.State)
    (desired_types : List ModelType) : TypeMap → Except Fault (List DataTypeController)
  | [] => .ok []
  | (_, none) :: _ => .error .null_deref
  | (_, some dtc) :: rest => do
    let r ← Configure.stop_loop dtc_state desired_types rest
    if dtc.type ∉ desired_types ∧
        (dtc_state dtc.type = .MODEL_STARTING ∨ dtc_state dtc.type = .ASSOCIATING ∨
         dtc_state dtc.type = .RUNNING) then
      pure (dtc :: r)
    else pure r

/-- The call `std::sort(first, last, SortComparator(&start_order_))`: the comparator is
`order lhs < order rhs`.  For the handful of elements a list of controllers can have,
`std::sort` is an insertion sort, and equal ranks keep their relative order. -/
def sort (l : List DataTypeController) : List DataTypeController :=
  l.insertionSort (fun lhs rhs => order lhs.type ≤ order rhs.type)

/-- The part of `Configure` that computes the two work lists: `needs_start_` is
cleared, filled by the first loop and sorted, then `needs_stop_` is cleared, filled by
the second loop and sorted. -/
def Configure.work_lists (desired_types : TypeSet) (w : World) : Except Fault World :=
  let r := Configure.start_loop w.dtc_state desired_types.elems w.controllers_
  let w1 : World := { w with needs_start_ := sort r.1, controllers_ := r.2 }
  match Configure.stop_loop w1.dtc_state desired_types.elems w1.controllers_ with
  | .error f => .error f
  | .ok l => .ok { w1 with needs_stop_ := sort l }

/-- Member `Configure`. -/
def Configure (desired_types : TypeSet) (w : World) : Except Fault World :=
  if w.state_ = .STOPPING then .ok w
  else
    match Configure.work_lists desired_types w with
    | .error f => .error f
    | .ok w2 =>
      if w2.needs_start_.length = 0 ∧ w2.needs_stop_.length = 0 then
        let w3 : World := { w2 with state_ := .CONFIGURED }
        .ok (NotifyDone .OK (NotifyStart w3))
      else Restart w2

/-- Member `Stop`. -/
def Stop (w : World) : Except Fault World :=
  if w.state_ = .STOPPED then .ok w
  else if w.state_ = .CONFIGURING then
    let w1 : World := { w with state_ := .STOPPING }
    match w1.current_dtc_ with
    | none => .error .null_deref
    | some dtc => callStop dtc w1
  else
    let w1 := if w.state_ = .PAUSE_PENDING then RemoveObserver .SYNC_PAUSED w else w
    let w2 := if w1.state_ = .RESUME_PENDING then RemoveObserver .SYNC_RESUMED w1 else w1
    let w3 : World := { w2 with state_ := .STOPPING }
    FinishStop w3

/-- Member `Observe`. -/
def Observe (type : NotificationType) (w : World) : Except Fault World :=
  match type with
  | .SYNC_PAUSED => do
    DCHECK (w.state_ = .PAUSE_PENDING ∨ w.state_ = .RESTARTING)
    let w1 := RemoveObserver .SYNC_PAUSED w
    if w1.state_ = .RESTARTING then ResumeSyncer w1
    else StartNextType { w1 with state_ := .CONFIGURING }
  | .SYNC_RESUMED => do
    DCHECK (w.state_ = .RESUME_PENDING ∨ w.state_ = .RESTARTING)
    let w1 := RemoveObserver .SYNC_RESUMED w
    if w1.state_ = .RESTARTING then Restart w1
    else pure (NotifyDone .OK { w1 with state_ := .CONFIGURED })

end DataTypeManagerImpl

/-! ## Executions -/

/-- What can happen to the manager: its two public operations, and the collaborators'
moves the spec allows. -/
inductive Event where
  /-- The owner calls `Configure(desired_types)`. -/
  | Configure (desired_types : TypeSet)
  /-- The owner calls `Stop()`. -/
  | Stop
  /-- The backend answers an accepted pause request with `SYNC_PAUSED`. -/
  | Paused
  /-- The backend answers an accepted resume request with `SYNC_RESUMED`. -/
  | Resumed
  /-- A controller that is `MODEL_STARTING` moves on to `ASSOCIATING`. -/
  | Associating (type : ModelType)
  /-- A controller finishes the start in progress and runs the start callback. -/
  | StartDone (type : ModelType) (result : DataTypeController.StartResult)
  /-- The backend begins to accept, or to reject, requests. -/
  | BackendAccepts (accepting : Bool)

/-- Whether the collaborators' contracts allow the event now. -/
def enabled (w : World) : Event → Bool
  | .Configure _ => true
  | .Stop => true
  | .Paused => decide (0 < w.pending_pause)
  | .Resumed => decide (0 < w.pending_resume)
  | .Associating t => decide (w.dtc_state t = .MODEL_STARTING)
  | .StartDone t result =>
    decide ((w.dtc_state t = .MODEL_STARTING ∨ w.dtc_state t = .ASSOCIATING) ∧
      result ≠ .OTHER)
  | .BackendAccepts _ => true

/-- One event; every call into the manager is recorded.  A notification reaches
`Observe` only while the registrar holds the registration; a finished start leaves the
controller `RUNNING` on `OK` and `OK_FIRST_RUN` and `NOT_RUNNING` otherwise, and then
runs the callback. -/
def step (w : World) : Event → Except Fault World
  | .Configure desired_types =>
    DataTypeManagerImpl.Configure desired_types (w.emit (.CallConfigure desired_types.elems))
  | .Stop => DataTypeManagerImpl.Stop (w.emit .CallStop)
  | .Paused =>
    let w1 : World := { w with pending_pause := w.pending_pause - 1 }
    if w1.paused_observer then
      DataTypeManagerImpl.Observe .SYNC_PAUSED (w1.emit (.CallObserve .SYNC_PAUSED))
    else .ok w1
  | .Resumed =>
    let w1 : World := { w with pending_resume := w.pending_resume - 1 }
    if w1.resumed_observer then
      DataTypeManagerImpl.Observe .SYNC_RESUMED (w1.emit (.CallObserve .SYNC_RESUMED))
    else .ok w1
  | .Associating t =>
    .ok { w with dtc_state := Function.update w.dtc_state t .ASSOCIATING }
  | .StartDone t result =>
    let st : DataTypeController.State :=
      if result = .OK ∨ result = .OK_FIRST_RUN then .RUNNING else .NOT_RUNNING
    let w1 : World := { w with dtc_state := Function.update w.dtc_state t st }
    DataTypeManagerImpl.TypeStartCallback result (w1.emit (.CallTypeStartCallback result))
  | .BackendAccepts b => .ok { w with backend_accepting := b }

/-- Runs a sequence of events; `none` when an event is not allowed or a step fails. -/
def run (w : World) : List Event → Option World
  | [] => some w
  | e :: es =>
    if enabled w e then
      match step w e with
      | .ok w1 => run w1 es
      | .error _ => none
    else none

/-- The registry that holds one controller for each of the given types. -/
def registry (types : List ModelType) : TypeMap :=
  types.map (fun t => (t, some ⟨t⟩))

/-- The world right after construction over `registry types`. -/
def init (types : List ModelType) : World :=
  { state_ := .STOPPED, needs_start_ := [], needs_stop_ := [], current_dtc_ := none,
    controllers_ := registry types, dtc_state := fun _ => .NOT_RUNNING,
    paused_observer := false, resumed_observer := false,
    backend_accepting := true, pending_pause := 0, pending_resume := 0,
    trace := [] }

/-- The empty desired set. -/
def TypeSet.empty : TypeSet := ⟨[], List.sorted_nil⟩

/-- The desired set with one element. -/
def TypeSet.single (a : ModelType) : TypeSet := ⟨[a], List.sorted_singleton a⟩

/-- The desired set with two elements. -/
def TypeSet.pair (a b : ModelType) (h : a < b) : TypeSet :=
  ⟨[a, b], List.sorted_cons.mpr ⟨by simpa using h, List.sorted_singleton b⟩⟩

/-- The controller states a trace recorded at each `Stop` call: the controller and
the state it was in at the moment of the call. -/
def stopCalls (tr : List (Effect × Machine)) :
    List (DataTypeController × DataTypeController.State) :=
  tr.filterMap (fun e => match e.1 with
    | .Stop dtc => some (dtc, e.2.dtc_state dtc.type)
    | _ => none)

/-- The backend requests a trace recorded: the request and the number of accepted
requests the backend had not yet answered at the moment of the call. -/
def backendRequests (tr : List (Effect × Machine)) : List (Effect × Nat) :=
  tr.filterMap (fun e => match e.1 with
    | .RequestPause a => some (.RequestPause a, e.2.pending_pause + e.2.pending_resume)
    | .RequestResume a => some (.RequestResume a, e.2.pending_pause + e.2.pending_resume)
    | _ => none)

/-- The `Start` calls a trace recorded: the controller started and, of the given
types, those whose controller had a start in progress at the moment of the call. -/
def startCalls (types : List ModelType) (tr : List (Effect × Machine)) :
    List (DataTypeController × List ModelType) :=
  tr.filterMap (fun e => match e.1 with
    | .Start dtc => some (dtc, types.filter (fun t =>
        decide (e.2.dtc_state t = .MODEL_STARTING ∨ e.2.dtc_state t = .ASSOCIATING)))
    | _ => none)

/-- Well-formedness of a registry: keys strictly ascending, and a controller is stored
under the model type it reports. -/
def TypeMap.WellFormed (m : TypeMap) : Prop :=
  (m.map Prod.fst).Sorted (· < ·) ∧ ∀ k dtc, (k, some dtc) ∈ m → dtc.type = k

/-- A controller state with no start in progress and nothing running. -/
def idle (s : DataTypeController.State) : Prop :=
  s = .NOT_RUNNING ∨ s = .STOPPING

/-- The relation between the worlds before and after a piece of the manager that only
winds down: the work lists, the current controller and the registry are kept, a
controller changes state only from RUNNING to NOT_RUNNING, and the calls recorded are
no `Start` and only `Stop` calls on running controllers. -/
structure Calm (w w1 : World) : Prop where
  needs_start : w1.needs_start_ = w.needs_start_
  needs_stop : w1.needs_stop_ = w.needs_stop_
  current : w1.current_dtc_ = w.current_dtc_
  controllers : w1.controllers_ = w.controllers_
  dtc : ∀ t, w1.dtc_state t = w.dtc_state t ∨
    (w.dtc_state t = .RUNNING ∧ w1.dtc_state t = .NOT_RUNNING)
  trace : ∃ new, w1.trace = w.trace ++ new ∧
    ∀ e ∈ new, (∀ d, e.1 ≠ .Start d) ∧ (∀ d, e.1 = .Stop d → e.2.dtc_state d.type = .RUNNING)

/-- A world to try the theorems on: bookmarks, preferences and autofill registered,
preferences running, the manager CONFIGURED. -/
def example_world : World :=
  { init [syncable.BOOKMARKS, syncable.PREFERENCES, syncable.AUTOFILL] with
    state_ := .CONFIGURED
    dtc_state := fun t => if t = syncable.PREFERENCES then .RUNNING else .NOT_RUNNING }

/-- What holds of a world just before a start callback runs, and at every point between
events: the registry is well formed, `needs_start_` has no duplicates, every controller
behind its head is idle, its head is idle whenever the state is RESTARTING, and no
`Start` call recorded so far was made on a running controller. -/
structure Pre (w : World) : Prop where
  registry : w.controllers_.WellFormed
  nodup : w.needs_start_.Nodup
  tail_idle : ∀ d ∈ w.needs_start_.tail, idle (w.dtc_state d.type)
  head_ok : ∀ d, w.needs_start_.head? = some d →
    idle (w.dtc_state d.type) ∨ w.state_ ≠ .RESTARTING
  trace_ok : ∀ e ∈ w.trace, ∀ d, e.1 = .Start d → e.2.dtc_state d.type ≠ .RUNNING

/-- The invariant of the executions: `Pre`, and the head of `needs_start_` is not
running. -/
structure Inv (w : World) extends Pre w : Prop where
  head_not_running : ∀ d, w.needs_start_.head? = some d → w.dtc_state d.type ≠ .RUNNING

/-- The controllers a registry holds, in iteration order (null entries left out). -/
def TypeMap.controllers (m : TypeMap) : List DataTypeController :=
  m.filterMap Prod.snd

/-- A registry without null entries. -/
def TypeMap.NullFree (m : TypeMap) : Prop :=
  ∀ e ∈ m, e.2 ≠ none

/-- The registered controllers whose state is `RUNNING`, in registry order. -/
def World.running (w : World) : List DataTypeController :=
  w.controllers_.controllers.filter (fun d => decide (w.dtc_state d.type = .RUNNING))

/-- The fault that ends a run, if one does: `none` when every step succeeds or an event
is not allowed. -/
def runFault (w : World) : List Event → Option Fault
  | [] => none
  | e :: es =>
    if enabled w e then
      match step w e with
      | .ok w1 => runFault w1 es
      | .error f => some f
    else none

/-- The `SYNC_CONFIGURE_DONE` notifications a trace recorded: the result and the
manager's state at the moment of the call. -/
def doneCalls (tr : List (Effect × Machine)) :
    List (DataTypeManager.ConfigureResult × DataTypeManager.State) :=
  tr.filterMap (fun e => match e.1 with
    | .NotifyDone r => some (r, e.2.state_)
    | _ => none)

/-- The state a `SYNC_CONFIGURE_DONE` notification is emitted in, by its result:
`CONFIGURED` for `OK`, `STOPPED` for every failure. -/
def doneState : DataTypeManager.ConfigureResult → DataTypeManager.State
  | .OK => .CONFIGURED
  | _ => .STOPPED

/-- A recorded call that, when it is a `SYNC_CONFIGURE_DONE` notification, was made in
the state `doneState` gives for its result. -/
def DoneOk (e : Effect × Machine) : Prop :=
  ∀ r, e.1 = .NotifyDone r → e.2.state_ = doneState r

/-- The trace of `w1` is the trace of `w` followed by calls that all satisfy `P`. -/
def Grows (P : Effect × Machine → Prop) (w w1 : World) : Prop :=
  ∃ new, w1.trace = w.trace ++ new ∧ ∀ e ∈ new, P e

/-- A world to try the theorems on, in the middle of a configuration: bookmarks,
preferences and autofill registered, preferences running, the start of bookmarks in
progress and autofill waiting behind it. -/
def example_configuring : World :=
  { init [syncable.BOOKMARKS, syncable.PREFERENCES, syncable.AUTOFILL] with
    state_ := .CONFIGURING
    needs_start_ := [⟨syncable.BOOKMARKS⟩, ⟨syncable.AUTOFILL⟩]
    current_dtc_ := some ⟨syncable.BOOKMARKS⟩
    dtc_state := fun t =>
      if t = syncable.PREFERENCES then .RUNNING
      else if t = syncable.BOOKMARKS then .MODEL_STARTING else .NOT_RUNNING }

/-- A world to try `Restart` on: bookmarks and preferences registered and running, the
manager CONFIGURED, and bookmarks in needs_stop, as Configure({PREFERENCES}) leaves
them. -/
def example_restart : World :=
  { init [syncable.BOOKMARKS, syncable.PREFERENCES] with
    state_ := .CONFIGURED
    needs_stop_ := [⟨syncable.BOOKMARKS⟩]
    dtc_state := fun _ => .RUNNING }

/-- What holds of the current controller while the manager is CONFIGURING: it is set
and it is the head of `needs_start_`. -/
def CurrentIsHead (w : World) : Prop :=
  w.state_ = .CONFIGURING →
    ∃ d tail, w.current_dtc_ = some d ∧ w.needs_start_ = d :: tail

/-- Reads a record of boundary calls from the left, keeping whether a configure-started
notification has been emitted since the last configure-done (`o` is the flag to start
from); `none` as soon as a configure-done is met while the flag is down. -/
def pairing : Bool → List Effect → Option Bool
  | o, [] => some o
  | _, .NotifyStart :: rest => pairing true rest
  | o, .NotifyDone _ :: rest => if o then pairing false rest else none
  | o, _ :: rest => pairing o rest

/-- A recorded call that is neither of the two notifications. -/
def Silent (e : Effect × Machine) : Prop :=
  e.1 ≠ .NotifyStart ∧ ∀ r, e.1 ≠ .NotifyDone r

/-- What holds of the notifications recorded so far, between events and inside the
member functions: every configure-done has a configure-started before it and after the
previous configure-done, and in every state other than STOPPED and CONFIGURED a
configure-started has been emitted since the last configure-done. -/
def Open (w : World) : Prop :=
  ∃ o, pairing false (w.trace.map Prod.fst) = some o ∧
    (w.state_ ≠ .STOPPED → w.state_ ≠ .CONFIGURED → o = true)

/-- The two notifications a trace recorded, in order. -/
def notifications (tr : List (Effect × Machine)) : List Effect :=
  (tr.map Prod.fst).filter (fun e => match e with
    | .NotifyStart => true
    | .NotifyDone _ => true
    | _ => false)

/-! ## The release build

`DCHECK`, `DCHECK_EQ` and `NOTREACHED` expand to nothing in a release build: the
statements after a check run whatever the condition.  The member functions are given
again as that build compiles them; the collaborators, the events and the record of
calls are the ones above. -/

namespace Release

/-- How a run of the release build can leave defined behaviour. -/
inductive Undefined where
  /-- A member function is called through a null controller pointer. -/
  | null_deref
  /-- The call `needs_start_.erase(needs_start_.begin())` on an empty vector. -/
  | erase_at_end
deriving DecidableEq, Repr

/-- The loop of `FinishStop` over `controllers_`. -/
def FinishStop.loop : TypeMap → World → Except Undefined World
  | [], w => .ok w
  | (_, none) :: _, _ => .error .null_deref
  | (_, some dtc) :: rest, w =>
    if w.dtc_state dtc.type = .RUNNING then
      FinishStop.loop rest (DataTypeController.Stop dtc w).1
    else FinishStop.loop rest w

/-- Member `FinishStop`, without its entry check. -/
def FinishStop (w : World) : Except Undefined World := do
  let w1 ← FinishStop.loop w.controllers_ w
  pure { w1 with state_ := .STOPPED }

/-- Member `ResumeSyncer`. -/
def ResumeSyncer (w : World) : Except Undefined World :=
  let w1 := DataTypeManagerImpl.AddObserver .SYNC_RESUMED w
  let r := SyncBackendHost.RequestResume w1
  if r.1 then .ok r.2
  else do
    let w2 := DataTypeManagerImpl.RemoveObserver .SYNC_RESUMED r.2
    let w3 ← FinishStop w2
    pure (DataTypeManagerImpl.NotifyDone .UNRECOVERABLE_ERROR w3)

/-- Member `PauseSyncer`. -/
def PauseSyncer (w : World) : Except Undefined World :=
  let w1 := DataTypeManagerImpl.AddObserver .SYNC_PAUSED w
  let r := SyncBackendHost.RequestPause w1
  if r.1 then .ok r.2
  else do
    let w2 := DataTypeManagerImpl.RemoveObserver .SYNC_PAUSED r.2
    let w3 ← FinishStop w2
    pure (DataTypeManagerImpl.NotifyDone .UNRECOVERABLE_ERROR w3)

/-- Member `StartNextType`, without `DCHECK_EQ(state_, CONFIGURING)`. -/
def StartNextType (w : World) : Except Undefined World :=
  match w.needs_start_ with
  | dtc :: _ =>
    let w1 : World := { w with current_dtc_ := some dtc }
    .ok (DataTypeController.Start dtc w1)
  | [] =>
    let w1 : World := { w with state_ := .RESUME_PENDING }
    ResumeSyncer w1

/-- Member `TypeStartCallback`, without its three checks: the head of `needs_start_` is
erased whichever controller it is, and erasing from an empty vector is undefined.  The
two statements `LOG(INFO) << ... << started_dtc->name()` read the name through
`started_dtc`, the value `current_dtc_` had on entry, which can now be null.  The local
`configure_result` is initialised to `ABORTED` and the `default:` label leaves it so. -/
def TypeStartCallback (result : DataTypeController.StartResult) (w : World) :
    Except Undefined World :=
  if w.state_ = .RESTARTING then ResumeSyncer w
  else
    let started_dtc := w.current_dtc_
    match w.needs_start_ with
    | [] => .error .erase_at_end
    | _ :: tail =>
      let w1 : World := { w with needs_start_ := tail, current_dtc_ := none }
      if w1.state_ = .STOPPING then do
        let w2 ← FinishStop w1
        pure (DataTypeManagerImpl.NotifyDone .ABORTED w2)
      else if w1.state_ = .STOPPED then .ok w1
      else if started_dtc = none then .error .null_deref
      else if result = .OK ∨ result = .OK_FIRST_RUN then StartNextType w1
      else do
        let w2 ← FinishStop w1
        pure (DataTypeManagerImpl.NotifyDone
          ((DataTypeManagerImpl.TypeStartCallback.configure_result result).getD .ABORTED) w2)

/-- A call of `dtc->Stop()` made by the manager, with the start callback run inside it
when the controller aborts a start in progress. -/
def callStop (dtc : DataTypeController) (w : World) : Except Undefined World :=
  match DataTypeController.Stop dtc w with
  | (w1, some result) => TypeStartCallback result (w1.emit (.CallTypeStartCallback result))
  | (w1, none) => .ok w1

/-- The loop of `Restart` over `needs_stop_`. -/
def Restart.loop : List DataTypeController → World → Except Undefined World
  | [], w => .ok w
  | dtc :: rest, w => do
    let w1 ← callStop dtc w
    Restart.loop rest w1

/-- Member `Restart`, without its check of the state. -/
def Restart (w : World) : Except Undefined World :=
  if w.state_ = .DOWNLOAD_PENDING ∨ w.state_ = .PAUSE_PENDING ∨
     w.state_ = .CONFIGURING ∨ w.state_ = .RESUME_PENDING then
    .ok { w with state_ := .RESTARTING }
  else do
    let w1 : World := { w with current_dtc_ := none }
    let w2 := if w1.state_ = .STOPPED ∨ w1.state_ = .CONFIGURED then
      DataTypeManagerImpl.NotifyStart w1 else w1
    let w3 ← Restart.loop w2.needs_stop_ w2
    let w4 : World := { w3 with needs_stop_ := [] }
    let w5 : World := { w4 with state_ := .PAUSE_PENDING }
    PauseSyncer w5

/-- Member `Configure`; the two loops have no check and are the ones above. -/
def Configure (desired_types : TypeSet) (w : World) : Except Undefined World :=
  if w.state_ = .STOPPING then .ok w
  else
    match DataTypeManagerImpl.Configure.work_lists desired_types w with
    | .error _ => .error .null_deref
    | .ok w2 =>
      if w2.needs_start_.length = 0 ∧ w2.needs_stop_.length = 0 then
        let w3 : World := { w2 with state_ := .CONFIGURED }
        .ok (DataTypeManagerImpl.NotifyDone .OK (DataTypeManagerImpl.NotifyStart w3))
      else Restart w2

/-- Member `Stop`. -/
def Stop (w : World) : Except Undefined World :=
  if w.state_ = .STOPPED then .ok w
  else if w.state_ = .CONFIGURING then
    let w1 : World := { w with state_ := .STOPPING }
    match w1.current_dtc_ with
    | none => .error .null_deref
    | some dtc => callStop dtc w1
  else
    let w1 := if w.state_ = .PAUSE_PENDING then
      DataTypeManagerImpl.RemoveObserver .SYNC_PAUSED w else w
    let w2 := if w1.state_ = .RESUME_PENDING then
      DataTypeManagerImpl.RemoveObserver .SYNC_RESUMED w1 else w1
    let w3 : World := { w2 with state_ := .STOPPING }
    FinishStop w3

/-- Member `Observe`, without its two checks of the state. -/
def Observe (type : NotificationType) (w : World) : Except Undefined World :=
  match type with
  | .SYNC_PAUSED =>
    let w1 := DataTypeManagerImpl.RemoveObserver .SYNC_PAUSED w
    if w1.state_ = .RESTARTING then ResumeSyncer w1
    else StartNextType { w1 with state_ := .CONFIGURING }
  | .SYNC_RESUMED =>
    let w1 := DataTypeManagerImpl.RemoveObserver .SYNC_RESUMED w
    if w1.state_ = .RESTARTING then Restart w1
    else .ok (DataTypeManagerImpl.NotifyDone .OK { w1 with state_ := .CONFIGURED })

/-- One event of the release build; the events and what is recorded are those of
`browser_sync.step`. -/
def step (w : World) : Event → Except Undefined World
  | .Configure desired_types =>
    Configure desired_types (w.emit (.CallConfigure desired_types.elems))
  | .Stop => Stop (w.emit .CallStop)
  | .Paused =>
    let w1 : World := { w with pending_pause := w.pending_pause - 1 }
    if w1.paused_observer then
      Observe .SYNC_PAUSED (w1.emit (.CallObserve .SYNC_PAUSED))
    else .ok w1
  | .Resumed =>
    let w1 : World := { w with pending_resume := w.pending_resume - 1 }
    if w1.resumed_observer then
      Observe .SYNC_RESUMED (w1.emit (.CallObserve .SYNC_RESUMED))
    else .ok w1
  | .Associating t =>
    .ok { w with dtc_state := Function.update w.dtc_state t .ASSOCIATING }
  | .StartDone t result =>
    let st : DataTypeController.State :=
      if result = .OK ∨ result = .OK_FIRST_RUN then .RUNNING else .NOT_RUNNING
    let w1 : World := { w with dtc_state := Function.update w.dtc_state t st }
    TypeStartCallback result (w1.emit (.CallTypeStartCallback result))
  | .BackendAccepts b => .ok { w with backend_accepting := b }

/-- Runs a sequence of events in the release build; `none` when an event is not allowed
or a step leaves defined behaviour. -/
def run (w : World) : List Event → Option World
  | [] => some w
  | e :: es =>
    if enabled w e then
      match step w e with
      | .ok w1 => run w1 es
      | .error _ => none
    else none

end Release

/-! ## Theorems -/

open DataTypeManagerImpl

/-- What `Configure.work_lists` leaves alone: everything but the two work lists and
the registry. -/
theorem work_lists_frame {desired_types : TypeSet} {w w2 : World}
    (h : Configure.work_lists desired_types w = .ok w2) :
    w2.state_ = w.state_ ∧ w2.current_dtc_ = w.current_dtc_ ∧
    w2.dtc_state = w.dtc_state ∧ w2.trace = w.trace ∧
    w2.paused_observer = w.paused_observer ∧ w2.resumed_observer = w.resumed_observer ∧
    w2.backend_accepting = w.backend_accepting ∧
    w2.pending_pause = w.pending_pause ∧ w2.pending_resume = w.pending_resume := by
  unfold Configure.work_lists at h
  simp only at h
  split at h
  · cases h
  · cases h
    simp

/-- C1: in every state other than STOPPING, when both work lists Configure computes
are empty, Configure sets the state to CONFIGURED, its only boundary calls are the
configure-started notification followed by configure-done(OK) (so no Start, no Stop,
no pause or resume request), and no controller or backend state changes. -/
theorem Configure_nothing_changed (desired_types : TypeSet) (w w2 : World)
    (hstate : w.state_ ≠ .STOPPING)
    (hlists : Configure.work_lists desired_types w = .ok w2)
    (hstart : w2.needs_start_ = []) (hstop : w2.needs_stop_ = []) :
    ∃ w1, Configure desired_types w = .ok w1 ∧
      w1.state_ = .CONFIGURED ∧
      w1.trace.map Prod.fst = w.trace.map Prod.fst ++ [.NotifyStart, .NotifyDone .OK] ∧
      w1.needs_start_ = [] ∧ w1.needs_stop_ = [] ∧
      w1.current_dtc_ = w.current_dtc_ ∧ w1.dtc_state = w.dtc_state ∧
      w1.paused_observer = w.paused_observer ∧ w1.resumed_observer = w.resumed_observer ∧
      w1.pending_pause = w.pending_pause ∧ w1.pending_resume = w.pending_resume := by
  obtain ⟨_, h2, h3, h4, h5, h6, _, h8, h9⟩ := work_lists_frame hlists
  refine ⟨NotifyDone .OK (NotifyStart { w2 with state_ := .CONFIGURED }), ?_, ?_⟩
  · simp [Configure, hstate, hlists, hstart, hstop]
  · simp [NotifyDone, NotifyStart, World.emit, hstart, hstop, h2, h3, h4, h5, h6, h8, h9]

/-- C1 at a concrete input: bookmarks, preferences and autofill registered, preferences
running, the manager CONFIGURED, and Configure({PREFERENCES}), the set already active. -/
theorem Configure_nothing_changed_witness :
    ∃ w1, Configure (TypeSet.single syncable.PREFERENCES) example_world = .ok w1 ∧
      w1.state_ = .CONFIGURED ∧
      w1.trace.map Prod.fst =
        example_world.trace.map Prod.fst ++ [.NotifyStart, .NotifyDone .OK] ∧
      w1.needs_start_ = [] ∧ w1.needs_stop_ = [] ∧
      w1.current_dtc_ = example_world.current_dtc_ ∧
      w1.dtc_state = example_world.dtc_state ∧
      w1.paused_observer = example_world.paused_observer ∧
      w1.resumed_observer = example_world.resumed_observer ∧
      w1.pending_pause = example_world.pending_pause ∧
      w1.pending_resume = example_world.pending_resume :=
  Configure_nothing_changed (TypeSet.single syncable.PREFERENCES) example_world
    example_world (by decide) (by rfl) (by rfl) (by rfl)

/-- C10: Configure called while the state is STOPPING returns the world it was given:
the state, both work lists, the current controller, the registry and every
collaborator are unchanged and no boundary call is recorded. -/
theorem Configure_while_stopping (desired_types : TypeSet) (w : World)
    (h : w.state_ = .STOPPING) :
    Configure desired_types w = .ok w := by
  simp [Configure, h]

/-- C10 at a concrete input: bookmarks registered and running, the manager STOPPING,
and a Configure call that asks for nothing. -/
theorem Configure_while_stopping_witness :
    Configure TypeSet.empty
        { init [syncable.BOOKMARKS] with
          state_ := .STOPPING, dtc_state := fun _ => .RUNNING } =
      .ok { init [syncable.BOOKMARKS] with
            state_ := .STOPPING, dtc_state := fun _ => .RUNNING } :=
  Configure_while_stopping TypeSet.empty
    { init [syncable.BOOKMARKS] with state_ := .STOPPING, dtc_state := fun _ => .RUNNING }
    rfl

/-- C3: Configure({BOOKMARKS}), the paused event (BOOKMARKS is started and is
MODEL_STARTING), then Configure({BOOKMARKS}) again: both work lists are empty, so the
second call sets CONFIGURED and emits configure-done(OK) while the only desired
controller is still MODEL_STARTING and no controller is RUNNING. -/
theorem done_ok_while_desired_controller_starting :
    (run (init [syncable.BOOKMARKS])
        [.Configure (TypeSet.single syncable.BOOKMARKS), .Paused,
         .Configure (TypeSet.single syncable.BOOKMARKS)]).map
      (fun w => (w.state_, w.trace.map Prod.fst,
        w.trace.getLast?.map (fun e => (e.1, e.2.dtc_state syncable.BOOKMARKS)))) =
    some (.CONFIGURED,
      [.CallConfigure [syncable.BOOKMARKS], .NotifyStart, .AddObserver .SYNC_PAUSED,
       .RequestPause true, .CallObserve .SYNC_PAUSED, .RemoveObserver .SYNC_PAUSED,
       .Start ⟨syncable.BOOKMARKS⟩, .CallConfigure [syncable.BOOKMARKS], .NotifyStart,
       .NotifyDone .OK],
      some (.NotifyDone .OK, .MODEL_STARTING)) := by
  decide

/-- C4: Configure({BOOKMARKS}), the paused event, Configure({}) while BOOKMARKS is
MODEL_STARTING (needs_stop = [BOOKMARKS], state RESTARTING), the start fails with
ASSOCIATION_FAILED (BOOKMARKS is NOT_RUNNING), then the resumed event: Restart walks
the needs_stop list of the earlier Configure and calls Stop on BOOKMARKS, which is
NOT_RUNNING at the moment of the call. -/
theorem Restart_stops_not_running_controller :
    (run (init [syncable.BOOKMARKS])
        [.Configure (TypeSet.single syncable.BOOKMARKS), .Paused,
         .Configure TypeSet.empty,
         .StartDone syncable.BOOKMARKS .ASSOCIATION_FAILED, .Resumed]).map
      (fun w => (w.state_, w.trace.map Prod.fst, stopCalls w.trace)) =
    some (.PAUSE_PENDING,
      [.CallConfigure [syncable.BOOKMARKS], .NotifyStart, .AddObserver .SYNC_PAUSED,
       .RequestPause true, .CallObserve .SYNC_PAUSED, .RemoveObserver .SYNC_PAUSED,
       .Start ⟨syncable.BOOKMARKS⟩, .CallConfigure [],
       .CallTypeStartCallback .ASSOCIATION_FAILED, .AddObserver .SYNC_RESUMED,
       .RequestResume true, .CallObserve .SYNC_RESUMED, .RemoveObserver .SYNC_RESUMED,
       .Stop ⟨syncable.BOOKMARKS⟩, .AddObserver .SYNC_PAUSED, .RequestPause true],
      [(⟨syncable.BOOKMARKS⟩, .NOT_RUNNING)]) := by
  decide

/-- C6: Configure({BOOKMARKS}), the paused event, the start completes OK (a resume
request is accepted, state RESUME_PENDING), Configure({BOOKMARKS}) finds nothing to do
and sets CONFIGURED, then Configure({}) restarts from CONFIGURED: a pause request is
issued while the resume request is still unanswered, with no Stop() call in between. -/
theorem pause_requested_while_resume_outstanding :
    (run (init [syncable.BOOKMARKS])
        [.Configure (TypeSet.single syncable.BOOKMARKS), .Paused,
         .StartDone syncable.BOOKMARKS .OK,
         .Configure (TypeSet.single syncable.BOOKMARKS),
         .Configure TypeSet.empty]).map
      (fun w => (w.trace.map Prod.fst, backendRequests w.trace)) =
    some (
      [.CallConfigure [syncable.BOOKMARKS], .NotifyStart, .AddObserver .SYNC_PAUSED,
       .RequestPause true, .CallObserve .SYNC_PAUSED, .RemoveObserver .SYNC_PAUSED,
       .Start ⟨syncable.BOOKMARKS⟩, .CallTypeStartCallback .OK,
       .AddObserver .SYNC_RESUMED, .RequestResume true,
       .CallConfigure [syncable.BOOKMARKS], .NotifyStart, .NotifyDone .OK,
       .CallConfigure [], .NotifyStart, .Stop ⟨syncable.BOOKMARKS⟩,
       .AddObserver .SYNC_PAUSED, .RequestPause true],
      [(.RequestPause true, 0), (.RequestResume true, 0), (.RequestPause true, 1)]) := by
  decide

/-- C7: Configure({BOOKMARKS}), the paused event (BOOKMARKS is started),
Configure({BOOKMARKS}) finds nothing to do and sets CONFIGURED,
Configure({BOOKMARKS, PREFERENCES}) restarts from CONFIGURED, and the paused event
starts PREFERENCES: Start is called while the start of BOOKMARKS is still in progress
and no start callback has been delivered. -/
theorem Start_called_while_start_outstanding :
    (run (init [syncable.BOOKMARKS, syncable.PREFERENCES])
        [.Configure (TypeSet.single syncable.BOOKMARKS), .Paused,
         .Configure (TypeSet.single syncable.BOOKMARKS),
         .Configure (TypeSet.pair syncable.BOOKMARKS syncable.PREFERENCES (by decide)),
         .Paused]).map
      (fun w => (w.trace.map Prod.fst,
        startCalls [syncable.BOOKMARKS, syncable.PREFERENCES] w.trace)) =
    some (
      [.CallConfigure [syncable.BOOKMARKS], .NotifyStart, .AddObserver .SYNC_PAUSED,
       .RequestPause true, .CallObserve .SYNC_PAUSED, .RemoveObserver .SYNC_PAUSED,
       .Start ⟨syncable.BOOKMARKS⟩,
       .CallConfigure [syncable.BOOKMARKS], .NotifyStart, .NotifyDone .OK,
       .CallConfigure [syncable.BOOKMARKS, syncable.PREFERENCES], .NotifyStart,
       .AddObserver .SYNC_PAUSED, .RequestPause true,
       .CallObserve .SYNC_PAUSED, .RemoveObserver .SYNC_PAUSED,
       .Start ⟨syncable.PREFERENCES⟩],
      [(⟨syncable.BOOKMARKS⟩, []), (⟨syncable.PREFERENCES⟩, [syncable.BOOKMARKS])]) := by
  decide

theorem find_cons (k1 : ModelType) (p : Option DataTypeController) (rest : TypeMap)
    (k : ModelType) :
    TypeMap.find ((k1, p) :: rest) k = if k = k1 then p else TypeMap.find rest k := by
  unfold TypeMap.find
  by_cases h : k = k1
  · subst h; simp [List.lookup]
  · have : (k == k1) = false := by simpa using h
    simp [List.lookup, this, h]

theorem find_nil (k : ModelType) : TypeMap.find [] k = none := by
  simp [TypeMap.find]

theorem find_none_of_lt {m : TypeMap} {k : ModelType}
    (h : ∀ k1 ∈ m.map Prod.fst, k < k1) : m.find k = none := by
  induction m with
  | nil => exact find_nil k
  | cons e rest ih =>
    obtain ⟨k1, p⟩ := e
    rw [find_cons]
    have h1 : k < k1 := h k1 (by simp)
    have hne : k ≠ k1 := Nat.ne_of_lt h1
    simp only [hne, if_false]
    exact ih (fun k2 hk2 => h k2 (by simp at hk2 ⊢; exact Or.inr hk2))

theorem find_touch {m : TypeMap} (hm : (m.map Prod.fst).Sorted (· < ·))
    (k k2 : ModelType) :
    (m.touch k).find k2 = m.find k2 := by
  induction m with
  | nil =>
    simp only [TypeMap.touch, find_cons, find_nil]
    split <;> rfl
  | cons e rest ih =>
    obtain ⟨k1, p⟩ := e
    simp only [List.map_cons, List.sorted_cons] at hm
    simp only [TypeMap.touch]
    split
    · rfl
    · rename_i hne
      split
      · rename_i hlt
        rw [find_cons]
        split
        · rename_i h2
          subst h2
          rw [find_cons]
          simp only [hne, if_false]
          have hlt1 : k2 < k1 := hlt
          exact (find_none_of_lt (fun k3 hk3 => Nat.lt_trans hlt1 (hm.1 k3 hk3))).symm
        · rfl
      · simp only [find_cons, ih hm.2]

theorem touch_keys (m : TypeMap) (k k2 : ModelType) :
    k2 ∈ (m.touch k).map Prod.fst ↔ k2 = k ∨ k2 ∈ m.map Prod.fst := by
  induction m with
  | nil => simp [TypeMap.touch]
  | cons e rest ih =>
    obtain ⟨k1, p⟩ := e
    simp only [TypeMap.touch]
    split
    · rename_i h
      subst h
      simp
    · split
      · simp
      · simp only [List.map_cons, List.mem_cons, ih]
        tauto

theorem touch_sorted {m : TypeMap} (hm : (m.map Prod.fst).Sorted (· < ·))
    (k : ModelType) : ((m.touch k).map Prod.fst).Sorted (· < ·) := by
  induction m with
  | nil => simp [TypeMap.touch]
  | cons e rest ih =>
    obtain ⟨k1, p⟩ := e
    simp only [List.map_cons, List.sorted_cons] at hm
    simp only [TypeMap.touch]
    split
    · simpa [List.sorted_cons] using hm
    · rename_i hne
      split
      · rename_i hlt
        have hlt1 : k < k1 := hlt
        simp only [List.map_cons, List.sorted_cons, List.mem_cons]
        refine ⟨?_, hm⟩
        rintro b (rfl | hb)
        · exact hlt1
        · exact Nat.lt_trans hlt1 (hm.1 b hb)
      · rename_i hnlt
        simp only [List.map_cons, List.sorted_cons]
        refine ⟨?_, ih hm.2⟩
        intro b hb
        rcases (touch_keys rest k b).mp hb with rfl | hb
        · have h1 : ¬ b < k1 := hnlt
          exact Nat.lt_of_le_of_ne (Nat.le_of_not_lt h1) (fun h => hne h.symm)
        · exact hm.1 b hb

theorem mem_touch_some (m : TypeMap) (k k2 : ModelType) (d : DataTypeController) :
    (k2, some d) ∈ m.touch k ↔ (k2, some d) ∈ m := by
  induction m with
  | nil => simp [TypeMap.touch]
  | cons e rest ih =>
    obtain ⟨k1, p⟩ := e
    simp only [TypeMap.touch]
    split
    · rfl
    · split
      · simp
      · simp [ih]

theorem find_some_mem {m : TypeMap} {k : ModelType} {d : DataTypeController}
    (h : m.find k = some d) : (k, some d) ∈ m := by
  induction m with
  | nil => simp [find_nil] at h
  | cons e rest ih =>
    obtain ⟨k1, p⟩ := e
    rw [find_cons] at h
    split at h
    · rename_i hk
      subst hk
      subst h
      simp
    · exact List.mem_cons_of_mem _ (ih h)

theorem mem_find_some {m : TypeMap} (hm : (m.map Prod.fst).Sorted (· < ·))
    {k : ModelType} {d : DataTypeController}
    (h : (k, some d) ∈ m) : m.find k = some d := by
  induction m with
  | nil => simp at h
  | cons e rest ih =>
    obtain ⟨k1, p⟩ := e
    rw [find_cons]
    simp only [List.map_cons, List.sorted_cons] at hm
    rcases List.mem_cons.mp h with h1 | h1
    · cases h1
      simp
    · have hlt : k1 < k := hm.1 k (List.mem_map.mpr ⟨_, h1, rfl⟩)
      have hne : k ≠ k1 := Nat.ne_of_gt hlt
      simp [hne, ih hm.2 h1]

theorem start_loop_snd_sorted (st : ModelType → DataTypeController.State)
    (ts : List ModelType) {m : TypeMap} (hm : (m.map Prod.fst).Sorted (· < ·)) :
    (((Configure.start_loop st ts m).2).map Prod.fst).Sorted (· < ·) := by
  induction ts generalizing m with
  | nil => simpa [Configure.start_loop] using hm
  | cons t ts ih =>
    have h := ih (touch_sorted hm t)
    simp only [Configure.start_loop]
    split
    · split <;> exact h
    · exact h

theorem start_loop_snd_mem (st : ModelType → DataTypeController.State)
    (ts : List ModelType) (m : TypeMap) (k : ModelType) (d : DataTypeController) :
    (k, some d) ∈ (Configure.start_loop st ts m).2 ↔ (k, some d) ∈ m := by
  induction ts generalizing m with
  | nil => simp [Configure.start_loop]
  | cons t ts ih =>
    have h := (ih (m.touch t)).trans (mem_touch_some m t k d)
    simp only [Configure.start_loop]
    split
    · split <;> exact h
    · exact h

theorem start_loop_fst_mem (st : ModelType → DataTypeController.State)
    (ts : List ModelType) {m : TypeMap} (hm : (m.map Prod.fst).Sorted (· < ·))
    (d : DataTypeController) :
    d ∈ (Configure.start_loop st ts m).1 ↔
      ∃ t ∈ ts, m.find t = some d ∧ (st d.type = .NOT_RUNNING ∨ st d.type = .STOPPING) := by
  induction ts generalizing m with
  | nil => simp [Configure.start_loop]
  | cons t ts ih =>
    have h := ih (touch_sorted hm t)
    simp only [find_touch hm] at h
    simp only [Configure.start_loop, find_touch hm]
    split
    · rename_i d1 hd1
      split
      · rename_i hidle
        simp only [List.mem_cons, h, exists_eq_or_imp, hd1, Option.some.injEq]
        constructor
        · rintro (rfl | h2)
          · exact Or.inl ⟨rfl, hidle⟩
          · exact Or.inr h2
        · rintro (⟨rfl, _⟩ | h2)
          · exact Or.inl rfl
          · exact Or.inr h2
      · rename_i hidle
        simp only [List.mem_cons, h, exists_eq_or_imp, hd1, Option.some.injEq]
        constructor
        · intro h2
          exact Or.inr h2
        · rintro (⟨rfl, h3⟩ | h2)
          · exact absurd h3 hidle
          · exact h2
    · rename_i hnone
      simp only [List.mem_cons, h, exists_eq_or_imp, hnone]
      simp

theorem start_loop_fst_nodup (st : ModelType → DataTypeController.State)
    {ts : List ModelType} (hts : ts.Nodup) {m : TypeMap}
    (hm : (m.map Prod.fst).Sorted (· < ·))
    (hkey : ∀ k d, (k, some d) ∈ m → d.type = k) :
    (Configure.start_loop st ts m).1.Nodup := by
  induction ts generalizing m with
  | nil => simp [Configure.start_loop]
  | cons t ts ih =>
    have hkey1 : ∀ k d, (k, some d) ∈ m.touch t → d.type = k :=
      fun k d hk => hkey k d ((mem_touch_some m t k d).mp hk)
    have h := ih (List.nodup_cons.mp hts).2 (touch_sorted hm t) hkey1
    have hmem := start_loop_fst_mem st ts (touch_sorted hm t)
    simp only [find_touch hm] at hmem
    simp only [Configure.start_loop, find_touch hm]
    split
    · rename_i d1 hd1
      split
      · refine List.nodup_cons.mpr ⟨?_, h⟩
        intro hin
        obtain ⟨t1, ht1, hf, _⟩ := (hmem d1).mp hin
        have e1 : d1.type = t := hkey t d1 (find_some_mem hd1)
        have e2 : d1.type = t1 := hkey t1 d1 (find_some_mem hf)
        have : t1 = t := e2.symm.trans e1
        subst this
        exact (List.nodup_cons.mp hts).1 ht1
      · exact h
    · exact h

theorem stop_loop_mem {st : ModelType → DataTypeController.State} {D : List ModelType}
    {m : TypeMap} {l : List DataTypeController}
    (h : Configure.stop_loop st D m = .ok l) (d : DataTypeController) :
    d ∈ l ↔ (∃ k, (k, some d) ∈ m) ∧ d.type ∉ D ∧
      (st d.type = .MODEL_STARTING ∨ st d.type = .ASSOCIATING ∨ st d.type = .RUNNING) := by
  induction m generalizing l with
  | nil =>
    simp [Configure.stop_loop] at h
    subst h
    simp
  | cons e rest ih =>
    obtain ⟨k1, p⟩ := e
    cases p with
    | none => simp [Configure.stop_loop] at h
    | some d1 =>
      simp only [Configure.stop_loop, bind, Except.bind] at h
      split at h
      · cases h
      · rename_i l1 hl1
        have h1 := ih hl1
        split at h
        · rename_i hc
          simp only [pure, Except.pure, Except.ok.injEq] at h
          subst h
          simp only [List.mem_cons, h1, Prod.mk.injEq, Option.some.injEq, exists_or,
            exists_and_left, exists_eq, and_true]
          constructor
          · rintro (rfl | h2)
            · exact ⟨Or.inl ⟨_, rfl, rfl⟩, hc⟩
            · exact ⟨Or.inr h2.1, h2.2⟩
          · rintro ⟨⟨_, _, rfl⟩ | h2, h3⟩
            · exact Or.inl rfl
            · exact Or.inr ⟨h2, h3⟩
        · rename_i hc
          simp only [pure, Except.pure, Except.ok.injEq] at h
          subst h
          simp only [List.mem_cons, h1, Prod.mk.injEq, Option.some.injEq, exists_or,
            exists_and_left, exists_eq, and_true]
          constructor
          · rintro h2
            exact ⟨Or.inr h2.1, h2.2⟩
          · rintro ⟨⟨_, _, rfl⟩ | h2, h3⟩
            · exact absurd h3 hc
            · exact ⟨h2, h3⟩

theorem stop_loop_nodup {st : ModelType → DataTypeController.State} {D : List ModelType}
    {m : TypeMap} {l : List DataTypeController}
    (hm : (m.map Prod.fst).Sorted (· < ·))
    (hkey : ∀ k d, (k, some d) ∈ m → d.type = k)
    (h : Configure.stop_loop st D m = .ok l) : l.Nodup := by
  induction m generalizing l with
  | nil =>
    simp [Configure.stop_loop] at h
    subst h
    simp
  | cons e rest ih =>
    obtain ⟨k1, p⟩ := e
    simp only [List.map_cons, List.sorted_cons] at hm
    have hkey1 : ∀ k d, (k, some d) ∈ rest → d.type = k :=
      fun k d hk => hkey k d (List.mem_cons_of_mem _ hk)
    cases p with
    | none => simp [Configure.stop_loop] at h
    | some d1 =>
      simp only [Configure.stop_loop, bind, Except.bind] at h
      split at h
      · cases h
      · rename_i l1 hl1
        have h1 := ih hm.2 hkey1 hl1
        split at h
        · simp only [pure, Except.pure, Except.ok.injEq] at h
          subst h
          refine List.nodup_cons.mpr ⟨?_, h1⟩
          intro hin
          obtain ⟨⟨k, hk⟩, _⟩ := (stop_loop_mem hl1 d1).mp hin
          have e1 : d1.type = k1 := hkey k1 d1 (by simp)
          have e2 : d1.type = k := hkey1 k d1 hk
          have hlt : k1 < k := hm.1 k (List.mem_map.mpr ⟨_, hk, rfl⟩)
          exact absurd (e1.symm.trans e2) (Nat.ne_of_lt hlt)
        · simp only [pure, Except.pure, Except.ok.injEq] at h
          subst h
          exact h1

theorem mem_sort (l : List DataTypeController) (d : DataTypeController) :
    d ∈ sort l ↔ d ∈ l :=
  (List.perm_insertionSort _ l).mem_iff

theorem nodup_sort (l : List DataTypeController) : (sort l).Nodup ↔ l.Nodup :=
  (List.perm_insertionSort _ l).nodup_iff

theorem sorted_sort (l : List DataTypeController) :
    (sort l).Sorted (fun lhs rhs => order lhs.type ≤ order rhs.type) := by
  haveI : IsTotal DataTypeController (fun lhs rhs => order lhs.type ≤ order rhs.type) :=
    ⟨fun a b => Nat.le_total _ _⟩
  haveI : IsTrans DataTypeController (fun lhs rhs => order lhs.type ≤ order rhs.type) :=
    ⟨fun _ _ _ h1 h2 => Nat.le_trans h1 h2⟩
  exact List.sorted_insertionSort _ l

theorem sort_eq_nil {l : List DataTypeController} : sort l = [] ↔ l = [] := by
  constructor
  · intro h
    have := (List.perm_insertionSort (fun lhs rhs => order lhs.type ≤ order rhs.type) l)
    unfold sort at h
    rw [h] at this
    exact List.Perm.eq_nil this.symm
  · rintro rfl
    rfl

theorem Calm.refl (w : World) : Calm w w :=
  ⟨rfl, rfl, rfl, rfl, fun _ => Or.inl rfl, [], by simp, by simp⟩

theorem Calm.trans {w w1 w2 : World} (h1 : Calm w w1) (h2 : Calm w1 w2) : Calm w w2 := by
  obtain ⟨n1, hn1, hq1⟩ := h1.trace
  obtain ⟨n2, hn2, hq2⟩ := h2.trace
  refine ⟨h2.needs_start.trans h1.needs_start, h2.needs_stop.trans h1.needs_stop,
    h2.current.trans h1.current, h2.controllers.trans h1.controllers, ?_, n1 ++ n2, ?_, ?_⟩
  · intro t
    rcases h1.dtc t with a | ⟨a, b⟩ <;> rcases h2.dtc t with c | ⟨c, d⟩
    · exact Or.inl (c.trans a)
    · exact Or.inr ⟨a ▸ c, d⟩
    · exact Or.inr ⟨a, c.trans b⟩
    · exact Or.inr ⟨a, d⟩
  · rw [hn2, hn1, List.append_assoc]
  · intro e he
    rcases List.mem_append.mp he with h | h
    · exact hq1 e h
    · exact hq2 e h

theorem calm_emit (w : World) (e : Effect) (h1 : ∀ d, e ≠ .Start d) (h2 : ∀ d, e ≠ .Stop d) :
    Calm w (w.emit e) := by
  refine ⟨rfl, rfl, rfl, rfl, fun _ => Or.inl rfl, [(e, w.toMachine)], rfl, ?_⟩
  intro x hx
  simp only [List.mem_singleton] at hx
  subst hx
  exact ⟨h1, fun d hd => absurd hd (h2 d)⟩

theorem calm_AddObserver (type : NotificationType) (w : World) :
    Calm w (AddObserver type w) := by
  have h := calm_emit w (.AddObserver type) (by simp) (by simp)
  cases type <;> exact ⟨h.1, h.2, h.3, h.4, h.5, h.6⟩

theorem calm_RemoveObserver (type : NotificationType) (w : World) :
    Calm w (RemoveObserver type w) := by
  have h := calm_emit w (.RemoveObserver type) (by simp) (by simp)
  cases type <;> exact ⟨h.1, h.2, h.3, h.4, h.5, h.6⟩

theorem calm_NotifyDone (r : DataTypeManager.ConfigureResult) (w : World) :
    Calm w (NotifyDone r w) :=
  calm_emit w (.NotifyDone r) (by simp) (by simp)

theorem calm_NotifyStart (w : World) : Calm w (NotifyStart w) :=
  calm_emit w .NotifyStart (by simp) (by simp)

theorem calm_set_state (w : World) (s : DataTypeManager.State) :
    Calm w { w with state_ := s } :=
  ⟨rfl, rfl, rfl, rfl, fun _ => Or.inl rfl, [], by simp, by simp⟩

theorem calm_RequestResume (w : World) : Calm w (SyncBackendHost.RequestResume w).2 := by
  have h := calm_emit w (.RequestResume w.backend_accepting) (by simp) (by simp)
  unfold SyncBackendHost.RequestResume
  simp only
  split <;> exact ⟨h.1, h.2, h.3, h.4, h.5, h.6⟩

theorem calm_RequestPause (w : World) : Calm w (SyncBackendHost.RequestPause w).2 := by
  have h := calm_emit w (.RequestPause w.backend_accepting) (by simp) (by simp)
  unfold SyncBackendHost.RequestPause
  simp only
  split <;> exact ⟨h.1, h.2, h.3, h.4, h.5, h.6⟩

theorem calm_Stop_running (dtc : DataTypeController) (w : World)
    (h : w.dtc_state dtc.type = .RUNNING) : Calm w (DataTypeController.Stop dtc w).1 := by
  have hs : (DataTypeController.Stop dtc w).1 =
      { w.emit (.Stop dtc) with
        dtc_state := Function.update w.dtc_state dtc.type .NOT_RUNNING } := by
    simp [DataTypeController.Stop, World.emit, h]
  rw [hs]
  refine ⟨rfl, rfl, rfl, rfl, ?_, [(.Stop dtc, w.toMachine)], rfl, ?_⟩
  · intro t
    by_cases ht : t = dtc.type
    · subst ht
      exact Or.inr ⟨h, by simp [World.emit]⟩
    · exact Or.inl (by simp [World.emit, Function.update, ht])
  · intro x hx
    simp only [List.mem_singleton] at hx
    subst hx
    refine ⟨by simp, ?_⟩
    intro d hd
    simp only [Effect.Stop.injEq] at hd
    subst hd
    exact h

theorem state_Stop (dtc : DataTypeController) (w : World) :
    (DataTypeController.Stop dtc w).1.state_ = w.state_ := by
  simp only [DataTypeController.Stop, World.emit]
  split <;> rfl

theorem FinishStop_loop_calm {m : TypeMap} {w w1 : World}
    (h : FinishStop.loop m w = .ok w1) : Calm w w1 ∧ w1.state_ = w.state_ := by
  induction m generalizing w with
  | nil =>
    simp only [FinishStop.loop, Except.ok.injEq] at h
    subst h
    exact ⟨Calm.refl _, rfl⟩
  | cons e rest ih =>
    obtain ⟨k, p⟩ := e
    cases p with
    | none => simp [FinishStop.loop] at h
    | some dtc =>
      simp only [FinishStop.loop] at h
      split at h
      · rename_i hr
        obtain ⟨a, b⟩ := ih h
        exact ⟨(calm_Stop_running dtc w hr).trans a, b.trans (state_Stop dtc w)⟩
      · exact ih h

theorem FinishStop_calm {w w1 : World} (h : FinishStop w = .ok w1) :
    Calm w w1 ∧ w1.state_ = .STOPPED := by
  simp only [FinishStop, DCHECK, bind, Except.bind, pure, Except.pure] at h
  split at h
  · cases h
  · split at h
    · cases h
    · rename_i w2 hw2
      simp only [Except.ok.injEq] at h
      subst h
      exact ⟨(FinishStop_loop_calm hw2).1.trans (calm_set_state _ _), rfl⟩

theorem ResumeSyncer_calm {w w1 : World} (h : ResumeSyncer w = .ok w1) :
    Calm w w1 ∧ (w1.state_ = w.state_ ∨ w1.state_ = .STOPPED) := by
  have c1 := (calm_AddObserver .SYNC_RESUMED w).trans
    (calm_RequestResume (AddObserver .SYNC_RESUMED w))
  have s1 : (SyncBackendHost.RequestResume (AddObserver .SYNC_RESUMED w)).2.state_ = w.state_ := by
    simp only [SyncBackendHost.RequestResume, AddObserver, World.emit]
    split <;> rfl
  simp only [ResumeSyncer, bind, Except.bind, pure, Except.pure] at h
  split at h
  · simp only [Except.ok.injEq] at h
    subst h
    exact ⟨c1, Or.inl s1⟩
  · split at h
    · cases h
    · rename_i w3 hw3
      simp only [Except.ok.injEq] at h
      subst h
      obtain ⟨a, b⟩ := FinishStop_calm hw3
      exact ⟨((c1.trans (calm_RemoveObserver _ _)).trans a).trans (calm_NotifyDone _ _),
        Or.inr b⟩

theorem PauseSyncer_calm {w w1 : World} (h : PauseSyncer w = .ok w1) :
    Calm w w1 ∧ (w1.state_ = w.state_ ∨ w1.state_ = .STOPPED) := by
  have c1 := (calm_AddObserver .SYNC_PAUSED w).trans
    (calm_RequestPause (AddObserver .SYNC_PAUSED w))
  have s1 : (SyncBackendHost.RequestPause (AddObserver .SYNC_PAUSED w)).2.state_ = w.state_ := by
    simp only [SyncBackendHost.RequestPause, AddObserver, World.emit]
    split <;> rfl
  simp only [PauseSyncer, bind, Except.bind, pure, Except.pure] at h
  split at h
  · simp only [Except.ok.injEq] at h
    subst h
    exact ⟨c1, Or.inl s1⟩
  · split at h
    · cases h
    · rename_i w3 hw3
      simp only [Except.ok.injEq] at h
      subst h
      obtain ⟨a, b⟩ := FinishStop_calm hw3
      exact ⟨((c1.trans (calm_RemoveObserver _ _)).trans a).trans (calm_NotifyDone _ _),
        Or.inr b⟩

theorem TypeStartCallback_no_current (r : DataTypeController.StartResult) (w : World)
    (h : w.current_dtc_ = none) : TypeStartCallback r w = .error .dcheck := by
  simp [TypeStartCallback, h]

theorem callStop_no_current {dtc : DataTypeController} {w w1 : World}
    (hc : w.current_dtc_ = none) (h : callStop dtc w = .ok w1) :
    w1 = { w.emit (.Stop dtc) with
           dtc_state := Function.update w.dtc_state dtc.type .NOT_RUNNING } := by
  unfold callStop DataTypeController.Stop at h
  simp only at h
  split at h
  · rename_i w2 r heq
    have : w2.current_dtc_ = none := by
      split at heq
      · cases heq
        exact hc
      · cases heq
    rw [TypeStartCallback_no_current r _ (by simpa [World.emit] using this)] at h
    cases h
  · rename_i w2 heq
    split at heq
    · cases heq
    · simp only [Prod.mk.injEq, and_true] at heq
      simp only [Except.ok.injEq] at h
      rw [← h, ← heq]
      rfl

theorem Restart_loop_no_current {l : List DataTypeController} {w w1 : World}
    (hc : w.current_dtc_ = none) (h : Restart.loop l w = .ok w1) :
    w1.needs_start_ = w.needs_start_ ∧ w1.needs_stop_ = w.needs_stop_ ∧
    w1.current_dtc_ = none ∧ w1.controllers_ = w.controllers_ ∧ w1.state_ = w.state_ ∧
    (∀ d ∈ l, w1.dtc_state d.type = .NOT_RUNNING) ∧
    (∀ t, w1.dtc_state t = w.dtc_state t ∨
      (w1.dtc_state t = .NOT_RUNNING ∧ (⟨t⟩ : DataTypeController) ∈ l)) := by
  induction l generalizing w with
  | nil =>
    simp only [Restart.loop, Except.ok.injEq] at h
    subst h
    simp [hc]
  | cons d rest ih =>
    simp only [Restart.loop, bind, Except.bind] at h
    split at h
    · cases h
    · rename_i w2 hw2
      have e := callStop_no_current hc hw2
      obtain ⟨a1, a2, a3, a4, a5, a6, a7⟩ := ih (by rw [e]; exact hc) h
      subst e
      refine ⟨a1, a2, a3, a4, a5, ?_, ?_⟩
      · intro x hx
        rcases List.mem_cons.mp hx with rfl | hx
        · rcases a7 x.type with b | b
          · rw [b]
            simp [World.emit]
          · exact b.1
        · exact a6 x hx
      · intro t
        rcases a7 t with b | b
        · by_cases ht : t = d.type
          · subst ht
            right
            refine ⟨?_, List.mem_cons_self _ _⟩
            rw [b]
            simp [World.emit]
          · left
            rw [b]
            simp [World.emit, Function.update, ht]
        · exact Or.inr ⟨b.1, List.mem_cons_of_mem _ b.2⟩

theorem Restart_frame {w w1 : World} (h : Restart w = .ok w1) :
    w1.needs_start_ = w.needs_start_ ∧ w1.controllers_ = w.controllers_ ∧
    ((w1.needs_stop_ = w.needs_stop_ ∧ w1.dtc_state = w.dtc_state) ∨
     (w1.needs_stop_ = [] ∧ (∀ d ∈ w.needs_stop_, w1.dtc_state d.type = .NOT_RUNNING) ∧
      ∀ t, w1.dtc_state t = w.dtc_state t ∨
        (w1.dtc_state t = .NOT_RUNNING ∧
          ((⟨t⟩ : DataTypeController) ∈ w.needs_stop_ ∨ w.dtc_state t = .RUNNING)))) := by
  unfold Restart at h
  split at h
  · simp only [Except.ok.injEq] at h
    subst h
    exact ⟨rfl, rfl, Or.inl ⟨rfl, rfl⟩⟩
  · simp only [DCHECK, bind, Except.bind] at h
    split at h
    · cases h
    · split at h
      · cases h
      · rename_i w3 hw3
        obtain ⟨c, _⟩ := PauseSyncer_calm h
        have hcur : (if w.state_ = .STOPPED ∨ w.state_ = .CONFIGURED then
            NotifyStart { w with current_dtc_ := none }
            else { w with current_dtc_ := none }).current_dtc_ = none := by
          split <;> rfl
        obtain ⟨a1, a2, a3, a4, a5, a6, a7⟩ := Restart_loop_no_current hcur hw3
        have b1 : w3.needs_start_ = w.needs_start_ := by
          rw [a1]; split <;> rfl
        have b4 : w3.controllers_ = w.controllers_ := by
          rw [a4]; split <;> rfl
        have b6 : ∀ d ∈ w.needs_stop_, w3.dtc_state d.type = .NOT_RUNNING := by
          intro d hd
          apply a6
          split <;> exact hd
        have b7 : ∀ t, w3.dtc_state t = w.dtc_state t ∨
            (w3.dtc_state t = .NOT_RUNNING ∧ (⟨t⟩ : DataTypeController) ∈ w.needs_stop_) := by
          intro t
          rcases a7 t with b | b
          · left
            rw [b]; split <;> rfl
          · right
            refine ⟨b.1, ?_⟩
            have := b.2
            split at this <;> exact this
        refine ⟨c.needs_start.trans b1, c.controllers.trans b4, Or.inr ⟨c.needs_stop, ?_, ?_⟩⟩
        · intro d hd
          rcases c.dtc d.type with e | e
          · rw [e]; exact b6 d hd
          · exact e.2
        · intro t
          rcases c.dtc t with e | e
          · rcases b7 t with f | f
            · exact Or.inl (e.trans f)
            · exact Or.inr ⟨e.trans f.1, Or.inl f.2⟩
          · rcases b7 t with f | f
            · exact Or.inr ⟨e.2, Or.inr (f ▸ e.1)⟩
            · exact Or.inr ⟨e.2, Or.inl f.2⟩

theorem Configure_frame {desired_types : TypeSet} {w w1 : World}
    (hs : w.state_ ≠ .STOPPING) (h : Configure desired_types w = .ok w1) :
    ∃ w2, Configure.work_lists desired_types w = .ok w2 ∧
      w1.needs_start_ = w2.needs_start_ ∧ w1.controllers_ = w2.controllers_ ∧
      ((w1.needs_stop_ = w2.needs_stop_ ∧ w1.dtc_state = w.dtc_state) ∨
       (w1.needs_stop_ = [] ∧ (∀ d ∈ w2.needs_stop_, w1.dtc_state d.type = .NOT_RUNNING) ∧
        ∀ t, w1.dtc_state t = w.dtc_state t ∨
          (w1.dtc_state t = .NOT_RUNNING ∧
            ((⟨t⟩ : DataTypeController) ∈ w2.needs_stop_ ∨ w.dtc_state t = .RUNNING)))) := by
  unfold Configure at h
  simp only [hs, if_false] at h
  split at h
  · cases h
  · rename_i w2 hw2
    have hd : w2.dtc_state = w.dtc_state := (work_lists_frame hw2).2.2.1
    refine ⟨w2, hw2, ?_⟩
    split at h
    · simp only [Except.ok.injEq] at h
      subst h
      exact ⟨rfl, rfl, Or.inl ⟨rfl, hd⟩⟩
    · have := Restart_frame h
      rw [hd] at this
      exact this

theorem find_iff_mem {m : TypeMap} {l : List ModelType} {P : Prop} (hm : m.WellFormed)
    (d : DataTypeController) :
    (∃ t, t ∈ l ∧ m.find t = some d ∧ P) ↔
      ((d.type, some d) ∈ m ∧ d.type ∈ l ∧ P) := by
  constructor
  · rintro ⟨t, ht, hf, hp⟩
    have hmem := find_some_mem hf
    have e := hm.2 t d hmem
    subst e
    exact ⟨hmem, ht, hp⟩
  · rintro ⟨h1, h2, h3⟩
    exact ⟨d.type, h2, mem_find_some hm.1 h1, h3⟩

theorem ok_of_toBool {r : Except Fault World} (h : r.toBool = true) : ∃ w, r = .ok w := by
  cases r with
  | error f => simp [Except.toBool] at h
  | ok w => exact ⟨w, rfl⟩

theorem registry_wellFormed {types : List ModelType} (h : types.Sorted (· < ·)) :
    (registry types).WellFormed := by
  constructor
  · have : (registry types).map Prod.fst = types := by
      simp [registry, Function.comp_def]
    rw [this]
    exact h
  · intro k dtc hk
    simp only [registry, List.mem_map, Prod.mk.injEq, Option.some.injEq] at hk
    obtain ⟨t, _, rfl, rfl⟩ := hk
    rfl

/-- The two lists `Configure.work_lists` computes, over a well-formed registry. -/
theorem work_lists_spec {desired_types : TypeSet} {w w2 : World}
    (hwf : w.controllers_.WellFormed)
    (h : Configure.work_lists desired_types w = .ok w2) :
    (∀ dtc, dtc ∈ w2.needs_start_ ↔
      ((dtc.type, some dtc) ∈ w.controllers_ ∧ dtc.type ∈ desired_types.elems ∧
        (w.dtc_state dtc.type = .NOT_RUNNING ∨ w.dtc_state dtc.type = .STOPPING))) ∧
    w2.needs_start_.Nodup ∧
    w2.needs_start_.Sorted (fun lhs rhs => order lhs.type ≤ order rhs.type) ∧
    (∀ dtc, dtc ∈ w2.needs_stop_ ↔
      ((dtc.type, some dtc) ∈ w.controllers_ ∧ dtc.type ∉ desired_types.elems ∧
        (w.dtc_state dtc.type = .MODEL_STARTING ∨ w.dtc_state dtc.type = .ASSOCIATING ∨
         w.dtc_state dtc.type = .RUNNING))) ∧
    w2.needs_stop_.Nodup ∧
    w2.needs_stop_.Sorted (fun lhs rhs => order lhs.type ≤ order rhs.type) := by
  unfold Configure.work_lists at h
  simp only at h
  split at h
  · cases h
  · rename_i l hl
    simp only [Except.ok.injEq] at h
    subst h
    have hsorted := start_loop_snd_sorted w.dtc_state desired_types.elems hwf.1
    have hkey : ∀ k d, (k, some d) ∈
        (Configure.start_loop w.dtc_state desired_types.elems w.controllers_).2 → d.type = k :=
      fun k d hk => hwf.2 k d ((start_loop_snd_mem _ _ _ k d).mp hk)
    refine ⟨?_, ?_, sorted_sort _, ?_, ?_, sorted_sort _⟩
    · intro dtc
      simp only [mem_sort, start_loop_fst_mem _ _ hwf.1]
      exact find_iff_mem hwf dtc
    · exact (nodup_sort _).mpr
        (start_loop_fst_nodup _ desired_types.sorted.nodup hwf.1 hwf.2)
    · intro dtc
      simp only [mem_sort, stop_loop_mem hl, start_loop_snd_mem]
      constructor
      · rintro ⟨⟨k, hk⟩, h2⟩
        have e := hwf.2 k dtc hk
        subst e
        exact ⟨hk, h2⟩
      · rintro ⟨h1, h2⟩
        exact ⟨⟨_, h1⟩, h2⟩
    · exact (nodup_sort _).mpr (stop_loop_nodup hsorted hkey hl)

/-- For a call of Configure(desired) that returns in the debug build, made in a state
other than STOPPING: needs_start holds, each once, exactly the registered controllers
whose identity is in desired and that were NOT_RUNNING or STOPPING when the call was
made; it is ordered by non-decreasing rank, where the ranks are BOOKMARKS < PREFERENCES
< AUTOFILL < TYPED_URLS; and each of its controllers is still in the state it had.
Nothing is said here of a call in which an assertion fails. -/
theorem Configure_needs_start (desired_types : TypeSet) (w w1 : World)
    (hwf : w.controllers_.WellFormed) (hs : w.state_ ≠ .STOPPING)
    (h : Configure desired_types w = .ok w1) :
    (∀ dtc, dtc ∈ w1.needs_start_ ↔
      ((dtc.type, some dtc) ∈ w.controllers_ ∧ dtc.type ∈ desired_types.elems ∧
        (w.dtc_state dtc.type = .NOT_RUNNING ∨ w.dtc_state dtc.type = .STOPPING))) ∧
    w1.needs_start_.Nodup ∧
    w1.needs_start_.Sorted (fun lhs rhs => order lhs.type ≤ order rhs.type) ∧
    (order syncable.BOOKMARKS < order syncable.PREFERENCES ∧
     order syncable.PREFERENCES < order syncable.AUTOFILL ∧
     order syncable.AUTOFILL < order syncable.TYPED_URLS) ∧
    (∀ dtc ∈ w1.needs_start_, w1.dtc_state dtc.type = w.dtc_state dtc.type) := by
  obtain ⟨w2, hw2, e1, _, hrest⟩ := Configure_frame hs h
  obtain ⟨a1, a2, a3, a4, _, _⟩ := work_lists_spec hwf hw2
  rw [e1]
  refine ⟨a1, a2, a3, by decide, ?_⟩
  intro dtc hd
  rcases hrest with ⟨_, hdtc⟩ | ⟨_, _, hdtc⟩
  · rw [hdtc]
  · have hidle := ((a1 dtc).mp hd).2.2
    rcases hdtc dtc.type with e | ⟨_, e | e⟩
    · exact e
    · have hact := ((a4 dtc).mp e).2.2
      rcases hidle with i | i <;> rw [i] at hact <;> simp at hact
    · rcases hidle with i | i <;> rw [i] at e <;> simp at e

/-- The list needs_start at a concrete input: bookmarks, preferences and autofill
registered, preferences running, the manager CONFIGURED, and Configure({BOOKMARKS,
AUTOFILL}). -/
theorem Configure_needs_start_witness :
    ∃ w1, Configure (TypeSet.pair syncable.BOOKMARKS syncable.AUTOFILL (by decide))
        example_world = .ok w1 ∧
      w1.needs_start_ = [⟨syncable.BOOKMARKS⟩, ⟨syncable.AUTOFILL⟩] ∧
      ((∀ dtc, dtc ∈ w1.needs_start_ ↔
        ((dtc.type, some dtc) ∈ example_world.controllers_ ∧
          dtc.type ∈ [syncable.BOOKMARKS, syncable.AUTOFILL] ∧
          (example_world.dtc_state dtc.type = .NOT_RUNNING ∨
           example_world.dtc_state dtc.type = .STOPPING))) ∧
      w1.needs_start_.Nodup ∧
      w1.needs_start_.Sorted (fun lhs rhs => order lhs.type ≤ order rhs.type) ∧
      (order syncable.BOOKMARKS < order syncable.PREFERENCES ∧
       order syncable.PREFERENCES < order syncable.AUTOFILL ∧
       order syncable.AUTOFILL < order syncable.TYPED_URLS) ∧
      (∀ dtc ∈ w1.needs_start_, w1.dtc_state dtc.type = example_world.dtc_state dtc.type)) := by
  have hok : (Configure (TypeSet.pair syncable.BOOKMARKS syncable.AUTOFILL (by decide))
      example_world).toBool = true := by decide
  obtain ⟨w1, h⟩ := ok_of_toBool hok
  have hlist : (Configure (TypeSet.pair syncable.BOOKMARKS syncable.AUTOFILL (by decide))
      example_world).toOption.map (fun w => w.needs_start_) =
        some [⟨syncable.BOOKMARKS⟩, ⟨syncable.AUTOFILL⟩] := by decide
  rw [h] at hlist
  exact ⟨w1, h, by simpa [Except.toOption] using hlist,
    Configure_needs_start _ example_world w1
      (registry_wellFormed (by decide)) (by decide) h⟩

/-- C9: the needs_stop list Configure(desired) computes in a state other than STOPPING
holds, each once, exactly the registered controllers that are MODEL_STARTING,
ASSOCIATING or RUNNING and whose identity is not in desired, ordered by non-decreasing
rank, the comparison used for needs_start.  When Configure returns, needs_stop is that
list or, when Restart went through it and called Stop on each, empty; either way it then
holds exactly the registered controllers not in desired that are still MODEL_STARTING,
ASSOCIATING or RUNNING. -/
theorem Configure_needs_stop (desired_types : TypeSet) (w w1 : World)
    (hwf : w.controllers_.WellFormed) (hs : w.state_ ≠ .STOPPING)
    (h : Configure desired_types w = .ok w1) :
    ∃ w2, Configure.work_lists desired_types w = .ok w2 ∧
      (∀ dtc, dtc ∈ w2.needs_stop_ ↔
        ((dtc.type, some dtc) ∈ w.controllers_ ∧ dtc.type ∉ desired_types.elems ∧
          (w.dtc_state dtc.type = .MODEL_STARTING ∨ w.dtc_state dtc.type = .ASSOCIATING ∨
           w.dtc_state dtc.type = .RUNNING))) ∧
      w2.needs_stop_.Nodup ∧
      w2.needs_stop_.Sorted (fun lhs rhs => order lhs.type ≤ order rhs.type) ∧
      (w1.needs_stop_ = w2.needs_stop_ ∨ w1.needs_stop_ = []) ∧
      (∀ dtc, dtc ∈ w1.needs_stop_ ↔
        ((dtc.type, some dtc) ∈ w.controllers_ ∧ dtc.type ∉ desired_types.elems ∧
          (w1.dtc_state dtc.type = .MODEL_STARTING ∨ w1.dtc_state dtc.type = .ASSOCIATING ∨
           w1.dtc_state dtc.type = .RUNNING))) ∧
      w1.needs_stop_.Nodup ∧
      w1.needs_stop_.Sorted (fun lhs rhs => order lhs.type ≤ order rhs.type) := by
  obtain ⟨w2, hw2, _, _, hrest⟩ := Configure_frame hs h
  obtain ⟨_, _, _, a4, a5, a6⟩ := work_lists_spec hwf hw2
  refine ⟨w2, hw2, a4, a5, a6, ?_⟩
  rcases hrest with ⟨e, hdtc⟩ | ⟨e, hstopped, hdtc⟩
  · rw [e, hdtc]
    exact ⟨Or.inl rfl, a4, a5, a6⟩
  · rw [e]
    refine ⟨Or.inr rfl, ?_, List.nodup_nil, List.sorted_nil⟩
    intro dtc
    simp only [List.not_mem_nil, false_iff]
    rintro ⟨h1, h2, h3⟩
    rcases hdtc dtc.type with e1 | ⟨e1, _⟩
    · rw [e1] at h3
      have hmem := (a4 dtc).mpr ⟨h1, h2, h3⟩
      have hnr := hstopped dtc hmem
      rw [← e1, hnr] at h3
      simp at h3
    · rw [e1] at h3
      simp at h3

/-- C9 at a concrete input: bookmarks, preferences and autofill registered, preferences
running, the manager RESUME_PENDING, and Configure({BOOKMARKS, AUTOFILL}): the restart
is deferred and needs_stop keeps the list computed, [PREFERENCES]. -/
theorem Configure_needs_stop_witness :
    ∃ w1, Configure (TypeSet.pair syncable.BOOKMARKS syncable.AUTOFILL (by decide))
        { example_world with state_ := .RESUME_PENDING } = .ok w1 ∧
      w1.needs_stop_ = [⟨syncable.PREFERENCES⟩] ∧
      ∃ w2, Configure.work_lists
          (TypeSet.pair syncable.BOOKMARKS syncable.AUTOFILL (by decide))
          { example_world with state_ := .RESUME_PENDING } = .ok w2 ∧
        (∀ dtc, dtc ∈ w2.needs_stop_ ↔
          ((dtc.type, some dtc) ∈ example_world.controllers_ ∧
            dtc.type ∉ [syncable.BOOKMARKS, syncable.AUTOFILL] ∧
            (example_world.dtc_state dtc.type = .MODEL_STARTING ∨
             example_world.dtc_state dtc.type = .ASSOCIATING ∨
             example_world.dtc_state dtc.type = .RUNNING))) ∧
        w2.needs_stop_.Nodup ∧
        w2.needs_stop_.Sorted (fun lhs rhs => order lhs.type ≤ order rhs.type) ∧
        (w1.needs_stop_ = w2.needs_stop_ ∨ w1.needs_stop_ = []) ∧
        (∀ dtc, dtc ∈ w1.needs_stop_ ↔
          ((dtc.type, some dtc) ∈ example_world.controllers_ ∧
            dtc.type ∉ [syncable.BOOKMARKS, syncable.AUTOFILL] ∧
            (w1.dtc_state dtc.type = .MODEL_STARTING ∨
             w1.dtc_state dtc.type = .ASSOCIATING ∨
             w1.dtc_state dtc.type = .RUNNING))) ∧
        w1.needs_stop_.Nodup ∧
        w1.needs_stop_.Sorted (fun lhs rhs => order lhs.type ≤ order rhs.type) := by
  have hok : (Configure (TypeSet.pair syncable.BOOKMARKS syncable.AUTOFILL (by decide))
      { example_world with state_ := .RESUME_PENDING }).toBool = true := by decide
  obtain ⟨w1, h⟩ := ok_of_toBool hok
  have hlist : (Configure (TypeSet.pair syncable.BOOKMARKS syncable.AUTOFILL (by decide))
      { example_world with state_ := .RESUME_PENDING }).toOption.map (fun w => w.needs_stop_) =
        some [⟨syncable.PREFERENCES⟩] := by decide
  rw [h] at hlist
  exact ⟨w1, h, by simpa [Except.toOption] using hlist,
    Configure_needs_stop _ { example_world with state_ := .RESUME_PENDING } w1
      (registry_wellFormed (by decide)) (by decide) h⟩

theorem idle_not_running {s : DataTypeController.State} (h : idle s) : s ≠ .RUNNING := by
  rcases h with h | h <;> rw [h] <;> simp

theorem Pre.keep {w w1 : World} (h : Pre w)
    (hc : w1.controllers_ = w.controllers_) (hn : w1.needs_start_ = w.needs_start_)
    (hd : ∀ t, w1.dtc_state t = w.dtc_state t ∨ w1.dtc_state t = .NOT_RUNNING)
    (ht : ∃ new, w1.trace = w.trace ++ new ∧ ∀ e ∈ new, ∀ d, e.1 ≠ .Start d)
    (hs : w1.state_ = .RESTARTING → w.state_ = .RESTARTING) : Pre w1 := by
  have hidle : ∀ t, idle (w.dtc_state t) → idle (w1.dtc_state t) := by
    intro t hi
    rcases hd t with e | e
    · rw [e]; exact hi
    · exact Or.inl e
  obtain ⟨new, hnew, hq⟩ := ht
  refine ⟨hc ▸ h.registry, hn ▸ h.nodup, ?_, ?_, ?_⟩
  · intro d hd1
    rw [hn] at hd1
    exact hidle _ (h.tail_idle d hd1)
  · intro d hd1
    rw [hn] at hd1
    rcases h.head_ok d hd1 with a | a
    · exact Or.inl (hidle _ a)
    · exact Or.inr (fun hr => a (hs hr))
  · intro e he d hed
    rw [hnew] at he
    rcases List.mem_append.mp he with a | a
    · exact h.trace_ok e a d hed
    · exact absurd hed (hq e a d)

theorem Inv.mono {w w1 : World} (h : Inv w)
    (hc : w1.controllers_ = w.controllers_) (hn : w1.needs_start_ = w.needs_start_)
    (hd : ∀ t, w1.dtc_state t = w.dtc_state t ∨ w1.dtc_state t = .NOT_RUNNING)
    (ht : ∃ new, w1.trace = w.trace ++ new ∧ ∀ e ∈ new, ∀ d, e.1 ≠ .Start d)
    (hs : w1.state_ = .RESTARTING → w.state_ = .RESTARTING) : Inv w1 := by
  refine ⟨h.toPre.keep hc hn hd ht hs, ?_⟩
  intro d hd1
  rw [hn] at hd1
  rcases hd d.type with e | e
  · rw [e]; exact h.head_not_running d hd1
  · rw [e]; simp

theorem Inv.calm {w w1 : World} (h : Inv w) (c : Calm w w1)
    (hs : w1.state_ = .RESTARTING → w.state_ = .RESTARTING) : Inv w1 := by
  obtain ⟨new, hnew, hq⟩ := c.trace
  refine h.mono c.controllers c.needs_start ?_ ⟨new, hnew, fun e he => (hq e he).1⟩ hs
  intro t
  rcases c.dtc t with e | e
  · exact Or.inl e
  · exact Or.inr e.2

theorem Pre.record {w : World} (h : Pre w) (e : Effect) (he : ∀ d, e ≠ .Start d) :
    Pre (w.emit e) := by
  refine h.keep rfl rfl (fun _ => Or.inl rfl) ⟨[(e, w.toMachine)], rfl, ?_⟩ id
  intro x hx d
  simp only [List.mem_singleton] at hx
  subst hx
  exact he d

theorem Inv.emit {w : World} (h : Inv w) (e : Effect) (he : ∀ d, e ≠ .Start d) :
    Inv (w.emit e) := by
  refine h.mono rfl rfl (fun _ => Or.inl rfl) ⟨[(e, w.toMachine)], rfl, ?_⟩ id
  intro x hx d
  simp only [List.mem_singleton] at hx
  subst hx
  exact he d

/-- An invariant world whose `needs_start_` holds idle controllers only stays invariant
whatever the state is set to. -/
theorem Inv.of_all_idle {w w1 : World} (h : Pre w)
    (hall : ∀ d ∈ w.needs_start_, idle (w.dtc_state d.type))
    (hc : w1.controllers_ = w.controllers_) (hn : w1.needs_start_ = w.needs_start_)
    (hd : ∀ t, w1.dtc_state t = w.dtc_state t ∨ w1.dtc_state t = .NOT_RUNNING)
    (ht : ∃ new, w1.trace = w.trace ++ new ∧ ∀ e ∈ new, ∀ d, e.1 ≠ .Start d) : Inv w1 := by
  have hhead : ∀ d, w.needs_start_.head? = some d → idle (w.dtc_state d.type) :=
    fun d hd1 => hall d (List.mem_of_mem_head? hd1)
  have hpre : Pre { w with state_ := w1.state_ } :=
    ⟨h.registry, h.nodup, h.tail_idle, fun d hd1 => Or.inl (hhead d hd1), h.trace_ok⟩
  have hinv : Inv { w with state_ := w1.state_ } :=
    ⟨hpre, fun d hd1 => idle_not_running (hhead d hd1)⟩
  exact hinv.mono hc hn hd ht id

theorem Inv.start {w : World} (h : Inv w) {d : DataTypeController}
    {rest : List DataTypeController} (hl : w.needs_start_ = d :: rest)
    (hs : w.state_ ≠ .RESTARTING) (c : Option DataTypeController) :
    Inv (DataTypeController.Start d { w with current_dtc_ := c }) := by
  have hnd := h.nodup
  rw [hl] at hnd
  have hdrest : d ∉ rest := (List.nodup_cons.mp hnd).1
  have hhead : w.dtc_state d.type ≠ .RUNNING := h.head_not_running d (by rw [hl]; rfl)
  have htail : ∀ x ∈ rest, idle (w.dtc_state x.type) := by
    intro x hx
    exact h.tail_idle x (by rw [hl]; exact hx)
  have hne : ∀ x ∈ rest, x.type ≠ d.type := by
    intro x hx he
    apply hdrest
    have : x = d := by
      cases x; cases d; simp_all
    exact this ▸ hx
  have htrace : ∀ e ∈ w.trace ++ [(Effect.Start d, ({ w with current_dtc_ := c } : World).toMachine)],
      ∀ x, e.1 = .Start x → e.2.dtc_state x.type ≠ .RUNNING := by
    intro e he x hex
    rcases List.mem_append.mp he with a | a
    · exact h.trace_ok e a x hex
    · simp only [List.mem_singleton] at a
      subst a
      simp only [Effect.Start.injEq] at hex
      subst hex
      exact hhead
  unfold DataTypeController.Start
  simp only [World.emit]
  split
  · refine ⟨⟨h.registry, h.nodup, ?_, ?_, htrace⟩, ?_⟩
    · intro x hx
      have hx1 : x ∈ rest := by simpa [hl] using hx
      have := htail x hx1
      simpa [Function.update, hne x hx1] using this
    · intro x _
      exact Or.inr hs
    · intro x hx
      have : x = d := by simpa [hl] using hx.symm
      subst this
      simp
  · refine ⟨⟨h.registry, h.nodup, h.tail_idle, ?_, htrace⟩, h.head_not_running⟩
    intro x _
    exact Or.inr hs

theorem StartNextType_inv {w w1 : World} (h : Inv w) (hs : w.state_ ≠ .RESTARTING)
    (hr : StartNextType w = .ok w1) : Inv w1 := by
  unfold StartNextType at hr
  split at hr
  · rename_i d rest hl
    simp only [Except.ok.injEq] at hr
    subst hr
    exact h.start hl hs _
  · simp only [DCHECK, bind, Except.bind] at hr
    split at hr
    · cases hr
    · obtain ⟨c, hst⟩ := ResumeSyncer_calm hr
      refine h.calm ((calm_set_state w .RESUME_PENDING).trans c) ?_
      intro h1
      rcases hst with e | e <;> rw [e] at h1 <;> cases h1

theorem FinishStop_inv {w w1 : World} (h : Inv w) (hr : FinishStop w = .ok w1) : Inv w1 := by
  obtain ⟨c, hst⟩ := FinishStop_calm hr
  exact h.calm c (fun h1 => by rw [hst] at h1; cases h1)

theorem TypeStartCallback_inv {r : DataTypeController.StartResult} {w w1 : World}
    (h : Pre w) (hr : TypeStartCallback r w = .ok w1) : Inv w1 := by
  unfold TypeStartCallback at hr
  by_cases hcur : w.current_dtc_ = none
  · simp [hcur] at hr
  by_cases hst : w.state_ = .RESTARTING
  · simp only [hcur, hst, if_true, if_false] at hr
    have hinv : Inv w := by
      refine ⟨h, fun d hd => ?_⟩
      rcases h.head_ok d hd with a | a
      · exact idle_not_running a
      · exact absurd hst a
    obtain ⟨c, _⟩ := ResumeSyncer_calm hr
    exact hinv.calm c (fun _ => hst)
  cases hl : w.needs_start_ with
  | nil => simp [hcur, hst, hl] at hr
  | cons head tail =>
    by_cases heq : some head = w.current_dtc_
    swap
    · simp [hcur, hst, hl, heq] at hr
    have hnd := h.nodup
    rw [hl] at hnd
    have htail : ∀ x ∈ tail, idle (w.dtc_state x.type) := by
      intro x hx
      exact h.tail_idle x (by rw [hl]; exact hx)
    have hpop : Inv { w with needs_start_ := tail, current_dtc_ := none } := by
      refine ⟨⟨h.registry, (List.nodup_cons.mp hnd).2, ?_, ?_, h.trace_ok⟩, ?_⟩
      · intro x hx
        exact htail x (List.mem_of_mem_tail hx)
      · intro x hx
        exact Or.inl (htail x (List.mem_of_mem_head? hx))
      · intro x hx
        exact idle_not_running (htail x (List.mem_of_mem_head? hx))
    simp only [hcur, hst, hl, heq, if_true, if_false] at hr
    by_cases h1 : w.state_ = .STOPPING
    · rw [if_pos h1] at hr
      simp only [bind, Except.bind, pure, Except.pure] at hr
      split at hr
      · cases hr
      · rename_i w2 hw2
        simp only [Except.ok.injEq] at hr
        subst hr
        exact (FinishStop_inv hpop hw2).emit _ (by simp)
    rw [if_neg h1] at hr
    by_cases h2 : w.state_ = .STOPPED
    · rw [if_pos h2] at hr
      simp only [Except.ok.injEq] at hr
      subst hr
      exact hpop
    rw [if_neg h2] at hr
    by_cases h3 : r = .OK ∨ r = .OK_FIRST_RUN
    · rw [if_pos h3] at hr
      exact StartNextType_inv hpop hst hr
    · rw [if_neg h3] at hr
      simp only [bind, Except.bind, pure, Except.pure] at hr
      split at hr
      · cases hr
      · rename_i w2 hw2
        split at hr
        · simp only [Except.ok.injEq] at hr
          subst hr
          exact (FinishStop_inv hpop hw2).emit _ (by simp)
        · cases hr

theorem Stop_fst (d : DataTypeController) (w : World) :
    (DataTypeController.Stop d w).1 =
      { w.emit (.Stop d) with
        dtc_state := Function.update w.dtc_state d.type .NOT_RUNNING } := by
  unfold DataTypeController.Stop
  simp only
  split <;> rfl

theorem Stop_snd (d : DataTypeController) (w : World) :
    (DataTypeController.Stop d w).2 =
      if w.dtc_state d.type = .MODEL_STARTING ∨ w.dtc_state d.type = .ASSOCIATING then
        some .ABORTED else none := by
  unfold DataTypeController.Stop
  simp only [World.emit]
  split <;> rfl

theorem callStop_eq (d : DataTypeController) (w : World) :
    callStop d w =
      if w.dtc_state d.type = .MODEL_STARTING ∨ w.dtc_state d.type = .ASSOCIATING then
        TypeStartCallback .ABORTED
          ((DataTypeController.Stop d w).1.emit (.CallTypeStartCallback .ABORTED))
      else .ok (DataTypeController.Stop d w).1 := by
  unfold callStop
  have h2 := Stop_snd d w
  split
  · rename_i w1 r heq
    have e1 : (DataTypeController.Stop d w).1 = w1 := by rw [heq]
    have e2 : (DataTypeController.Stop d w).2 = some r := by rw [heq]
    rw [h2] at e2
    split at e2
    · rename_i hc
      simp only [Option.some.injEq] at e2
      rw [if_pos hc, e1, e2]
    · cases e2
  · rename_i w1 heq
    have e1 : (DataTypeController.Stop d w).1 = w1 := by rw [heq]
    have e2 : (DataTypeController.Stop d w).2 = none := by rw [heq]
    rw [h2] at e2
    split at e2
    · cases e2
    · rename_i hc
      rw [if_neg hc, e1]

theorem Inv.stop {w : World} (h : Inv w) (d : DataTypeController) :
    Inv (DataTypeController.Stop d w).1 := by
  rw [Stop_fst]
  refine h.mono rfl rfl ?_ ⟨[(.Stop d, w.toMachine)], rfl, ?_⟩ id
  · intro t
    by_cases ht : t = d.type
    · subst ht
      exact Or.inr (by simp [World.emit])
    · exact Or.inl (by simp [World.emit, Function.update, ht])
  · intro x hx y
    simp only [List.mem_singleton] at hx
    subst hx
    simp

theorem callStop_inv {d : DataTypeController} {w w1 : World} (h : Inv w)
    (hr : callStop d w = .ok w1) : Inv w1 := by
  rw [callStop_eq] at hr
  split at hr
  · exact TypeStartCallback_inv ((h.stop d).toPre.record _ (by simp)) hr
  · simp only [Except.ok.injEq] at hr
    subst hr
    exact h.stop d

theorem Restart_loop_inv {l : List DataTypeController} {w w1 : World} (h : Inv w)
    (hr : Restart.loop l w = .ok w1) : Inv w1 := by
  induction l generalizing w with
  | nil =>
    simp only [Restart.loop, Except.ok.injEq] at hr
    subst hr
    exact h
  | cons d rest ih =>
    simp only [Restart.loop, bind, Except.bind] at hr
    split at hr
    · cases hr
    · rename_i w2 hw2
      exact ih (callStop_inv h hw2) hr

theorem Restart_inv {w w1 : World} (h : Inv w)
    (hall : w.state_ ≠ .RESTARTING → ∀ d ∈ w.needs_start_, idle (w.dtc_state d.type))
    (hr : Restart w = .ok w1) : Inv w1 := by
  unfold Restart at hr
  by_cases hb : w.state_ = .DOWNLOAD_PENDING ∨ w.state_ = .PAUSE_PENDING ∨
      w.state_ = .CONFIGURING ∨ w.state_ = .RESUME_PENDING
  · rw [if_pos hb] at hr
    simp only [Except.ok.injEq] at hr
    subst hr
    have hne : w.state_ ≠ .RESTARTING := by
      rcases hb with e | e | e | e <;> rw [e] <;> simp
    exact Inv.of_all_idle h.toPre (hall hne) rfl rfl (fun _ => Or.inl rfl) ⟨[], by simp, by simp⟩
  · rw [if_neg hb] at hr
    simp only [DCHECK, bind, Except.bind] at hr
    split at hr
    · cases hr
    · split at hr
      · cases hr
      · rename_i w3 hw3
        have h2 : Inv (if w.state_ = .STOPPED ∨ w.state_ = .CONFIGURED then
            NotifyStart { w with current_dtc_ := none }
            else { w with current_dtc_ := none }) := by
          have h1 : Inv { w with current_dtc_ := none } :=
            h.mono rfl rfl (fun _ => Or.inl rfl) ⟨[], by simp, by simp⟩ id
          split
          · exact h1.emit _ (by simp)
          · exact h1
        have h3 := Restart_loop_inv h2 hw3
        have h5 : Inv { w3 with needs_stop_ := [], state_ := .PAUSE_PENDING } :=
          h3.mono rfl rfl (fun _ => Or.inl rfl) ⟨[], by simp, by simp⟩
            (fun e => by cases e)
        obtain ⟨c, hst⟩ := PauseSyncer_calm hr
        refine h5.calm c ?_
        intro e
        rcases hst with e1 | e1 <;> rw [e1] at e <;> cases e

theorem work_lists_inv {desired_types : TypeSet} {w w2 : World} (h : Inv w)
    (hr : Configure.work_lists desired_types w = .ok w2) :
    Pre w2 ∧ ∀ d ∈ w2.needs_start_, idle (w2.dtc_state d.type) := by
  obtain ⟨a1, a2, _, _, _, _⟩ := work_lists_spec h.registry hr
  obtain ⟨_, _, hd, ht, _⟩ := work_lists_frame hr
  have hall : ∀ d ∈ w2.needs_start_, idle (w2.dtc_state d.type) := by
    intro d hd1
    rw [hd]
    exact ((a1 d).mp hd1).2.2
  have hreg : w2.controllers_.WellFormed := by
    unfold Configure.work_lists at hr
    simp only at hr
    split at hr
    · cases hr
    · simp only [Except.ok.injEq] at hr
      subst hr
      exact ⟨start_loop_snd_sorted _ _ h.registry.1,
        fun k d hk => h.registry.2 k d ((start_loop_snd_mem _ _ _ k d).mp hk)⟩
  refine ⟨⟨hreg, a2, fun d hd1 => hall d (List.mem_of_mem_tail hd1),
    fun d hd1 => Or.inl (hall d (List.mem_of_mem_head? hd1)), ?_⟩, hall⟩
  rw [ht]
  exact h.trace_ok

theorem Configure_inv {desired_types : TypeSet} {w w1 : World} (h : Inv w)
    (hr : Configure desired_types w = .ok w1) : Inv w1 := by
  unfold Configure at hr
  by_cases hs : w.state_ = .STOPPING
  · rw [if_pos hs] at hr
    simp only [Except.ok.injEq] at hr
    subst hr
    exact h
  · rw [if_neg hs] at hr
    split at hr
    · cases hr
    · rename_i w2 hw2
      obtain ⟨hpre, hall⟩ := work_lists_inv h hw2
      split at hr
      · simp only [Except.ok.injEq] at hr
        subst hr
        have h3 : Inv { w2 with state_ := .CONFIGURED } :=
          Inv.of_all_idle hpre hall rfl rfl (fun _ => Or.inl rfl) ⟨[], by simp, by simp⟩
        exact (h3.emit .NotifyStart (by simp)).emit (.NotifyDone .OK) (by simp)
      · have hinv : Inv w2 :=
          Inv.of_all_idle hpre hall rfl rfl (fun _ => Or.inl rfl) ⟨[], by simp, by simp⟩
        exact Restart_inv hinv (fun _ => hall) hr

theorem calm_ite {c : Prop} [Decidable c] {w w1 : World} (h : Calm w w1) :
    Calm w (if c then w1 else w) := by
  split
  · exact h
  · exact Calm.refl _

theorem Stop_inv {w w1 : World} (h : Inv w) (hr : Stop w = .ok w1) : Inv w1 := by
  unfold Stop at hr
  by_cases h1 : w.state_ = .STOPPED
  · rw [if_pos h1] at hr
    simp only [Except.ok.injEq] at hr
    subst hr
    exact h
  rw [if_neg h1] at hr
  by_cases h2 : w.state_ = .CONFIGURING
  · rw [if_pos h2] at hr
    have h3 : Inv { w with state_ := .STOPPING } :=
      h.mono rfl rfl (fun _ => Or.inl rfl) ⟨[], by simp, by simp⟩ (fun e => by cases e)
    simp only at hr
    split at hr
    · cases hr
    · exact callStop_inv h3 hr
  rw [if_neg h2] at hr
  obtain ⟨c, hst⟩ := FinishStop_calm hr
  have c1 : Calm w (if w.state_ = .PAUSE_PENDING then RemoveObserver .SYNC_PAUSED w else w) :=
    calm_ite (calm_RemoveObserver _ _)
  have c2 : Calm (if w.state_ = .PAUSE_PENDING then RemoveObserver .SYNC_PAUSED w else w)
      (if (if w.state_ = .PAUSE_PENDING then RemoveObserver .SYNC_PAUSED w else w).state_ =
          .RESUME_PENDING then
        RemoveObserver .SYNC_RESUMED
          (if w.state_ = .PAUSE_PENDING then RemoveObserver .SYNC_PAUSED w else w)
        else (if w.state_ = .PAUSE_PENDING then RemoveObserver .SYNC_PAUSED w else w)) :=
    calm_ite (calm_RemoveObserver _ _)
  refine h.calm (((c1.trans c2).trans (calm_set_state _ .STOPPING)).trans c) ?_
  intro e
  rw [hst] at e
  cases e

theorem Observe_inv {type : NotificationType} {w w1 : World} (h : Inv w)
    (hr : Observe type w = .ok w1) : Inv w1 := by
  unfold Observe at hr
  cases type with
  | SYNC_PAUSED =>
    simp only [DCHECK, bind, Except.bind] at hr
    split at hr
    · cases hr
    · have hrem : Inv (RemoveObserver .SYNC_PAUSED w) := h.calm (calm_RemoveObserver _ _) id
      have hsame : (RemoveObserver .SYNC_PAUSED w).state_ = w.state_ := rfl
      by_cases hst : (RemoveObserver .SYNC_PAUSED w).state_ = .RESTARTING
      · rw [if_pos hst] at hr
        obtain ⟨c, _⟩ := ResumeSyncer_calm hr
        exact hrem.calm c (fun _ => hst)
      · rw [if_neg hst] at hr
        refine StartNextType_inv ?_ (by simp) hr
        exact hrem.mono rfl rfl (fun _ => Or.inl rfl) ⟨[], by simp, by simp⟩
          (fun e => by cases e)
  | SYNC_RESUMED =>
    simp only [DCHECK, bind, Except.bind, pure, Except.pure] at hr
    split at hr
    · cases hr
    · have hrem : Inv (RemoveObserver .SYNC_RESUMED w) := h.calm (calm_RemoveObserver _ _) id
      by_cases hst : (RemoveObserver .SYNC_RESUMED w).state_ = .RESTARTING
      · rw [if_pos hst] at hr
        exact Restart_inv hrem (fun hne => absurd hst hne) hr
      · rw [if_neg hst] at hr
        simp only [Except.ok.injEq] at hr
        subst hr
        have h2 : Inv { RemoveObserver .SYNC_RESUMED w with state_ := .CONFIGURED } :=
          hrem.mono rfl rfl (fun _ => Or.inl rfl) ⟨[], by simp, by simp⟩
            (fun e => by cases e)
        exact h2.emit _ (by simp)

/-- Changing the state of a controller whose start is in progress keeps `Pre`. -/
theorem Pre.update_starting {w : World} (h : Inv w) {t : ModelType}
    (ht : w.dtc_state t = .MODEL_STARTING ∨ w.dtc_state t = .ASSOCIATING)
    (s : DataTypeController.State) :
    Pre { w with dtc_state := Function.update w.dtc_state t s } := by
  have hnot : ¬ idle (w.dtc_state t) := by
    rintro (e | e) <;> rcases ht with a | a <;> rw [a] at e <;> cases e
  refine ⟨h.registry, h.nodup, ?_, ?_, h.trace_ok⟩
  · intro d hd
    have hi := h.tail_idle d hd
    have hne : d.type ≠ t := fun e => hnot (e ▸ hi)
    simpa [Function.update, hne] using hi
  · intro d hd
    rcases h.head_ok d hd with a | a
    · have hne : d.type ≠ t := fun e => hnot (e ▸ a)
      exact Or.inl (by simpa [Function.update, hne] using a)
    · exact Or.inr a

theorem step_inv {w w1 : World} {e : Event} (h : Inv w) (hen : enabled w e = true)
    (hr : step w e = .ok w1) : Inv w1 := by
  cases e with
  | Configure desired_types =>
    exact Configure_inv (h.emit _ (by simp)) hr
  | Stop =>
    exact Stop_inv (h.emit _ (by simp)) hr
  | Paused =>
    have h1 : Inv { w with pending_pause := w.pending_pause - 1 } :=
      h.mono rfl rfl (fun _ => Or.inl rfl) ⟨[], by simp, by simp⟩ id
    simp only [step] at hr
    split at hr
    · exact Observe_inv (h1.emit _ (by simp)) hr
    · simp only [Except.ok.injEq] at hr
      subst hr
      exact h1
  | Resumed =>
    have h1 : Inv { w with pending_resume := w.pending_resume - 1 } :=
      h.mono rfl rfl (fun _ => Or.inl rfl) ⟨[], by simp, by simp⟩ id
    simp only [step] at hr
    split at hr
    · exact Observe_inv (h1.emit _ (by simp)) hr
    · simp only [Except.ok.injEq] at hr
      subst hr
      exact h1
  | Associating t =>
    simp only [enabled, decide_eq_true_eq] at hen
    simp only [step, Except.ok.injEq] at hr
    subst hr
    refine ⟨Pre.update_starting h (Or.inl hen) _, ?_⟩
    intro d hd
    by_cases hne : d.type = t
    · simp [Function.update, hne]
    · simpa [Function.update, hne] using h.head_not_running d hd
  | StartDone t result =>
    simp only [enabled, decide_eq_true_eq] at hen
    simp only [step] at hr
    exact TypeStartCallback_inv ((Pre.update_starting h hen.1 _).record _ (by simp)) hr
  | BackendAccepts b =>
    simp only [step, Except.ok.injEq] at hr
    subst hr
    exact h.mono rfl rfl (fun _ => Or.inl rfl) ⟨[], by simp, by simp⟩ id

theorem run_inv {evs : List Event} {w w1 : World} (h : Inv w)
    (hr : run w evs = some w1) : Inv w1 := by
  induction evs generalizing w with
  | nil =>
    simp only [run, Option.some.injEq] at hr
    subst hr
    exact h
  | cons e es ih =>
    simp only [run] at hr
    split at hr
    · rename_i hen
      split at hr
      · rename_i w2 hw2
        exact ih (step_inv h hen hw2) hr
      · cases hr
    · cases hr

theorem init_inv {types : List ModelType} (h : types.Sorted (· < ·)) : Inv (init types) :=
  ⟨⟨registry_wellFormed h, List.nodup_nil, by simp [init], by simp [init], by simp [init]⟩,
    by simp [init]⟩

/-- C5: in every execution from the constructed manager, over any registry and any
sequence of Configure calls, Stop calls, backend events and controller moves, every
`Start` call the manager made found its controller in a state other than RUNNING. -/
theorem Start_never_on_running (types : List ModelType) (hs : types.Sorted (· < ·))
    (evs : List Event) (w : World) (hr : run (init types) evs = some w) :
    ∀ e ∈ w.trace, ∀ dtc, e.1 = .Start dtc → e.2.dtc_state dtc.type ≠ .RUNNING :=
  (run_inv (init_inv hs) hr).trace_ok

theorem run_cons_ok {w w1 : World} {e : Event} (es : List Event)
    (hen : enabled w e = true) (hs : step w e = .ok w1) :
    run w (e :: es) = run w1 es := by
  simp [run, hen, hs]

theorem step_Resumed_done {w : World} (hs : w.state_ = .RESUME_PENDING)
    (ho : w.resumed_observer = true) :
    ∃ w1, step w .Resumed = .ok w1 ∧ w1.state_ = .CONFIGURED ∧
      w1.needs_start_ = w.needs_start_ ∧ w1.dtc_state = w.dtc_state ∧
      w1.trace.map Prod.fst = w.trace.map Prod.fst ++
        [.CallObserve .SYNC_RESUMED, .RemoveObserver .SYNC_RESUMED, .NotifyDone .OK] := by
  simp only [step, ho, if_true, Observe, DCHECK, World.emit, hs, RemoveObserver,
      bind, Except.bind, pure, Except.pure, NotifyDone]
  simp

theorem step_StartDone_last {w : World} {d : DataTypeController}
    {r : DataTypeController.StartResult} (hr : r = .OK ∨ r = .OK_FIRST_RUN)
    (hs : w.state_ = .CONFIGURING) (hn : w.needs_start_ = [d])
    (hc : w.current_dtc_ = some d) (ha : w.backend_accepting = true) :
    ∃ w1, step w (.StartDone d.type r) = .ok w1 ∧ w1.state_ = .RESUME_PENDING ∧
      w1.needs_start_ = [] ∧ w1.resumed_observer = true ∧
      w1.pending_resume = w.pending_resume + 1 ∧
      w1.dtc_state = Function.update w.dtc_state d.type .RUNNING ∧
      w1.trace.map Prod.fst = w.trace.map Prod.fst ++
        [.CallTypeStartCallback r, .AddObserver .SYNC_RESUMED, .RequestResume true] := by
  rcases hr with rfl | rfl <;>
  · simp only [step, TypeStartCallback, World.emit, hs, hn, hc, StartNextType, DCHECK,
      ResumeSyncer, AddObserver, SyncBackendHost.RequestResume, ha,
      bind, Except.bind, pure, Except.pure]
    simp

theorem step_StartDone_next {w : World} {d x : DataTypeController}
    {rest : List DataTypeController}
    {r : DataTypeController.StartResult} (hr : r = .OK ∨ r = .OK_FIRST_RUN)
    (hs : w.state_ = .CONFIGURING) (hn : w.needs_start_ = d :: x :: rest)
    (hc : w.current_dtc_ = some d) (hx : w.dtc_state x.type = .NOT_RUNNING)
    (hne : x.type ≠ d.type) :
    ∃ w1, step w (.StartDone d.type r) = .ok w1 ∧ w1.state_ = .CONFIGURING ∧
      w1.needs_start_ = x :: rest ∧ w1.current_dtc_ = some x ∧
      w1.backend_accepting = w.backend_accepting ∧
      w1.dtc_state = Function.update (Function.update w.dtc_state d.type .RUNNING)
        x.type .MODEL_STARTING ∧
      w1.trace.map Prod.fst = w.trace.map Prod.fst ++
        [.CallTypeStartCallback r, .Start x] := by
  rcases hr with rfl | rfl <;>
  · simp only [step, TypeStartCallback, World.emit, hs, hn, hc, StartNextType,
      DataTypeController.Start, bind, Except.bind, pure, Except.pure]
    simp [Function.update, hne, hx]

theorem step_Paused_start {w : World} {d : DataTypeController}
    {rest : List DataTypeController}
    (hs : w.state_ = .PAUSE_PENDING) (hn : w.needs_start_ = d :: rest)
    (ho : w.paused_observer = true) (hd : w.dtc_state d.type = .NOT_RUNNING) :
    ∃ w1, step w .Paused = .ok w1 ∧ w1.state_ = .CONFIGURING ∧
      w1.needs_start_ = d :: rest ∧ w1.current_dtc_ = some d ∧
      w1.backend_accepting = w.backend_accepting ∧
      w1.dtc_state = Function.update w.dtc_state d.type .MODEL_STARTING ∧
      w1.trace.map Prod.fst = w.trace.map Prod.fst ++
        [.CallObserve .SYNC_PAUSED, .RemoveObserver .SYNC_PAUSED, .Start d] := by
  simp only [step, ho, if_true, Observe, DCHECK, World.emit, hs, RemoveObserver,
      StartNextType, hn, DataTypeController.Start, bind, Except.bind, pure, Except.pure]
  simp [hd]


theorem touch_of_mem {m : TypeMap} (hm : (m.map Prod.fst).Sorted (· < ·)) {k : ModelType}
    (hk : k ∈ m.map Prod.fst) : m.touch k = m := by
  induction m with
  | nil => simp at hk
  | cons e rest ih =>
    obtain ⟨k1, p⟩ := e
    simp only [List.map_cons, List.sorted_cons] at hm
    simp only [TypeMap.touch]
    by_cases h1 : k = k1
    · rw [if_pos h1]
    · rw [if_neg h1]
      have hk1 : k ∈ rest.map Prod.fst := by
        simp only [List.map_cons, List.mem_cons] at hk
        rcases hk with a | a
        · exact absurd a h1
        · exact a
      have hlt : k1 < k := hm.1 k hk1
      have h2 : ¬ k < k1 := Nat.lt_asymm hlt
      rw [if_neg h2, ih hm.2 hk1]

theorem registry_keys (types : List ModelType) : (registry types).map Prod.fst = types := by
  simp [registry, Function.comp_def]

theorem registry_find {types : List ModelType} (h : types.Sorted (· < ·)) {t : ModelType}
    (ht : t ∈ types) : (registry types).find t = some ⟨t⟩ := by
  apply mem_find_some
  · rw [registry_keys]; exact h
  · simp only [registry, List.mem_map, Prod.mk.injEq, Option.some.injEq]
    exact ⟨t, ht, rfl, rfl⟩

theorem start_loop_registry {types : List ModelType} (h : types.Sorted (· < ·))
    {st : ModelType → DataTypeController.State} (ts : List ModelType)
    (hreg : ∀ t ∈ ts, t ∈ types) (hst : ∀ t ∈ ts, st t = .NOT_RUNNING) :
    Configure.start_loop st ts (registry types) =
      (ts.map DataTypeController.mk, registry types) := by
  induction ts with
  | nil => rfl
  | cons t ts ih =>
    have ht : t ∈ types := hreg t (List.mem_cons_self _ _)
    have htouch : (registry types).touch t = registry types :=
      touch_of_mem (by rw [registry_keys]; exact h) (by rw [registry_keys]; exact ht)
    have ih1 := ih (fun x hx => hreg x (List.mem_cons_of_mem _ hx))
      (fun x hx => hst x (List.mem_cons_of_mem _ hx))
    simp only [Configure.start_loop, htouch, registry_find h ht, ih1,
      hst t (List.mem_cons_self _ _), true_or, if_true, List.map_cons]

theorem stop_loop_registry {types : List ModelType}
    {st : ModelType → DataTypeController.State} (D : List ModelType)
    (hst : ∀ t ∈ types, st t = .NOT_RUNNING) :
    Configure.stop_loop st D (registry types) = .ok [] := by
  induction types with
  | nil => rfl
  | cons t ts ih =>
    have ih1 := ih (fun x hx => hst x (List.mem_cons_of_mem _ hx))
    simp only [registry] at ih1
    simp [registry, Configure.stop_loop, ih1, hst t (List.mem_cons_self _ _),
      bind, Except.bind, pure, Except.pure]

theorem step_Configure_start {types : List ModelType} (h : types.Sorted (· < ·))
    (desired_types : TypeSet) (hne : desired_types.elems ≠ [])
    (hreg : ∀ t ∈ desired_types.elems, t ∈ types) {w : World}
    (hs : w.state_ = .STOPPED) (hc : w.controllers_ = registry types)
    (hst : ∀ t ∈ types, w.dtc_state t = .NOT_RUNNING) (ha : w.backend_accepting = true) :
    ∃ w1, step w (.Configure desired_types) = .ok w1 ∧ w1.state_ = .PAUSE_PENDING ∧
      w1.needs_start_ = sort (desired_types.elems.map DataTypeController.mk) ∧
      w1.paused_observer = true ∧ w1.pending_pause = w.pending_pause + 1 ∧
      w1.backend_accepting = true ∧ w1.dtc_state = w.dtc_state ∧
      w1.trace.map Prod.fst = w.trace.map Prod.fst ++
        [.CallConfigure desired_types.elems, .NotifyStart, .AddObserver .SYNC_PAUSED,
         .RequestPause true] := by
  have hl : sort (desired_types.elems.map DataTypeController.mk) ≠ [] := by
    intro e
    exact hne (List.map_eq_nil_iff.mp (sort_eq_nil.mp e))
  have hw : Configure.work_lists desired_types (w.emit (.CallConfigure desired_types.elems)) =
      .ok { w.emit (.CallConfigure desired_types.elems) with
            needs_start_ := sort (desired_types.elems.map DataTypeController.mk)
            needs_stop_ := [] } := by
    simp only [Configure.work_lists, World.emit, hc,
      start_loop_registry h desired_types.elems hreg (fun t ht => hst t (hreg t ht)),
      stop_loop_registry desired_types.elems hst]
    rfl
  simp only [step, Configure, hw]
  simp only [World.emit, hs, List.length_eq_zero, hl, false_and, if_false, Restart, DCHECK,
    NotifyStart, Restart.loop, PauseSyncer, AddObserver, SyncBackendHost.RequestPause, ha,
    bind, Except.bind, pure, Except.pure]
  simp

theorem type_ne_of_ne {x d : DataTypeController} (h : x ≠ d) : x.type ≠ d.type := by
  intro e
  apply h
  cases x
  cases d
  simp_all

/-- The run of start completions over `needs_start_`, then the resumed event. -/
theorem run_start_completions (result : ModelType → DataTypeController.StartResult)
    (hres : ∀ t, result t = .OK ∨ result t = .OK_FIRST_RUN)
    (rest : List DataTypeController) :
    ∀ (d : DataTypeController) (w : World), w.state_ = .CONFIGURING →
      w.needs_start_ = d :: rest → w.current_dtc_ = some d →
      w.dtc_state d.type = .MODEL_STARTING →
      (∀ x ∈ rest, w.dtc_state x.type = .NOT_RUNNING) → (d :: rest).Nodup →
      w.backend_accepting = true →
      ∃ w1, run w ((d :: rest).map (fun x => Event.StartDone x.type (result x.type)) ++
          [.Resumed]) = some w1 ∧
        w1.state_ = .CONFIGURED ∧ w1.needs_start_ = [] ∧
        (∀ t, w1.dtc_state t =
          if (⟨t⟩ : DataTypeController) ∈ d :: rest then .RUNNING else w.dtc_state t) ∧
        w1.trace.map Prod.fst = w.trace.map Prod.fst ++
          (Effect.CallTypeStartCallback (result d.type) ::
            (rest.flatMap (fun x => [Effect.Start x,
              Effect.CallTypeStartCallback (result x.type)]) ++
             [.AddObserver .SYNC_RESUMED, .RequestResume true, .CallObserve .SYNC_RESUMED,
              .RemoveObserver .SYNC_RESUMED, .NotifyDone .OK])) := by
  induction rest with
  | nil =>
    intro d w hs hn hc hd _ _ ha
    obtain ⟨w1, h1, s1, n1, o1, p1, d1, t1⟩ := step_StartDone_last (hres d.type) hs hn hc ha
    obtain ⟨w2, h2, s2, n2, d2, t2⟩ := step_Resumed_done s1 o1
    have en1 : enabled w (.StartDone d.type (result d.type)) = true := by
      rcases hres d.type with e | e <;> simp [enabled, hd, e]
    have en2 : enabled w1 .Resumed = true := by
      simp [enabled, p1]
    refine ⟨w2, ?_, s2, n2.trans n1, ?_, ?_⟩
    · simp only [List.map_cons, List.map_nil, List.cons_append, List.nil_append]
      rw [run_cons_ok _ en1 h1, run_cons_ok _ en2 h2]
      rfl
    · intro t
      rw [d2, d1]
      by_cases ht : t = d.type
      · subst ht
        simp
      · have : (⟨t⟩ : DataTypeController) ≠ d := fun e => ht (by rw [← e])
        simp [Function.update, ht, this]
    · rw [t2, t1]
      simp
  | cons x rest ih =>
    intro d w hs hn hc hd hrest hnd ha
    have hxd : x ≠ d := by
      intro e
      subst e
      exact (List.nodup_cons.mp hnd).1 (List.mem_cons_self _ _)
    have hne := type_ne_of_ne hxd
    obtain ⟨w1, h1, s1, n1, c1, a1, d1, t1⟩ :=
      step_StartDone_next (hres d.type) hs hn hc (hrest x (List.mem_cons_self _ _)) hne
    have en1 : enabled w (.StartDone d.type (result d.type)) = true := by
      rcases hres d.type with e | e <;> simp [enabled, hd, e]
    have hnd1 : (x :: rest).Nodup := (List.nodup_cons.mp hnd).2
    have hdx : w1.dtc_state x.type = .MODEL_STARTING := by
      rw [d1]; simp
    have hrest1 : ∀ y ∈ rest, w1.dtc_state y.type = .NOT_RUNNING := by
      intro y hy
      have hyx : y ≠ x := by
        intro e
        subst e
        exact (List.nodup_cons.mp hnd1).1 hy
      have hyd : y ≠ d := by
        intro e
        subst e
        exact (List.nodup_cons.mp hnd).1 (List.mem_cons_of_mem _ hy)
      rw [d1]
      simp only [Function.update, type_ne_of_ne hyx, type_ne_of_ne hyd, dite_false]
      exact hrest y (List.mem_cons_of_mem _ hy)
    obtain ⟨w2, h2, s2, n2, d2, t2⟩ := ih x w1 s1 n1 c1 hdx hrest1 hnd1 (a1.trans ha)
    refine ⟨w2, ?_, s2, n2, ?_, ?_⟩
    · rw [List.map_cons, List.cons_append, run_cons_ok _ en1 h1]
      exact h2
    · intro t
      rw [d2, d1]
      by_cases ht : (⟨t⟩ : DataTypeController) ∈ x :: rest
      · have : (⟨t⟩ : DataTypeController) ∈ d :: x :: rest := List.mem_cons_of_mem _ ht
        rw [if_pos ht, if_pos this]
      · rw [if_neg ht]
        have htx : t ≠ x.type := by
          intro e
          apply ht
          subst e
          exact List.mem_cons_self _ _
        by_cases htd : t = d.type
        · subst htd
          simp [Function.update, hne.symm]
        · have : (⟨t⟩ : DataTypeController) ∉ d :: x :: rest := by
            intro hmem
            rcases List.mem_cons.mp hmem with e | e
            · exact htd (by rw [← e])
            · exact ht e
          rw [if_neg this]
          simp [Function.update, htx, htd]
    · rw [t2, t1]
      simp

/-- C2: from state STOPPED with every registered controller NOT_RUNNING and a backend
that accepts requests, for every non-empty desired set of registered identities:
Configure, the paused event, a completion with OK or OK_FIRST_RUN of each start, and
the resumed event run through; the boundary calls are exactly one accepted pause
request, then for each controller of the desired set, in the order of the sorted list,
one Start followed by its completion before the next Start, then one accepted resume
request, with configure-started and configure-done(OK) the only notifications; the
sorted list holds each desired controller once in non-decreasing rank; the manager ends
CONFIGURED with needs_start empty and exactly the desired controllers RUNNING. -/
theorem Configure_cycle_from_stopped (types : List ModelType)
    (htypes : types.Sorted (· < ·)) (desired_types : TypeSet)
    (hne : desired_types.elems ≠ []) (hreg : ∀ t ∈ desired_types.elems, t ∈ types)
    (result : ModelType → DataTypeController.StartResult)
    (hres : ∀ t, result t = .OK ∨ result t = .OK_FIRST_RUN)
    (w : World) (hs : w.state_ = .STOPPED) (hc : w.controllers_ = registry types)
    (hst : ∀ t ∈ types, w.dtc_state t = .NOT_RUNNING) (ha : w.backend_accepting = true) :
    ∃ w1, run w ([Event.Configure desired_types, Event.Paused] ++
          (sort (desired_types.elems.map DataTypeController.mk)).map
            (fun x => Event.StartDone x.type (result x.type)) ++ [Event.Resumed]) = some w1 ∧
      w1.state_ = .CONFIGURED ∧ w1.needs_start_ = [] ∧
      w1.trace.map Prod.fst = w.trace.map Prod.fst ++
        ([.CallConfigure desired_types.elems, .NotifyStart, .AddObserver .SYNC_PAUSED,
          .RequestPause true, .CallObserve .SYNC_PAUSED, .RemoveObserver .SYNC_PAUSED] ++
         (sort (desired_types.elems.map DataTypeController.mk)).flatMap
           (fun x => [Effect.Start x, Effect.CallTypeStartCallback (result x.type)]) ++
         [.AddObserver .SYNC_RESUMED, .RequestResume true, .CallObserve .SYNC_RESUMED,
          .RemoveObserver .SYNC_RESUMED, .NotifyDone .OK]) ∧
      (sort (desired_types.elems.map DataTypeController.mk)).Sorted
        (fun lhs rhs => order lhs.type ≤ order rhs.type) ∧
      (sort (desired_types.elems.map DataTypeController.mk)).Nodup ∧
      (∀ dtc, dtc ∈ sort (desired_types.elems.map DataTypeController.mk) ↔
        dtc.type ∈ desired_types.elems) ∧
      (∀ t ∈ types, w1.dtc_state t = .RUNNING ↔ t ∈ desired_types.elems) := by
  have hmem : ∀ dtc, dtc ∈ sort (desired_types.elems.map DataTypeController.mk) ↔
      dtc.type ∈ desired_types.elems := by
    intro dtc
    rw [mem_sort, List.mem_map]
    constructor
    · rintro ⟨t, ht, rfl⟩
      exact ht
    · intro h
      exact ⟨dtc.type, h, rfl⟩
  have hnd : (sort (desired_types.elems.map DataTypeController.mk)).Nodup := by
    rw [nodup_sort]
    refine List.Nodup.map ?_ desired_types.sorted.nodup
    intro a b e
    cases e
    rfl
  obtain ⟨w1, h1, s1, n1, o1, p1, a1, d1, t1⟩ :=
    step_Configure_start htypes desired_types hne hreg hs hc hst ha
  cases hl : sort (desired_types.elems.map DataTypeController.mk) with
  | nil =>
    exact absurd (List.map_eq_nil_iff.mp (sort_eq_nil.mp hl)) hne
  | cons d rest =>
    rw [hl] at n1 hmem hnd
    have hd : d.type ∈ desired_types.elems := (hmem d).mp (List.mem_cons_self _ _)
    have hd1 : w1.dtc_state d.type = .NOT_RUNNING := by
      rw [d1]
      exact hst _ (hreg _ hd)
    obtain ⟨w2, h2, s2, n2, c2, a2, d2, t2⟩ := step_Paused_start s1 n1 o1 hd1
    have hrest : ∀ x ∈ rest, w2.dtc_state x.type = .NOT_RUNNING := by
      intro x hx
      have hxd : x ≠ d := by
        intro e
        subst e
        exact (List.nodup_cons.mp hnd).1 hx
      rw [d2, d1]
      simp only [Function.update, type_ne_of_ne hxd, dite_false]
      exact hst _ (hreg _ ((hmem x).mp (List.mem_cons_of_mem _ hx)))
    obtain ⟨w3, h3, s3, n3, d3, t3⟩ := run_start_completions result hres rest d w2 s2 n2 c2
      (by rw [d2]; simp) hrest hnd (a2.trans a1)
    have en1 : enabled w (.Configure desired_types) = true := rfl
    have en2 : enabled w1 .Paused = true := by
      simp [enabled, p1]
    refine ⟨w3, ?_, s3, n3, ?_, ?_, hnd, hmem, ?_⟩
    · rw [List.append_assoc, List.cons_append, List.cons_append, List.nil_append,
        run_cons_ok _ en1 h1, run_cons_ok _ en2 h2]
      exact h3
    · rw [t3, t2, t1]
      simp
    · rw [← hl]
      exact sorted_sort _
    · intro t ht
      rw [d3, d2, d1]
      by_cases hin : (⟨t⟩ : DataTypeController) ∈ d :: rest
      · rw [if_pos hin]
        simpa using (hmem ⟨t⟩).mp hin
      · rw [if_neg hin]
        have hnot : t ∉ desired_types.elems := fun h => hin ((hmem ⟨t⟩).mpr h)
        have htd : t ≠ d.type := by
          intro e
          apply hin
          subst e
          exact List.mem_cons_self _ _
        simp [Function.update, htd, hst t ht, hnot]

/-- C2 at the concrete input of the scenario: ranks BOOKMARKS 0, PREFERENCES 1,
AUTOFILL 2, all registered and stopped, and Configure({BOOKMARKS, AUTOFILL}): BOOKMARKS
is started, then AUTOFILL. -/
theorem Configure_cycle_from_stopped_witness :
    (sort ((TypeSet.pair syncable.BOOKMARKS syncable.AUTOFILL (by decide)).elems.map
        DataTypeController.mk) = [⟨syncable.BOOKMARKS⟩, ⟨syncable.AUTOFILL⟩]) ∧
    ∃ w1, run (init [syncable.BOOKMARKS, syncable.PREFERENCES, syncable.AUTOFILL])
        ([Event.Configure (TypeSet.pair syncable.BOOKMARKS syncable.AUTOFILL (by decide)),
          Event.Paused] ++
          (sort ((TypeSet.pair syncable.BOOKMARKS syncable.AUTOFILL (by decide)).elems.map
            DataTypeController.mk)).map
            (fun x => Event.StartDone x.type .OK) ++ [Event.Resumed]) = some w1 ∧
      w1.state_ = .CONFIGURED ∧ w1.needs_start_ = [] ∧
      w1.trace.map Prod.fst =
        (init [syncable.BOOKMARKS, syncable.PREFERENCES, syncable.AUTOFILL]).trace.map
          Prod.fst ++
        ([.CallConfigure [syncable.BOOKMARKS, syncable.AUTOFILL], .NotifyStart,
          .AddObserver .SYNC_PAUSED,
          .RequestPause true, .CallObserve .SYNC_PAUSED, .RemoveObserver .SYNC_PAUSED] ++
         (sort ((TypeSet.pair syncable.BOOKMARKS syncable.AUTOFILL (by decide)).elems.map
            DataTypeController.mk)).flatMap
           (fun x => [Effect.Start x, Effect.CallTypeStartCallback .OK]) ++
         [.AddObserver .SYNC_RESUMED, .RequestResume true, .CallObserve .SYNC_RESUMED,
          .RemoveObserver .SYNC_RESUMED, .NotifyDone .OK]) ∧
      (sort ((TypeSet.pair syncable.BOOKMARKS syncable.AUTOFILL (by decide)).elems.map
          DataTypeController.mk)).Sorted
        (fun lhs rhs => order lhs.type ≤ order rhs.type) ∧
      (sort ((TypeSet.pair syncable.BOOKMARKS syncable.AUTOFILL (by decide)).elems.map
          DataTypeController.mk)).Nodup ∧
      (∀ dtc, dtc ∈ sort ((TypeSet.pair syncable.BOOKMARKS syncable.AUTOFILL
          (by decide)).elems.map DataTypeController.mk) ↔
        dtc.type ∈ [syncable.BOOKMARKS, syncable.AUTOFILL]) ∧
      (∀ t ∈ [syncable.BOOKMARKS, syncable.PREFERENCES, syncable.AUTOFILL],
        w1.dtc_state t = .RUNNING ↔ t ∈ [syncable.BOOKMARKS, syncable.AUTOFILL]) :=
  ⟨by decide,
   Configure_cycle_from_stopped
    [syncable.BOOKMARKS, syncable.PREFERENCES, syncable.AUTOFILL] (by decide)
    (TypeSet.pair syncable.BOOKMARKS syncable.AUTOFILL (by decide)) (by decide)
    (by decide) (fun _ => .OK) (fun _ => Or.inl rfl)
    (init [syncable.BOOKMARKS, syncable.PREFERENCES, syncable.AUTOFILL]) rfl rfl
    (fun _ _ => rfl) rfl⟩

/-- C5 at a concrete input: the run of the scenario above, where two `Start` calls are
recorded. -/
theorem Start_never_on_running_witness :
    ∃ w, run (init [syncable.BOOKMARKS, syncable.PREFERENCES, syncable.AUTOFILL])
        [.Configure (TypeSet.pair syncable.BOOKMARKS syncable.AUTOFILL (by decide)),
         .Paused, .StartDone syncable.BOOKMARKS .OK, .StartDone syncable.AUTOFILL .OK,
         .Resumed] = some w ∧
      startCalls [] w.trace = [(⟨syncable.BOOKMARKS⟩, []), (⟨syncable.AUTOFILL⟩, [])] ∧
      ∀ e ∈ w.trace, ∀ dtc, e.1 = .Start dtc → e.2.dtc_state dtc.type ≠ .RUNNING := by
  have hsome : (run (init [syncable.BOOKMARKS, syncable.PREFERENCES, syncable.AUTOFILL])
        [.Configure (TypeSet.pair syncable.BOOKMARKS syncable.AUTOFILL (by decide)),
         .Paused, .StartDone syncable.BOOKMARKS .OK, .StartDone syncable.AUTOFILL .OK,
         .Resumed]).isSome = true := by decide
  obtain ⟨w, h⟩ := Option.isSome_iff_exists.mp hsome
  have hcalls : (run (init [syncable.BOOKMARKS, syncable.PREFERENCES, syncable.AUTOFILL])
        [.Configure (TypeSet.pair syncable.BOOKMARKS syncable.AUTOFILL (by decide)),
         .Paused, .StartDone syncable.BOOKMARKS .OK, .StartDone syncable.AUTOFILL .OK,
         .Resumed]).map (fun w => startCalls [] w.trace) =
      some [(⟨syncable.BOOKMARKS⟩, []), (⟨syncable.AUTOFILL⟩, [])] := by decide
  rw [h] at hcalls
  exact ⟨w, h, by simpa using hcalls,
    Start_never_on_running [syncable.BOOKMARKS, syncable.PREFERENCES, syncable.AUTOFILL]
      (by decide) _ w h⟩

/-- The constructor accepts a registry of stopped controllers and yields `init`. -/
theorem create_registry (types : List ModelType) :
    create (registry types) (fun _ => .NOT_RUNNING) true = .ok (init types) := by
  have h : create.loop (fun _ => .NOT_RUNNING) (registry types) = .ok () := by
    induction types with
    | nil => rfl
    | cons t ts ih =>
      simp only [registry, List.map_cons, create.loop, if_true]
      exact ih
  simp only [create, DCHECK, h, bind, Except.bind, pure, Except.pure]
  rfl

theorem controllers_cons_some (k : ModelType) (d : DataTypeController) (rest : TypeMap) :
    TypeMap.controllers ((k, some d) :: rest) = d :: TypeMap.controllers rest := by
  simp [TypeMap.controllers]

/-- What the loop of `FinishStop` does over a null-free registry of distinct controllers:
it succeeds, stops exactly the controllers that are running, in registry order, and
changes nothing but their state. -/
theorem FinishStop_loop_spec (m : TypeMap) (hnull : m.NullFree)
    (hnd : (m.controllers.map (fun d => d.type)).Nodup) (w : World) :
    ∃ new, FinishStop.loop m w = .ok
        { w with
          dtc_state := fun t =>
            if (⟨t⟩ : DataTypeController) ∈ m.controllers ∧ w.dtc_state t = .RUNNING then
              .NOT_RUNNING else w.dtc_state t
          trace := w.trace ++ new } ∧
      new.map Prod.fst =
        (m.controllers.filter (fun d => decide (w.dtc_state d.type = .RUNNING))).map
          Effect.Stop ∧
      ∀ e ∈ new, ∀ d, e.1 = .Stop d → e.2.dtc_state d.type = .RUNNING := by
  induction m generalizing w with
  | nil =>
    refine ⟨[], ?_, by simp [TypeMap.controllers], by simp⟩
    simp [FinishStop.loop, TypeMap.controllers]
  | cons e rest ih =>
    obtain ⟨k, p⟩ := e
    have hnull1 : TypeMap.NullFree rest := fun x hx => hnull x (List.mem_cons_of_mem _ hx)
    cases p with
    | none => exact absurd rfl (hnull (k, none) (List.mem_cons_self _ _))
    | some d =>
      rw [controllers_cons_some] at hnd ⊢
      simp only [List.map_cons, List.nodup_cons] at hnd
      have hne : ∀ x ∈ TypeMap.controllers rest, x.type ≠ d.type := by
        intro x hx e
        exact hnd.1 (List.mem_map.mpr ⟨x, hx, e⟩)
      by_cases hr : w.dtc_state d.type = .RUNNING
      · obtain ⟨new, h1, h2, h3⟩ := ih hnull1 hnd.2 (DataTypeController.Stop d w).1
        refine ⟨(.Stop d, w.toMachine) :: new, ?_, ?_, ?_⟩
        · simp only [FinishStop.loop, hr, if_true, h1]
          rw [Stop_fst]
          simp only [World.emit, List.append_assoc, List.singleton_append, Except.ok.injEq,
            World.mk.injEq, Machine.mk.injEq, true_and, and_true]
          funext t
          by_cases ht : t = d.type
          · subst ht
            simp [hr]
          · have : (⟨t⟩ : DataTypeController) ≠ d := fun e => ht (by rw [← e])
            simp [Function.update, ht, this]
        · rw [Stop_fst] at h2
          simp only [List.map_cons, List.filter_cons, hr, decide_True, if_true, h2]
          congr 2
          apply List.filter_congr
          intro x hx
          simp [World.emit, Function.update, hne x hx]
        · intro e he x hex
          rcases List.mem_cons.mp he with rfl | he
          · simp only [Effect.Stop.injEq] at hex
            subst hex
            exact hr
          · exact h3 e he x hex
      · obtain ⟨new, h1, h2, h3⟩ := ih hnull1 hnd.2 w
        refine ⟨new, ?_, ?_, h3⟩
        · simp only [FinishStop.loop, hr, if_false, h1, Except.ok.injEq,
            World.mk.injEq, Machine.mk.injEq, true_and, and_true]
          funext t
          by_cases ht : t = d.type
          · subst ht
            simp [hr]
          · have : (⟨t⟩ : DataTypeController) ≠ d := fun e => ht (by rw [← e])
            simp [this]
        · simp only [List.filter_cons, hr, decide_False, h2]
          simp

theorem Grows.same (P : Effect × Machine → Prop) (w : World) : Grows P w w :=
  ⟨[], by simp, by simp⟩

theorem Grows.of_trace_eq {P : Effect × Machine → Prop} {w w1 : World}
    (h : w1.trace = w.trace) : Grows P w w1 :=
  ⟨[], by simp [h], by simp⟩

theorem Grows.chain {P : Effect × Machine → Prop} {w w1 w2 : World}
    (h1 : Grows P w w1) (h2 : Grows P w1 w2) : Grows P w w2 := by
  obtain ⟨n1, e1, p1⟩ := h1
  obtain ⟨n2, e2, p2⟩ := h2
  refine ⟨n1 ++ n2, by rw [e2, e1, List.append_assoc], ?_⟩
  intro e he
  rcases List.mem_append.mp he with h | h
  · exact p1 e h
  · exact p2 e h

theorem Grows.call {P : Effect × Machine → Prop} (w : World) (e : Effect)
    (h : P (e, w.toMachine)) : Grows P w (w.emit e) := by
  refine ⟨[(e, w.toMachine)], rfl, ?_⟩
  intro x hx
  simp only [List.mem_singleton] at hx
  subst hx
  exact h

theorem Grows.ite {P : Effect × Machine → Prop} {c : Prop} [Decidable c] {w w1 : World}
    (h : Grows P w w1) : Grows P w (if c then w1 else w) := by
  split
  · exact h
  · exact Grows.same P w

theorem doneOk_of_ne {e : Effect} {m : Machine} (h : ∀ r, e ≠ .NotifyDone r) :
    DoneOk (e, m) :=
  fun r hr => absurd hr (h r)

theorem grows_AddObserver (type : NotificationType) (w : World) :
    Grows DoneOk w (AddObserver type w) := by
  obtain ⟨new, h1, h2⟩ := Grows.call (P := DoneOk) w (.AddObserver type)
    (doneOk_of_ne (by simp))
  cases type <;> exact ⟨new, h1, h2⟩

theorem grows_RemoveObserver (type : NotificationType) (w : World) :
    Grows DoneOk w (RemoveObserver type w) := by
  obtain ⟨new, h1, h2⟩ := Grows.call (P := DoneOk) w (.RemoveObserver type)
    (doneOk_of_ne (by simp))
  cases type <;> exact ⟨new, h1, h2⟩

theorem grows_RequestResume (w : World) :
    Grows DoneOk w (SyncBackendHost.RequestResume w).2 := by
  obtain ⟨new, h1, h2⟩ := Grows.call (P := DoneOk) w (.RequestResume w.backend_accepting)
    (doneOk_of_ne (by simp))
  unfold SyncBackendHost.RequestResume
  simp only
  split <;> exact ⟨new, h1, h2⟩

theorem grows_RequestPause (w : World) :
    Grows DoneOk w (SyncBackendHost.RequestPause w).2 := by
  obtain ⟨new, h1, h2⟩ := Grows.call (P := DoneOk) w (.RequestPause w.backend_accepting)
    (doneOk_of_ne (by simp))
  unfold SyncBackendHost.RequestPause
  simp only
  split <;> exact ⟨new, h1, h2⟩

theorem grows_NotifyDone (r : DataTypeManager.ConfigureResult) (w : World)
    (h : w.state_ = doneState r) : Grows DoneOk w (NotifyDone r w) := by
  refine Grows.call w _ ?_
  intro r1 hr
  simp only [Effect.NotifyDone.injEq] at hr
  subst hr
  exact h

theorem grows_Stop (d : DataTypeController) (w : World) :
    Grows DoneOk w (DataTypeController.Stop d w).1 := by
  rw [Stop_fst]
  obtain ⟨new, h1, h2⟩ := Grows.call (P := DoneOk) w (.Stop d) (doneOk_of_ne (by simp))
  exact ⟨new, h1, h2⟩

theorem grows_Start (d : DataTypeController) (w : World) :
    Grows DoneOk w (DataTypeController.Start d w) := by
  obtain ⟨new, h1, h2⟩ := Grows.call (P := DoneOk) w (.Start d) (doneOk_of_ne (by simp))
  unfold DataTypeController.Start
  simp only
  split <;> exact ⟨new, h1, h2⟩

theorem FinishStop_loop_grows {m : TypeMap} {w w1 : World}
    (h : FinishStop.loop m w = .ok w1) : Grows DoneOk w w1 := by
  induction m generalizing w with
  | nil =>
    simp only [FinishStop.loop, Except.ok.injEq] at h
    subst h
    exact Grows.same _ _
  | cons e rest ih =>
    obtain ⟨k, p⟩ := e
    cases p with
    | none => simp [FinishStop.loop] at h
    | some dtc =>
      simp only [FinishStop.loop] at h
      split at h
      · exact (grows_Stop dtc w).chain (ih h)
      · exact ih h

theorem FinishStop_grows {w w1 : World} (h : FinishStop w = .ok w1) :
    Grows DoneOk w w1 := by
  simp only [FinishStop, DCHECK, bind, Except.bind, pure, Except.pure] at h
  split at h
  · cases h
  · split at h
    · cases h
    · rename_i w2 hw2
      simp only [Except.ok.injEq] at h
      subst h
      exact (FinishStop_loop_grows hw2).chain (Grows.of_trace_eq rfl)

theorem ResumeSyncer_grows {w w1 : World} (h : ResumeSyncer w = .ok w1) :
    Grows DoneOk w w1 := by
  have c1 := (grows_AddObserver .SYNC_RESUMED w).chain
    (grows_RequestResume (AddObserver .SYNC_RESUMED w))
  simp only [ResumeSyncer, bind, Except.bind, pure, Except.pure] at h
  split at h
  · simp only [Except.ok.injEq] at h
    subst h
    exact c1
  · split at h
    · cases h
    · rename_i w3 hw3
      simp only [Except.ok.injEq] at h
      subst h
      exact ((c1.chain (grows_RemoveObserver _ _)).chain (FinishStop_grows hw3)).chain
        (grows_NotifyDone _ _ (FinishStop_calm hw3).2)

theorem PauseSyncer_grows {w w1 : World} (h : PauseSyncer w = .ok w1) :
    Grows DoneOk w w1 := by
  have c1 := (grows_AddObserver .SYNC_PAUSED w).chain
    (grows_RequestPause (AddObserver .SYNC_PAUSED w))
  simp only [PauseSyncer, bind, Except.bind, pure, Except.pure] at h
  split at h
  · simp only [Except.ok.injEq] at h
    subst h
    exact c1
  · split at h
    · cases h
    · rename_i w3 hw3
      simp only [Except.ok.injEq] at h
      subst h
      exact ((c1.chain (grows_RemoveObserver _ _)).chain (FinishStop_grows hw3)).chain
        (grows_NotifyDone _ _ (FinishStop_calm hw3).2)

theorem StartNextType_grows {w w1 : World} (h : StartNextType w = .ok w1) :
    Grows DoneOk w w1 := by
  unfold StartNextType at h
  split at h
  · simp only [Except.ok.injEq] at h
    subst h
    exact (Grows.of_trace_eq rfl).chain (grows_Start _ _)
  · simp only [DCHECK, bind, Except.bind] at h
    split at h
    · cases h
    · have g := ResumeSyncer_grows h
      exact (Grows.of_trace_eq rfl).chain g

theorem TypeStartCallback_grows {r : DataTypeController.StartResult} {w w1 : World}
    (hr : TypeStartCallback r w = .ok w1) : Grows DoneOk w w1 := by
  unfold TypeStartCallback at hr
  by_cases hcur : w.current_dtc_ = none
  · simp [hcur] at hr
  by_cases hst : w.state_ = .RESTARTING
  · simp only [hcur, hst, if_true, if_false] at hr
    exact ResumeSyncer_grows hr
  cases hl : w.needs_start_ with
  | nil => simp [hcur, hst, hl] at hr
  | cons head tail =>
    by_cases heq : some head = w.current_dtc_
    swap
    · simp [hcur, hst, hl, heq] at hr
    simp only [hcur, hst, hl, heq, if_true, if_false] at hr
    have hpop : Grows DoneOk w { w with needs_start_ := tail, current_dtc_ := none } :=
      Grows.of_trace_eq rfl
    by_cases h1 : w.state_ = .STOPPING
    · rw [if_pos h1] at hr
      simp only [bind, Except.bind, pure, Except.pure] at hr
      split at hr
      · cases hr
      · rename_i w2 hw2
        simp only [Except.ok.injEq] at hr
        subst hr
        exact (hpop.chain (FinishStop_grows hw2)).chain
          (grows_NotifyDone _ _ (FinishStop_calm hw2).2)
    rw [if_neg h1] at hr
    by_cases h2 : w.state_ = .STOPPED
    · rw [if_pos h2] at hr
      simp only [Except.ok.injEq] at hr
      subst hr
      exact hpop
    rw [if_neg h2] at hr
    by_cases h3 : r = .OK ∨ r = .OK_FIRST_RUN
    · rw [if_pos h3] at hr
      exact hpop.chain (StartNextType_grows hr)
    · rw [if_neg h3] at hr
      simp only [bind, Except.bind, pure, Except.pure] at hr
      split at hr
      · cases hr
      · rename_i w2 hw2
        split at hr
        · rename_i c hc
          simp only [Except.ok.injEq] at hr
          subst hr
          refine (hpop.chain (FinishStop_grows hw2)).chain
            (grows_NotifyDone _ _ ?_)
          rw [(FinishStop_calm hw2).2]
          cases r <;> simp [TypeStartCallback.configure_result] at hc <;> subst hc <;> rfl
        · cases hr

theorem callStop_grows {d : DataTypeController} {w w1 : World}
    (hr : callStop d w = .ok w1) : Grows DoneOk w w1 := by
  rw [callStop_eq] at hr
  split at hr
  · have g := TypeStartCallback_grows hr
    exact ((grows_Stop d w).chain (Grows.call _ _ (doneOk_of_ne (by simp)))).chain g
  · simp only [Except.ok.injEq] at hr
    subst hr
    exact grows_Stop d w

theorem Restart_loop_grows {l : List DataTypeController} {w w1 : World}
    (hr : Restart.loop l w = .ok w1) : Grows DoneOk w w1 := by
  induction l generalizing w with
  | nil =>
    simp only [Restart.loop, Except.ok.injEq] at hr
    subst hr
    exact Grows.same _ _
  | cons d rest ih =>
    simp only [Restart.loop, bind, Except.bind] at hr
    split at hr
    · cases hr
    · rename_i w2 hw2
      exact (callStop_grows hw2).chain (ih hr)

theorem Restart_grows {w w1 : World} (hr : Restart w = .ok w1) : Grows DoneOk w w1 := by
  unfold Restart at hr
  split at hr
  · simp only [Except.ok.injEq] at hr
    subst hr
    exact Grows.of_trace_eq rfl
  · simp only [DCHECK, bind, Except.bind] at hr
    split at hr
    · cases hr
    · split at hr
      · cases hr
      · rename_i w3 hw3
        have g1 : Grows DoneOk w (if w.state_ = .STOPPED ∨ w.state_ = .CONFIGURED then
            NotifyStart { w with current_dtc_ := none }
            else { w with current_dtc_ := none }) := by
          split
          · exact (Grows.of_trace_eq rfl).chain
              (Grows.call _ .NotifyStart (doneOk_of_ne (by simp)))
          · exact Grows.of_trace_eq rfl
        have g3 := Restart_loop_grows hw3
        have g5 := PauseSyncer_grows hr
        exact ((g1.chain g3).chain (Grows.of_trace_eq rfl)).chain g5

theorem Configure_grows {desired_types : TypeSet} {w w1 : World}
    (hr : Configure desired_types w = .ok w1) : Grows DoneOk w w1 := by
  unfold Configure at hr
  by_cases hs : w.state_ = .STOPPING
  · rw [if_pos hs] at hr
    simp only [Except.ok.injEq] at hr
    subst hr
    exact Grows.same _ _
  · rw [if_neg hs] at hr
    split at hr
    · cases hr
    · rename_i w2 hw2
      have g2 : Grows DoneOk w w2 := Grows.of_trace_eq (work_lists_frame hw2).2.2.2.1
      split at hr
      · simp only [Except.ok.injEq] at hr
        subst hr
        have g3 : Grows DoneOk w2 (NotifyStart { w2 with state_ := .CONFIGURED }) :=
          (Grows.of_trace_eq rfl).chain (Grows.call _ .NotifyStart (doneOk_of_ne (by simp)))
        exact (g2.chain g3).chain (grows_NotifyDone _ _ rfl)
      · exact g2.chain (Restart_grows hr)

theorem Stop_grows {w w1 : World} (hr : Stop w = .ok w1) : Grows DoneOk w w1 := by
  unfold Stop at hr
  by_cases h1 : w.state_ = .STOPPED
  · rw [if_pos h1] at hr
    simp only [Except.ok.injEq] at hr
    subst hr
    exact Grows.same _ _
  rw [if_neg h1] at hr
  by_cases h2 : w.state_ = .CONFIGURING
  · rw [if_pos h2] at hr
    simp only at hr
    split at hr
    · cases hr
    · have g := callStop_grows hr
      exact (Grows.of_trace_eq rfl).chain g
  rw [if_neg h2] at hr
  have g := FinishStop_grows hr
  have c1 : Grows DoneOk w
      (if w.state_ = .PAUSE_PENDING then RemoveObserver .SYNC_PAUSED w else w) :=
    Grows.ite (grows_RemoveObserver _ _)
  have c2 : Grows DoneOk (if w.state_ = .PAUSE_PENDING then RemoveObserver .SYNC_PAUSED w else w)
      (if (if w.state_ = .PAUSE_PENDING then RemoveObserver .SYNC_PAUSED w else w).state_ =
          .RESUME_PENDING then
        RemoveObserver .SYNC_RESUMED
          (if w.state_ = .PAUSE_PENDING then RemoveObserver .SYNC_PAUSED w else w)
        else (if w.state_ = .PAUSE_PENDING then RemoveObserver .SYNC_PAUSED w else w)) :=
    Grows.ite (grows_RemoveObserver _ _)
  exact ((c1.chain c2).chain (Grows.of_trace_eq rfl)).chain g

theorem Observe_grows {type : NotificationType} {w w1 : World}
    (hr : Observe type w = .ok w1) : Grows DoneOk w w1 := by
  unfold Observe at hr
  cases type with
  | SYNC_PAUSED =>
    simp only [DCHECK, bind, Except.bind] at hr
    split at hr
    · cases hr
    · by_cases hst : (RemoveObserver .SYNC_PAUSED w).state_ = .RESTARTING
      · rw [if_pos hst] at hr
        exact (grows_RemoveObserver _ _).chain (ResumeSyncer_grows hr)
      · rw [if_neg hst] at hr
        have g := StartNextType_grows hr
        exact ((grows_RemoveObserver .SYNC_PAUSED w).chain (Grows.of_trace_eq rfl)).chain g
  | SYNC_RESUMED =>
    simp only [DCHECK, bind, Except.bind, pure, Except.pure] at hr
    split at hr
    · cases hr
    · by_cases hst : (RemoveObserver .SYNC_RESUMED w).state_ = .RESTARTING
      · rw [if_pos hst] at hr
        exact (grows_RemoveObserver _ _).chain (Restart_grows hr)
      · rw [if_neg hst] at hr
        simp only [Except.ok.injEq] at hr
        subst hr
        exact ((grows_RemoveObserver .SYNC_RESUMED w).chain (Grows.of_trace_eq rfl)).chain
          (grows_NotifyDone _ _ rfl)

theorem step_grows {w w1 : World} {e : Event} (hr : step w e = .ok w1) :
    Grows DoneOk w w1 := by
  cases e with
  | Configure desired_types =>
    exact (Grows.call _ _ (doneOk_of_ne (by simp))).chain (Configure_grows hr)
  | Stop =>
    exact (Grows.call _ _ (doneOk_of_ne (by simp))).chain (Stop_grows hr)
  | Paused =>
    simp only [step] at hr
    split at hr
    · have g := Observe_grows hr
      have g0 : Grows DoneOk w { w with pending_pause := w.pending_pause - 1 } :=
        Grows.of_trace_eq rfl
      exact (g0.chain
        (Grows.call _ (.CallObserve .SYNC_PAUSED) (doneOk_of_ne (by simp)))).chain g
    · simp only [Except.ok.injEq] at hr
      subst hr
      exact Grows.of_trace_eq rfl
  | Resumed =>
    simp only [step] at hr
    split at hr
    · have g := Observe_grows hr
      have g0 : Grows DoneOk w { w with pending_resume := w.pending_resume - 1 } :=
        Grows.of_trace_eq rfl
      exact (g0.chain
        (Grows.call _ (.CallObserve .SYNC_RESUMED) (doneOk_of_ne (by simp)))).chain g
    · simp only [Except.ok.injEq] at hr
      subst hr
      exact Grows.of_trace_eq rfl
  | Associating t =>
    simp only [step, Except.ok.injEq] at hr
    subst hr
    exact Grows.of_trace_eq rfl
  | StartDone t result =>
    simp only [step] at hr
    have g := TypeStartCallback_grows hr
    have g0 : Grows DoneOk w
        { w with dtc_state := (Function.update w.dtc_state t
            (if result = .OK ∨ result = .OK_FIRST_RUN then .RUNNING else .NOT_RUNNING)) } :=
      Grows.of_trace_eq rfl
    exact (g0.chain
      (Grows.call _ (.CallTypeStartCallback result) (doneOk_of_ne (by simp)))).chain g
  | BackendAccepts b =>
    simp only [step, Except.ok.injEq] at hr
    subst hr
    exact Grows.of_trace_eq rfl

theorem run_grows {evs : List Event} {w w1 : World} (hr : run w evs = some w1) :
    Grows DoneOk w w1 := by
  induction evs generalizing w with
  | nil =>
    simp only [run, Option.some.injEq] at hr
    subst hr
    exact Grows.same _ _
  | cons e es ih =>
    simp only [run] at hr
    split at hr
    · split at hr
      · rename_i w2 hw2
        exact (step_grows hw2).chain (ih hr)
      · cases hr
    · cases hr

/-- C17: in every execution from the constructed manager, each configure-done
notification was emitted in the state its outcome determines: CONFIGURED for OK and
STOPPED for ABORTED, ASSOCIATION_FAILED and UNRECOVERABLE_ERROR; so none was emitted in
PAUSE_PENDING, CONFIGURING, RESUME_PENDING, RESTARTING or STOPPING. -/
theorem done_emitted_in_terminal_state (types : List ModelType) (evs : List Event)
    (w : World) (hr : run (init types) evs = some w) :
    ∀ e ∈ w.trace, ∀ r, e.1 = .NotifyDone r →
      (r = .OK → e.2.state_ = .CONFIGURED) ∧
      (r ≠ .OK → e.2.state_ = .STOPPED) ∧
      e.2.state_ ≠ .PAUSE_PENDING ∧ e.2.state_ ≠ .CONFIGURING ∧
      e.2.state_ ≠ .RESUME_PENDING ∧ e.2.state_ ≠ .RESTARTING ∧
      e.2.state_ ≠ .STOPPING := by
  obtain ⟨new, h1, h2⟩ := run_grows hr
  intro e he r her
  have hmem : e ∈ new := by
    rw [h1] at he
    simpa [init] using he
  have hd := h2 e hmem r her
  rw [hd]
  cases r <;> simp [doneState]

theorem wellFormed_controllers_nodup {m : TypeMap} (h : m.WellFormed) :
    (m.controllers.map (fun d => d.type)).Nodup := by
  induction m with
  | nil => simp [TypeMap.controllers]
  | cons e rest ih =>
    obtain ⟨k, p⟩ := e
    have hs := h.1
    simp only [List.map_cons, List.sorted_cons] at hs
    have hrest : TypeMap.WellFormed rest :=
      ⟨hs.2, fun k1 d hk => h.2 k1 d (List.mem_cons_of_mem _ hk)⟩
    cases p with
    | none =>
      have : TypeMap.controllers ((k, none) :: rest) = TypeMap.controllers rest := by
        simp [TypeMap.controllers]
      rw [this]
      exact ih hrest
    | some d =>
      rw [controllers_cons_some]
      simp only [List.map_cons, List.nodup_cons]
      refine ⟨?_, ih hrest⟩
      intro hin
      obtain ⟨x, hx, hxe⟩ := List.mem_map.mp hin
      simp only [TypeMap.controllers, List.mem_filterMap] at hx
      obtain ⟨⟨k1, p1⟩, hmem, hp⟩ := hx
      simp only at hp
      subst hp
      have e1 : x.type = k1 := h.2 k1 x (List.mem_cons_of_mem _ hmem)
      have e2 : d.type = k := h.2 k d (List.mem_cons_self _ _)
      have hlt : k < k1 := hs.1 k1 (List.mem_map.mpr ⟨_, hmem, rfl⟩)
      have : k1 = k := by rw [← e1, hxe, e2]
      exact absurd this (Nat.ne_of_gt hlt)

theorem mem_controllers_iff (m : TypeMap) (d : DataTypeController) :
    d ∈ m.controllers ↔ ∃ k, (k, some d) ∈ m := by
  simp only [TypeMap.controllers, List.mem_filterMap]
  constructor
  · rintro ⟨⟨k, p⟩, h1, h2⟩
    simp only at h2
    subst h2
    exact ⟨k, h1⟩
  · rintro ⟨k, h⟩
    exact ⟨(k, some d), h, rfl⟩

theorem mem_running_iff (w : World) (d : DataTypeController) :
    d ∈ w.running ↔ d ∈ w.controllers_.controllers ∧ w.dtc_state d.type = .RUNNING := by
  simp [World.running]

/-- What `FinishStop` does when its entry assertion holds, over a well-formed registry
without null entries. -/
theorem FinishStop_spec {w : World}
    (hs : w.state_ = .CONFIGURING ∨ w.state_ = .STOPPING ∨
      w.state_ = .PAUSE_PENDING ∨ w.state_ = .RESUME_PENDING)
    (hwf : w.controllers_.WellFormed) (hnull : w.controllers_.NullFree) :
    ∃ new, FinishStop w = .ok
        { w with
          state_ := .STOPPED
          dtc_state := fun t =>
            if (⟨t⟩ : DataTypeController) ∈ w.controllers_.controllers ∧
                w.dtc_state t = .RUNNING then
              .NOT_RUNNING else w.dtc_state t
          trace := w.trace ++ new } ∧
      new.map Prod.fst = w.running.map Effect.Stop ∧
      ∀ e ∈ new, ∀ d, e.1 = .Stop d → e.2.dtc_state d.type = .RUNNING := by
  obtain ⟨new, h1, h2, h3⟩ :=
    FinishStop_loop_spec w.controllers_ hnull (wellFormed_controllers_nodup hwf) w
  refine ⟨new, ?_, h2, h3⟩
  have hd : decide (w.state_ = .CONFIGURING ∨ w.state_ = .STOPPING ∨
      w.state_ = .PAUSE_PENDING ∨ w.state_ = .RESUME_PENDING) = true := by
    simpa using hs
  simp only [FinishStop, DCHECK, hd, if_true, h1, bind, Except.bind, pure, Except.pure]

/-- The result of `FinishStop`, field by field. -/
theorem FinishStop_fields (w : World)
    (hs : w.state_ = .CONFIGURING ∨ w.state_ = .STOPPING ∨
      w.state_ = .PAUSE_PENDING ∨ w.state_ = .RESUME_PENDING)
    (hwf : w.controllers_.WellFormed) (hnull : w.controllers_.NullFree) :
    ∃ w1, FinishStop w = .ok w1 ∧ w1.state_ = .STOPPED ∧
      w1.trace.map Prod.fst = w.trace.map Prod.fst ++ w.running.map Effect.Stop ∧
      (∀ dtc, dtc ∈ w.running ↔
        ((∃ k, (k, some dtc) ∈ w.controllers_) ∧ w.dtc_state dtc.type = .RUNNING)) ∧
      (∀ e ∈ w1.trace.drop w.trace.length, ∀ dtc, e.1 = .Stop dtc →
        e.2.dtc_state dtc.type = .RUNNING) ∧
      (∀ k dtc, (k, some dtc) ∈ w.controllers_ → w1.dtc_state dtc.type ≠ .RUNNING) ∧
      (∀ t, w1.dtc_state t = w.dtc_state t ∨
        (w.dtc_state t = .RUNNING ∧ w1.dtc_state t = .NOT_RUNNING)) ∧
      w1.needs_start_ = w.needs_start_ ∧ w1.needs_stop_ = w.needs_stop_ ∧
      w1.current_dtc_ = w.current_dtc_ ∧ w1.controllers_ = w.controllers_ ∧
      w1.paused_observer = w.paused_observer ∧ w1.resumed_observer = w.resumed_observer ∧
      w1.pending_pause = w.pending_pause ∧ w1.pending_resume = w.pending_resume := by
  obtain ⟨new, h1, h2, h3⟩ := FinishStop_spec hs hwf hnull
  refine ⟨_, h1, rfl, ?_, ?_, ?_, ?_, ?_, rfl, rfl, rfl, rfl, rfl, rfl, rfl, rfl⟩
  · simp [h2]
  · intro dtc
    rw [mem_running_iff, mem_controllers_iff]
  · simpa using h3
  · intro k dtc hk
    have hmem : dtc ∈ w.controllers_.controllers := (mem_controllers_iff _ _).mpr ⟨k, hk⟩
    simp only
    split
    · simp
    · rename_i hc
      intro hr
      exact hc ⟨hmem, hr⟩
  · intro t
    simp only
    split
    · rename_i hc
      exact Or.inr ⟨hc.2, rfl⟩
    · exact Or.inl rfl

/-- C20: when its entry assertion holds, over a well-formed registry without null
entries, FinishStop returns; the Stop calls it records are exactly the registered
controllers whose state is RUNNING, across the whole registry in registry order, each
RUNNING at the moment of the call; the state becomes STOPPED; no registered controller
is RUNNING afterwards; and nothing else changes. -/
theorem FinishStop_stops_all_running (w : World)
    (hs : w.state_ = .CONFIGURING ∨ w.state_ = .STOPPING ∨
      w.state_ = .PAUSE_PENDING ∨ w.state_ = .RESUME_PENDING)
    (hwf : w.controllers_.WellFormed) (hnull : w.controllers_.NullFree) :
    ∃ w1, FinishStop w = .ok w1 ∧ w1.state_ = .STOPPED ∧
      w1.trace.map Prod.fst = w.trace.map Prod.fst ++ w.running.map Effect.Stop ∧
      (∀ dtc, dtc ∈ w.running ↔
        ((∃ k, (k, some dtc) ∈ w.controllers_) ∧ w.dtc_state dtc.type = .RUNNING)) ∧
      (∀ e ∈ w1.trace.drop w.trace.length, ∀ dtc, e.1 = .Stop dtc →
        e.2.dtc_state dtc.type = .RUNNING) ∧
      (∀ k dtc, (k, some dtc) ∈ w.controllers_ → w1.dtc_state dtc.type ≠ .RUNNING) ∧
      (∀ t, w1.dtc_state t = w.dtc_state t ∨
        (w.dtc_state t = .RUNNING ∧ w1.dtc_state t = .NOT_RUNNING)) ∧
      w1.needs_start_ = w.needs_start_ ∧ w1.needs_stop_ = w.needs_stop_ ∧
      w1.current_dtc_ = w.current_dtc_ ∧ w1.controllers_ = w.controllers_ ∧
      w1.paused_observer = w.paused_observer ∧ w1.resumed_observer = w.resumed_observer ∧
      w1.pending_pause = w.pending_pause ∧ w1.pending_resume = w.pending_resume :=
  FinishStop_fields w hs hwf hnull

theorem not_running_after {w : World} (k : ModelType) (dtc : DataTypeController)
    (hk : (k, some dtc) ∈ w.controllers_) :
    (if (⟨dtc.type⟩ : DataTypeController) ∈ w.controllers_.controllers ∧
        w.dtc_state dtc.type = .RUNNING then
      DataTypeController.State.NOT_RUNNING else w.dtc_state dtc.type) ≠ .RUNNING := by
  have hmem : dtc ∈ w.controllers_.controllers := (mem_controllers_iff _ _).mpr ⟨k, hk⟩
  split
  · simp
  · rename_i hc
    intro hr
    exact hc ⟨hmem, hr⟩

/-- The teardown paths of `TypeStartCallback`: in state STOPPING (any result, outcome
ABORTED) and in state CONFIGURING with a failure result (outcome by the `switch`). -/
theorem TypeStartCallback_teardown {w : World} {r : DataTypeController.StartResult}
    {head : DataTypeController} {tail : List DataTypeController}
    {c : DataTypeManager.ConfigureResult}
    (hc : w.current_dtc_ = some head) (hn : w.needs_start_ = head :: tail)
    (hwf : w.controllers_.WellFormed) (hnull : w.controllers_.NullFree)
    (hcase : (w.state_ = .STOPPING ∧ c = .ABORTED) ∨
      (w.state_ = .CONFIGURING ∧ TypeStartCallback.configure_result r = some c)) :
    ∃ w1, TypeStartCallback r w = .ok w1 ∧ w1.state_ = .STOPPED ∧
      w1.needs_start_ = tail ∧ w1.current_dtc_ = none ∧
      w1.trace.map Prod.fst =
        w.trace.map Prod.fst ++ w.running.map Effect.Stop ++ [.NotifyDone c] ∧
      (∀ k dtc, (k, some dtc) ∈ w.controllers_ → w1.dtc_state dtc.type ≠ .RUNNING) ∧
      w1.needs_stop_ = w.needs_stop_ ∧ w1.controllers_ = w.controllers_ ∧
      w1.paused_observer = w.paused_observer ∧ w1.resumed_observer = w.resumed_observer ∧
      w1.pending_pause = w.pending_pause ∧ w1.pending_resume = w.pending_resume := by
  have hcur : w.current_dtc_ ≠ none := by rw [hc]; simp
  have hstate : w.state_ = .CONFIGURING ∨ w.state_ = .STOPPING ∨
      w.state_ = .PAUSE_PENDING ∨ w.state_ = .RESUME_PENDING := by
    rcases hcase with ⟨hs, _⟩ | ⟨hs, _⟩
    · exact Or.inr (Or.inl hs)
    · exact Or.inl hs
  obtain ⟨w2, f1, f2, f3, _, _, f6, _, f8, f9, f10, f11, f12, f13, f14, f15⟩ :=
    FinishStop_fields { w with needs_start_ := tail, current_dtc_ := none } hstate hwf hnull
  have hrun : World.running { w with needs_start_ := tail, current_dtc_ := none } =
      w.running := rfl
  rw [hrun] at f3
  refine ⟨NotifyDone c w2, ?_, f2, f8, f10, ?_, f6, f9, f11, f12, f13, f14, f15⟩
  · unfold TypeStartCallback
    rw [if_neg hcur]
    rcases hcase with ⟨hs, rfl⟩ | ⟨hs, hres⟩
    · rw [if_neg (by rw [hs]; simp)]
      simp only [hn, hc, if_true]
      rw [if_pos hs]
      simp only [f1, bind, Except.bind, pure, Except.pure]
    · have hnok : ¬ (r = .OK ∨ r = .OK_FIRST_RUN) := by
        rintro (e | e) <;> rw [e] at hres <;>
          simp [TypeStartCallback.configure_result] at hres
      rw [if_neg (by rw [hs]; simp)]
      simp only [hn, hc, if_true]
      rw [if_neg (by rw [hs]; simp), if_neg (by rw [hs]; simp), if_neg hnok]
      simp only [f1, hres, bind, Except.bind, pure, Except.pure]
  · simp [NotifyDone, World.emit, f3]

/-- C12: a start that completes with ABORTED, ASSOCIATION_FAILED or UNRECOVERABLE_ERROR
while the state is CONFIGURING (the current controller is the head of needs_start, the
registry is well formed and has no null entry): the callback returns, the calls it
records are Stop on exactly the RUNNING registered controllers and then one
configure-done with the outcome the switch maps the result to; no Start and no backend
request is made; the state is STOPPED and no registered controller is RUNNING. -/
theorem start_failure_tears_down (w : World) (r : DataTypeController.StartResult)
    (head : DataTypeController) (tail : List DataTypeController)
    (hs : w.state_ = .CONFIGURING)
    (hc : w.current_dtc_ = some head) (hn : w.needs_start_ = head :: tail)
    (hwf : w.controllers_.WellFormed) (hnull : w.controllers_.NullFree)
    (hr : r = .ABORTED ∨ r = .ASSOCIATION_FAILED ∨ r = .UNRECOVERABLE_ERROR) :
    ∃ w1 c, TypeStartCallback r w = .ok w1 ∧ w1.state_ = .STOPPED ∧
      w1.trace.map Prod.fst =
        w.trace.map Prod.fst ++ w.running.map Effect.Stop ++ [.NotifyDone c] ∧
      (r = .ABORTED → c = .ABORTED) ∧
      (r = .ASSOCIATION_FAILED → c = .ASSOCIATION_FAILED) ∧
      (r = .UNRECOVERABLE_ERROR → c = .UNRECOVERABLE_ERROR) ∧
      (∀ dtc, dtc ∈ w.running ↔
        ((∃ k, (k, some dtc) ∈ w.controllers_) ∧ w.dtc_state dtc.type = .RUNNING)) ∧
      (∀ k dtc, (k, some dtc) ∈ w.controllers_ → w1.dtc_state dtc.type ≠ .RUNNING) ∧
      w1.needs_start_ = tail ∧ w1.current_dtc_ = none := by
  have hres : ∃ c, TypeStartCallback.configure_result r = some c ∧
      (r = .ABORTED → c = .ABORTED) ∧
      (r = .ASSOCIATION_FAILED → c = .ASSOCIATION_FAILED) ∧
      (r = .UNRECOVERABLE_ERROR → c = .UNRECOVERABLE_ERROR) := by
    rcases hr with e | e | e <;> subst e <;>
      exact ⟨_, rfl, by simp, by simp, by simp⟩
  obtain ⟨c, hcr, m1, m2, m3⟩ := hres
  obtain ⟨w1, h1, h2, h3, h4, h5, h6, _⟩ :=
    TypeStartCallback_teardown (r := r) hc hn hwf hnull (Or.inr ⟨hs, hcr⟩)
  refine ⟨w1, c, h1, h2, h5, m1, m2, m3, ?_, h6, h3, h4⟩
  intro dtc
  rw [mem_running_iff, mem_controllers_iff]

/-- C13: Stop() called while the state is CONFIGURING (the current controller is the
head of needs_start, the registry is well formed and has no null entry) sets the state
to STOPPING and calls Stop on the current controller and on no other; a controller
whose start is in progress runs the start callback inside that call.  The start
callback, delivered then with whatever result and whatever the controllers' states are
by then, returns: it records Stop on exactly the RUNNING registered controllers and one
configure-done(ABORTED), no Start and no backend request; the state is STOPPED and no
registered controller is RUNNING. -/
theorem Stop_while_configuring (w : World) (d : DataTypeController)
    (tail : List DataTypeController) (hs : w.state_ = .CONFIGURING)
    (hc : w.current_dtc_ = some d) (hn : w.needs_start_ = d :: tail)
    (hwf : w.controllers_.WellFormed) (hnull : w.controllers_.NullFree) :
    ∃ w2, w2 = (DataTypeController.Stop d { w with state_ := .STOPPING }).1 ∧
      w2.state_ = .STOPPING ∧
      w2.trace.map Prod.fst = w.trace.map Prod.fst ++ [.Stop d] ∧
      Stop w =
        (if w.dtc_state d.type = .MODEL_STARTING ∨ w.dtc_state d.type = .ASSOCIATING then
          TypeStartCallback .ABORTED (w2.emit (.CallTypeStartCallback .ABORTED))
        else .ok w2) ∧
      ∀ (r : DataTypeController.StartResult) (s : ModelType → DataTypeController.State),
        ∃ w3, TypeStartCallback r
            (World.emit (.CallTypeStartCallback r) { w2 with dtc_state := s }) = .ok w3 ∧
          w3.state_ = .STOPPED ∧ w3.needs_start_ = tail ∧
          w3.trace.map Prod.fst =
            w.trace.map Prod.fst ++ [.Stop d, .CallTypeStartCallback r] ++
              (World.running { w2 with dtc_state := s }).map Effect.Stop ++
              [.NotifyDone .ABORTED] ∧
          (∀ k dtc, (k, some dtc) ∈ w.controllers_ → w3.dtc_state dtc.type ≠ .RUNNING) := by
  refine ⟨_, rfl, ?_, ?_, ?_, ?_⟩
  · rw [state_Stop]
  · rw [Stop_fst]
    simp [World.emit]
  · unfold Stop
    rw [if_neg (by rw [hs]; simp), if_pos hs]
    simp only [hc]
    rw [callStop_eq]
  · intro r s
    have hw2 : (DataTypeController.Stop d { w with state_ := .STOPPING }).1 =
        { World.emit (.Stop d) { w with state_ := .STOPPING } with
          dtc_state := Function.update w.dtc_state d.type .NOT_RUNNING } := Stop_fst _ _
    rw [hw2]
    obtain ⟨w3, h1, h2, h3, _, h5, h6, _⟩ := @TypeStartCallback_teardown
      (World.emit (.CallTypeStartCallback r)
        { World.emit (.Stop d) { w with state_ := .STOPPING } with dtc_state := s })
      r d tail .ABORTED hc hn hwf hnull (Or.inl ⟨rfl, rfl⟩)
    refine ⟨w3, h1, h2, h3, ?_, h6⟩
    rw [h5]
    simp [World.emit, World.running]

theorem FinishStop_loop_stops {m : TypeMap} {w w1 : World}
    (h : FinishStop.loop m w = .ok w1) :
    ∃ new, w1.trace = w.trace ++ new ∧
      ∀ e ∈ new, ∃ d, e.1 = .Stop d ∧ w.dtc_state d.type = .RUNNING := by
  induction m generalizing w with
  | nil =>
    simp only [FinishStop.loop, Except.ok.injEq] at h
    subst h
    exact ⟨[], by simp, by simp⟩
  | cons e rest ih =>
    obtain ⟨k, p⟩ := e
    cases p with
    | none => simp [FinishStop.loop] at h
    | some dtc =>
      simp only [FinishStop.loop] at h
      split at h
      · rename_i hr
        obtain ⟨new, h1, h2⟩ := ih h
        rw [Stop_fst] at h1 h2
        refine ⟨(.Stop dtc, w.toMachine) :: new, ?_, ?_⟩
        · rw [h1]
          simp [World.emit]
        · intro x hx
          rcases List.mem_cons.mp hx with rfl | hx
          · exact ⟨dtc, rfl, hr⟩
          · obtain ⟨d, hd1, hd2⟩ := h2 x hx
            refine ⟨d, hd1, ?_⟩
            by_cases hne : d.type = dtc.type
            · simp [World.emit, Function.update, hne] at hd2
            · simpa [World.emit, Function.update, hne] using hd2
      · exact ih h

/-- The calls `PauseSyncer` records: the registration and the request, and, only when
the request is rejected, the teardown, whose Stop calls are on controllers that were
running. -/
theorem PauseSyncer_trace {w w1 : World} (h : PauseSyncer w = .ok w1) :
    ∃ rest, w1.trace.map Prod.fst = w.trace.map Prod.fst ++
        [.AddObserver .SYNC_PAUSED, .RequestPause w.backend_accepting] ++ rest ∧
      (w.backend_accepting = true → rest = [] ∧ w1.state_ = w.state_) ∧
      ∀ d, Effect.Stop d ∈ rest → w.dtc_state d.type = .RUNNING := by
  unfold PauseSyncer at h
  by_cases ha : w.backend_accepting = true
  · simp only [SyncBackendHost.RequestPause, AddObserver, World.emit, ha, if_true,
      Except.ok.injEq] at h
    subst h
    exact ⟨[], by simp [ha], fun _ => ⟨rfl, rfl⟩, by simp⟩
  · have ha1 : w.backend_accepting = false := by simpa using ha
    simp only [SyncBackendHost.RequestPause, AddObserver, World.emit, ha1,
      Bool.false_eq_true, if_false, bind, Except.bind, pure, Except.pure] at h
    split at h
    · cases h
    · rename_i w3 hw3
      simp only [Except.ok.injEq] at h
      subst h
      simp only [FinishStop, DCHECK, bind, Except.bind, pure, Except.pure] at hw3
      split at hw3
      · cases hw3
      · split at hw3
        · cases hw3
        · rename_i w4 hw4
          simp only [Except.ok.injEq] at hw3
          subst hw3
          obtain ⟨new, h1, h2⟩ := FinishStop_loop_stops hw4
          refine ⟨.RemoveObserver .SYNC_PAUSED :: (new.map Prod.fst ++
            [.NotifyDone .UNRECOVERABLE_ERROR]), ?_, ?_, ?_⟩
          · simp [NotifyDone, World.emit, h1, RemoveObserver, ha1]
          · intro hacc
            exact absurd hacc ha
          · intro d hd
            simp only [List.mem_cons, List.mem_append, List.mem_map, List.mem_singleton,
              List.not_mem_nil, or_false] at hd
            rcases hd with hd | hd | hd
            · cases hd
            · obtain ⟨x, hx, hxe⟩ := hd
              obtain ⟨d1, e1, e2⟩ := h2 x hx
              rw [hxe] at e1
              simp only [Effect.Stop.injEq] at e1
              subst e1
              simpa [RemoveObserver, World.emit] using e2
            · cases hd

theorem Restart_loop_trace {l : List DataTypeController} {w w1 : World}
    (hc : w.current_dtc_ = none) (h : Restart.loop l w = .ok w1) :
    w1.trace.map Prod.fst = w.trace.map Prod.fst ++ l.map Effect.Stop ∧
    w1.backend_accepting = w.backend_accepting := by
  induction l generalizing w with
  | nil =>
    simp only [Restart.loop, Except.ok.injEq] at h
    subst h
    simp
  | cons d rest ih =>
    simp only [Restart.loop, bind, Except.bind] at h
    split at h
    · cases h
    · rename_i w2 hw2
      have e := callStop_no_current hc hw2
      obtain ⟨a1, a2⟩ := ih (by rw [e]; exact hc) h
      subst e
      refine ⟨?_, a2⟩
      rw [a1]
      simp [World.emit]

theorem Restart_loop_ok (l : List DataTypeController) (w : World)
    (hl : ∀ d ∈ l, ¬ (w.dtc_state d.type = .MODEL_STARTING ∨
      w.dtc_state d.type = .ASSOCIATING)) :
    ∃ w1, Restart.loop l w = .ok w1 := by
  induction l generalizing w with
  | nil => exact ⟨w, rfl⟩
  | cons d rest ih =>
    have hd := hl d (List.mem_cons_self _ _)
    simp only [Restart.loop, bind, Except.bind, callStop_eq, if_neg hd]
    apply ih
    intro x hx
    rw [Stop_fst]
    have hx1 := hl x (List.mem_cons_of_mem _ hx)
    by_cases hne : x.type = d.type
    · simp [World.emit, Function.update, hne]
    · simpa [World.emit, Function.update, hne] using hx1

theorem PauseSyncer_ok (w : World) (hs : w.state_ = .PAUSE_PENDING)
    (hok : w.backend_accepting = true ∨
      (w.controllers_.WellFormed ∧ w.controllers_.NullFree)) :
    ∃ w1, PauseSyncer w = .ok w1 := by
  by_cases ha : w.backend_accepting = true
  · have hacc : (SyncBackendHost.RequestPause (AddObserver .SYNC_PAUSED w)).1 = true := by
      simp [SyncBackendHost.RequestPause, AddObserver, World.emit, ha]
    exact ⟨(SyncBackendHost.RequestPause (AddObserver .SYNC_PAUSED w)).2, by
      simp only [PauseSyncer, hacc, if_true]⟩
  · have ha1 : w.backend_accepting = false := by simpa using ha
    rcases hok with hacc | ⟨hwf, hnull⟩
    · exact absurd hacc ha
    · obtain ⟨w5, f1, _⟩ := FinishStop_fields
        (RemoveObserver .SYNC_PAUSED
          (SyncBackendHost.RequestPause (AddObserver .SYNC_PAUSED w)).2)
        (by
          right; right; left
          simp [RemoveObserver, SyncBackendHost.RequestPause, AddObserver, World.emit,
            ha1, hs])
        (by
          simpa [RemoveObserver, SyncBackendHost.RequestPause, AddObserver, World.emit,
            ha1] using hwf)
        (by
          simpa [RemoveObserver, SyncBackendHost.RequestPause, AddObserver, World.emit,
            ha1] using hnull)
      refine ⟨NotifyDone .UNRECOVERABLE_ERROR w5, ?_⟩
      have hrej : (SyncBackendHost.RequestPause (AddObserver .SYNC_PAUSED w)).1 = false := by
        simp [SyncBackendHost.RequestPause, AddObserver, World.emit, ha1]
      simp only [PauseSyncer, hrej, Bool.false_eq_true, if_false, f1,
        bind, Except.bind, pure, Except.pure]

/-- The part of `Restart` after the configure-started notification: the stop loop over
needs_stop, then the pause request. -/
theorem Restart_tail (w2 : World) (hc : w2.current_dtc_ = none) :
    (∀ w1, Except.bind (Restart.loop w2.needs_stop_ w2)
        (fun w3 => PauseSyncer { w3 with needs_stop_ := [], state_ := .PAUSE_PENDING })
          = .ok w1 →
      ∃ rest, w1.trace.map Prod.fst = w2.trace.map Prod.fst ++
          w2.needs_stop_.map Effect.Stop ++
          [.AddObserver .SYNC_PAUSED, .RequestPause w2.backend_accepting] ++ rest ∧
        (∀ d ∈ w2.needs_stop_, Effect.Stop d ∉ rest) ∧
        w1.needs_stop_ = [] ∧
        (∀ d ∈ w2.needs_stop_, w1.dtc_state d.type = .NOT_RUNNING) ∧
        (w2.backend_accepting = true → rest = [] ∧ w1.state_ = .PAUSE_PENDING)) ∧
    ((∀ d ∈ w2.needs_stop_, ¬ (w2.dtc_state d.type = .MODEL_STARTING ∨
        w2.dtc_state d.type = .ASSOCIATING)) →
      (w2.backend_accepting = true ∨
        (w2.controllers_.WellFormed ∧ w2.controllers_.NullFree)) →
      ∃ w1, Except.bind (Restart.loop w2.needs_stop_ w2)
        (fun w3 => PauseSyncer { w3 with needs_stop_ := [], state_ := .PAUSE_PENDING })
          = .ok w1) := by
  constructor
  · intro w1 h
    simp only [Except.bind] at h
    split at h
    · cases h
    · rename_i w3 hw3
      obtain ⟨_, _, _, _, _, a6, _⟩ := Restart_loop_no_current hc hw3
      obtain ⟨t1, t2⟩ := Restart_loop_trace hc hw3
      obtain ⟨rest, p1, p2, p3⟩ := PauseSyncer_trace h
      obtain ⟨c, _⟩ := PauseSyncer_calm h
      refine ⟨rest, ?_, ?_, c.needs_stop, ?_, ?_⟩
      · rw [p1]
        simp only [t1, t2]
      · intro d hd1 hin
        have := p3 d hin
        simp only at this
        rw [a6 d hd1] at this
        cases this
      · intro d hd1
        rcases c.dtc d.type with e | e
        · rw [e]
          exact a6 d hd1
        · exact e.2
      · intro ha
        have := p2 (by simpa [t2] using ha)
        exact ⟨this.1, this.2⟩
  · intro hl hok
    obtain ⟨w3, hw3⟩ := Restart_loop_ok w2.needs_stop_ w2 hl
    obtain ⟨_, _, _, a4, _, _, _⟩ := Restart_loop_no_current hc hw3
    obtain ⟨_, t2⟩ := Restart_loop_trace hc hw3
    obtain ⟨w1, hw1⟩ := PauseSyncer_ok
      { w3 with needs_stop_ := [], state_ := .PAUSE_PENDING } rfl
      (by
        show w3.backend_accepting = true ∨
          (w3.controllers_.WellFormed ∧ w3.controllers_.NullFree)
        rw [t2, a4]
        exact hok)
    exact ⟨w1, by simp only [Except.bind, hw3, hw1]⟩

theorem Restart_eq_tail (w : World)
    (hs : w.state_ = .STOPPED ∨ w.state_ = .CONFIGURED ∨ w.state_ = .RESTARTING) :
    Restart w = Except.bind
      (Restart.loop w.needs_stop_
        (if w.state_ = .STOPPED ∨ w.state_ = .CONFIGURED then
          NotifyStart { w with current_dtc_ := none }
          else { w with current_dtc_ := none }))
      (fun w3 => PauseSyncer { w3 with needs_stop_ := [], state_ := .PAUSE_PENDING }) := by
  have hb : ¬ (w.state_ = .DOWNLOAD_PENDING ∨ w.state_ = .PAUSE_PENDING ∨
      w.state_ = .CONFIGURING ∨ w.state_ = .RESUME_PENDING) := by
    rcases hs with e | e | e <;> rw [e] <;> simp
  have hd : decide (w.state_ = .STOPPED ∨ w.state_ = .RESTARTING ∨
      w.state_ = .CONFIGURED) = true := by
    rcases hs with e | e | e <;> rw [e] <;> simp
  unfold Restart
  rw [if_neg hb]
  simp only [DCHECK, hd, if_true, bind, Except.bind]
  by_cases hsc : w.state_ = .STOPPED ∨ w.state_ = .CONFIGURED
  · simp only [if_pos hsc]
    rfl
  · simp only [if_neg hsc]

/-- For a call of Restart() that proceeds (state STOPPED, CONFIGURED or RESTARTING on
entry) and returns in the debug build, the calls it records are: configure-started
when it entered from STOPPED or CONFIGURED, then Stop on each controller of
needs_stop, once per entry and in list order, then the registration for the paused event and the pause request, and after
that, only when the request was rejected, the teardown, in which no controller of
needs_stop is stopped again.  Afterwards needs_stop is empty, every controller of the
old needs_stop is NOT_RUNNING, and with the request accepted the state is
PAUSE_PENDING.  Restart returns whenever no controller of needs_stop has a start in
progress and the request is accepted or the registry is well formed without null
entries.  Nothing is said here of a needs_stop controller whose start is in
progress. -/
theorem Restart_stops_then_pauses (w : World)
    (hs : w.state_ = .STOPPED ∨ w.state_ = .CONFIGURED ∨ w.state_ = .RESTARTING) :
    (∀ w1, Restart w = .ok w1 →
      ∃ rest, w1.trace.map Prod.fst = w.trace.map Prod.fst ++
          (if w.state_ = .STOPPED ∨ w.state_ = .CONFIGURED then [Effect.NotifyStart]
            else []) ++
          w.needs_stop_.map Effect.Stop ++
          [.AddObserver .SYNC_PAUSED, .RequestPause w.backend_accepting] ++ rest ∧
        (∀ d ∈ w.needs_stop_, Effect.Stop d ∉ rest) ∧
        w1.needs_stop_ = [] ∧
        (∀ d ∈ w.needs_stop_, w1.dtc_state d.type = .NOT_RUNNING) ∧
        (w.backend_accepting = true → rest = [] ∧ w1.state_ = .PAUSE_PENDING)) ∧
    ((∀ d ∈ w.needs_stop_, ¬ (w.dtc_state d.type = .MODEL_STARTING ∨
        w.dtc_state d.type = .ASSOCIATING)) →
      (w.backend_accepting = true ∨
        (w.controllers_.WellFormed ∧ w.controllers_.NullFree)) →
      ∃ w1, Restart w = .ok w1) := by
  rw [Restart_eq_tail w hs]
  by_cases hsc : w.state_ = .STOPPED ∨ w.state_ = .CONFIGURED
  · simp only [if_pos hsc]
    have key := Restart_tail (NotifyStart { w with current_dtc_ := none }) rfl
    refine ⟨fun w1 h => ?_, fun hl hok => key.2 hl hok⟩
    obtain ⟨rest, k1, k2⟩ := key.1 w1 h
    refine ⟨rest, ?_, k2⟩
    rw [k1]
    simp [NotifyStart, World.emit]
  · simp only [if_neg hsc]
    have key := Restart_tail { w with current_dtc_ := none } rfl
    refine ⟨fun w1 h => ?_, fun hl hok => key.2 hl hok⟩
    obtain ⟨rest, k1, k2⟩ := key.1 w1 h
    refine ⟨rest, ?_, k2⟩
    rw [k1]
    simp

/-- C14: Configure({BOOKMARKS}), Configure({BOOKMARKS, PREFERENCES}) before the paused
event (state RESTARTING), the backend stops accepting requests, then the paused event:
the resume request made in RESTARTING is rejected, the interest in the resumed event is
unregistered, and FinishStop fails its entry check because the state is RESTARTING; the
run ends in that fault with no controller stopped, no configure-done emitted and the
state never set to STOPPED. -/
theorem rejected_resume_while_restarting :
    (run (init [syncable.BOOKMARKS, syncable.PREFERENCES])
        [.Configure (TypeSet.single syncable.BOOKMARKS),
         .Configure (TypeSet.pair syncable.BOOKMARKS syncable.PREFERENCES (by decide)),
         .BackendAccepts false]).map
      (fun w => (w.state_, w.paused_observer, w.backend_accepting,
        (FinishStop (RemoveObserver .SYNC_RESUMED
          (SyncBackendHost.RequestResume (AddObserver .SYNC_RESUMED
            (RemoveObserver .SYNC_PAUSED w))).2)).toOption.isSome)) =
      some (.RESTARTING, true, false, false) ∧
    (run (init [syncable.BOOKMARKS, syncable.PREFERENCES])
        [.Configure (TypeSet.single syncable.BOOKMARKS),
         .Configure (TypeSet.pair syncable.BOOKMARKS syncable.PREFERENCES (by decide)),
         .BackendAccepts false, .Paused]).isSome = false ∧
    runFault (init [syncable.BOOKMARKS, syncable.PREFERENCES])
        [.Configure (TypeSet.single syncable.BOOKMARKS),
         .Configure (TypeSet.pair syncable.BOOKMARKS syncable.PREFERENCES (by decide)),
         .BackendAccepts false, .Paused] = some .dcheck := by
  decide

/-- C19: Configure({BOOKMARKS}) leaves the state PAUSE_PENDING with the pause request
outstanding; Configure({}) made in that state finds both work lists empty, sets the
state to CONFIGURED and emits configure-started and configure-done(OK) during the
call.  The paused event that answers the outstanding request then fails the entry check
of Observe. -/
theorem Configure_completes_while_pause_pending :
    (run (init [syncable.BOOKMARKS])
        [.Configure (TypeSet.single syncable.BOOKMARKS)]).map
      (fun w => (w.state_, w.pending_pause,
        (Configure TypeSet.empty w).toOption.map
          (fun w1 => (w1.state_, (w1.trace.drop w.trace.length).map Prod.fst)))) =
      some (.PAUSE_PENDING, 1, some (.CONFIGURED, [.NotifyStart, .NotifyDone .OK])) ∧
    (run (init [syncable.BOOKMARKS])
        [.Configure (TypeSet.single syncable.BOOKMARKS), .Configure TypeSet.empty]).map
      (fun w => (w.state_, w.pending_pause, doneCalls w.trace)) =
      some (.CONFIGURED, 1, [(.OK, .CONFIGURED)]) ∧
    runFault (init [syncable.BOOKMARKS])
        [.Configure (TypeSet.single syncable.BOOKMARKS), .Configure TypeSet.empty,
         .Paused] = some .dcheck := by
  decide

/-- C18: Configure({BOOKMARKS}), the paused event, BOOKMARKS started with OK (state
RESUME_PENDING, interest in the resumed event registered, the resume request
unanswered), Configure({BOOKMARKS}) (nothing changed: state CONFIGURED, the interest
still registered), Configure({}) (state PAUSE_PENDING, both interests registered), then
Stop(): the state is STOPPED, the interest in the paused event is unregistered and the
interest in the resumed event is still registered.  The resumed event that answers the
unanswered request is then delivered to Observe in state STOPPED: in the debug build the
check of Observe fails, and in the release build the state becomes CONFIGURED and
configure-done(OK) is emitted after Stop() has returned. -/
theorem Stop_leaves_resumed_interest_registered :
    (run (init [syncable.BOOKMARKS])
        [.Configure (TypeSet.single syncable.BOOKMARKS), .Paused,
         .StartDone syncable.BOOKMARKS .OK,
         .Configure (TypeSet.single syncable.BOOKMARKS),
         .Configure TypeSet.empty]).map
      (fun w => (w.state_, w.paused_observer, w.resumed_observer)) =
      some (.PAUSE_PENDING, true, true) ∧
    (run (init [syncable.BOOKMARKS])
        [.Configure (TypeSet.single syncable.BOOKMARKS), .Paused,
         .StartDone syncable.BOOKMARKS .OK,
         .Configure (TypeSet.single syncable.BOOKMARKS),
         .Configure TypeSet.empty, .Stop]).map
      (fun w => (w.state_, w.paused_observer, w.resumed_observer,
        (w.trace.map Prod.fst).reverse.take 3)) =
      some (.STOPPED, false, true,
        [.RemoveObserver .SYNC_PAUSED, .CallStop, .RequestPause true]) ∧
    (run (init [syncable.BOOKMARKS])
        [.Configure (TypeSet.single syncable.BOOKMARKS), .Paused,
         .StartDone syncable.BOOKMARKS .OK,
         .Configure (TypeSet.single syncable.BOOKMARKS),
         .Configure TypeSet.empty, .Stop]).map
      (fun w => (w.pending_resume, (w.trace.map Prod.fst).count
        (.AddObserver .SYNC_RESUMED), (w.trace.map Prod.fst).count
        (.RemoveObserver .SYNC_RESUMED))) =
      some (1, 1, 0) ∧
    runFault (init [syncable.BOOKMARKS])
        [.Configure (TypeSet.single syncable.BOOKMARKS), .Paused,
         .StartDone syncable.BOOKMARKS .OK,
         .Configure (TypeSet.single syncable.BOOKMARKS),
         .Configure TypeSet.empty, .Stop, .Resumed] = some .dcheck ∧
    (Release.run (init [syncable.BOOKMARKS])
        [.Configure (TypeSet.single syncable.BOOKMARKS), .Paused,
         .StartDone syncable.BOOKMARKS .OK,
         .Configure (TypeSet.single syncable.BOOKMARKS),
         .Configure TypeSet.empty, .Stop]).map
      (fun w => (w.state_, w.paused_observer, w.resumed_observer,
        notifications w.trace)) =
      some (.STOPPED, false, true, [.NotifyStart, .NotifyStart, .NotifyDone .OK,
        .NotifyStart]) ∧
    (Release.run (init [syncable.BOOKMARKS])
        [.Configure (TypeSet.single syncable.BOOKMARKS), .Paused,
         .StartDone syncable.BOOKMARKS .OK,
         .Configure (TypeSet.single syncable.BOOKMARKS),
         .Configure TypeSet.empty, .Stop, .Resumed]).map
      (fun w => (w.state_, notifications w.trace)) =
      some (.CONFIGURED, [.NotifyStart, .NotifyStart, .NotifyDone .OK,
        .NotifyStart, .NotifyDone .OK]) :=
  ⟨by decide, by decide, by decide, by decide, by decide, by decide⟩

theorem start_loop_snd_of_keys (st : ModelType → DataTypeController.State)
    (ts : List ModelType) {m : TypeMap} (hm : (m.map Prod.fst).Sorted (· < ·))
    (hk : ∀ t ∈ ts, t ∈ m.map Prod.fst) :
    (Configure.start_loop st ts m).2 = m := by
  induction ts with
  | nil => rfl
  | cons t ts ih =>
    have e := touch_of_mem hm (hk t (List.mem_cons_self _ _))
    have h := ih (fun x hx => hk x (List.mem_cons_of_mem _ hx))
    simp only [Configure.start_loop, e]
    split
    · split
      · exact h
      · exact h
    · exact h

theorem stop_loop_ok (st : ModelType → DataTypeController.State) (D : List ModelType)
    {m : TypeMap} (hn : m.NullFree) : ∃ l, Configure.stop_loop st D m = .ok l := by
  induction m with
  | nil => exact ⟨[], rfl⟩
  | cons e rest ih =>
    obtain ⟨k, p⟩ := e
    cases p with
    | none => exact absurd rfl (hn (k, none) (List.mem_cons_self _ _))
    | some dtc =>
      obtain ⟨l, hl⟩ := ih (fun x hx => hn x (List.mem_cons_of_mem _ hx))
      simp only [Configure.stop_loop, hl, bind, Except.bind, pure, Except.pure]
      by_cases c : dtc.type ∉ D ∧ (st dtc.type = .MODEL_STARTING ∨
          st dtc.type = .ASSOCIATING ∨ st dtc.type = .RUNNING)
      · exact ⟨dtc :: l, by rw [if_pos c]⟩
      · exact ⟨l, by rw [if_neg c]⟩

theorem work_lists_ok (desired_types : TypeSet) (w : World)
    (hwf : w.controllers_.WellFormed) (hn : w.controllers_.NullFree)
    (hreg : ∀ t ∈ desired_types.elems, t ∈ w.controllers_.map Prod.fst) :
    ∃ w2, Configure.work_lists desired_types w = .ok w2 := by
  have e := start_loop_snd_of_keys w.dtc_state desired_types.elems hwf.1 hreg
  obtain ⟨l, hl⟩ := stop_loop_ok w.dtc_state desired_types.elems hn
  refine ⟨{ w with
    needs_start_ := sort (Configure.start_loop w.dtc_state desired_types.elems
      w.controllers_).1,
    controllers_ := (Configure.start_loop w.dtc_state desired_types.elems
      w.controllers_).2,
    needs_stop_ := sort l }, ?_⟩
  simp only [Configure.work_lists, e, hl]

/-- C15: in PAUSE_PENDING, CONFIGURING or RESUME_PENDING, when the two work lists that
Configure(desired) computes are not both empty, the call returns the world with those
work lists and the state set to RESTARTING and nothing else changed: no call is
recorded (no Start, no Stop, no backend request, no notification), and the current
controller, the controller states, the event registrations and the backend are as they
were.  The work lists are computed (no fault) whenever the registry is well formed
without null entries and every desired identity is registered. -/
theorem Configure_defers_restart (desired_types : TypeSet) (w : World)
    (hs : w.state_ = .PAUSE_PENDING ∨ w.state_ = .CONFIGURING ∨
      w.state_ = .RESUME_PENDING) :
    (∀ w2, Configure.work_lists desired_types w = .ok w2 →
      ¬ (w2.needs_start_.length = 0 ∧ w2.needs_stop_.length = 0) →
      Configure desired_types w = .ok { w2 with state_ := .RESTARTING } ∧
      w2.trace = w.trace ∧ w2.current_dtc_ = w.current_dtc_ ∧
      w2.dtc_state = w.dtc_state ∧
      w2.paused_observer = w.paused_observer ∧
      w2.resumed_observer = w.resumed_observer ∧
      w2.backend_accepting = w.backend_accepting ∧
      w2.pending_pause = w.pending_pause ∧ w2.pending_resume = w.pending_resume) ∧
    (w.controllers_.WellFormed → w.controllers_.NullFree →
      (∀ t ∈ desired_types.elems, t ∈ w.controllers_.map Prod.fst) →
      ∃ w2, Configure.work_lists desired_types w = .ok w2) := by
  refine ⟨fun w2 hw hne => ?_, fun hwf hn hreg => work_lists_ok desired_types w hwf hn hreg⟩
  obtain ⟨f1, f2, f3, f4, f5, f6, f7, f8, f9⟩ := work_lists_frame hw
  refine ⟨?_, f4, f2, f3, f5, f6, f7, f8, f9⟩
  have hns : ¬ w.state_ = .STOPPING := by
    rcases hs with e | e | e <;> rw [e] <;> simp
  have hp : w2.state_ = .DOWNLOAD_PENDING ∨ w2.state_ = .PAUSE_PENDING ∨
      w2.state_ = .CONFIGURING ∨ w2.state_ = .RESUME_PENDING := by
    rw [f1]
    rcases hs with e | e | e
    · exact Or.inr (Or.inl e)
    · exact Or.inr (Or.inr (Or.inl e))
    · exact Or.inr (Or.inr (Or.inr e))
  unfold Configure
  rw [if_neg hns]
  simp only [hw]
  rw [if_neg hne]
  unfold Restart
  rw [if_pos hp]

theorem work_lists_registry {types : List ModelType} (h : types.Sorted (· < ·))
    (desired_types : TypeSet) (hreg : ∀ t ∈ desired_types.elems, t ∈ types) {w : World}
    (hc : w.controllers_ = registry types)
    (hst : ∀ t ∈ types, w.dtc_state t = .NOT_RUNNING) :
    Configure.work_lists desired_types w =
      .ok { w with
            needs_start_ := sort (desired_types.elems.map DataTypeController.mk)
            needs_stop_ := [] } := by
  simp only [Configure.work_lists, hc,
    start_loop_registry h desired_types.elems hreg (fun t ht => hst t (hreg t ht)),
    stop_loop_registry desired_types.elems hst]
  rw [← hc]
  rfl

theorem step_Configure_first {types : List ModelType} (h : types.Sorted (· < ·))
    (desired_types : TypeSet) (hne : desired_types.elems ≠ [])
    (hreg : ∀ t ∈ desired_types.elems, t ∈ types) {w : World}
    (hs : w.state_ = .STOPPED) (hc : w.controllers_ = registry types)
    (hst : ∀ t ∈ types, w.dtc_state t = .NOT_RUNNING) (ha : w.backend_accepting = true) :
    ∃ w1, step w (.Configure desired_types) = .ok w1 ∧ w1.state_ = .PAUSE_PENDING ∧
      w1.controllers_ = registry types ∧
      w1.paused_observer = true ∧ w1.pending_pause = w.pending_pause + 1 ∧
      w1.pending_resume = w.pending_resume ∧
      w1.backend_accepting = true ∧ w1.dtc_state = w.dtc_state ∧
      w1.trace.map Prod.fst = w.trace.map Prod.fst ++
        [.CallConfigure desired_types.elems, .NotifyStart, .AddObserver .SYNC_PAUSED,
         .RequestPause true] := by
  have hl : sort (desired_types.elems.map DataTypeController.mk) ≠ [] := by
    intro e
    exact hne (List.map_eq_nil_iff.mp (sort_eq_nil.mp e))
  have hw := work_lists_registry h desired_types hreg
    (w := w.emit (.CallConfigure desired_types.elems)) hc hst
  simp only [step, Configure, hw]
  simp only [World.emit, hs, List.length_eq_zero, hl, false_and, if_false, Restart, DCHECK,
    NotifyStart, Restart.loop, PauseSyncer, AddObserver, SyncBackendHost.RequestPause, ha,
    bind, Except.bind, pure, Except.pure]
  simp [hc]

theorem step_Configure_pending {types : List ModelType} (h : types.Sorted (· < ·))
    (desired_types : TypeSet) (hne : desired_types.elems ≠ [])
    (hreg : ∀ t ∈ desired_types.elems, t ∈ types) {w : World}
    (hs : w.state_ = .PAUSE_PENDING) (hc : w.controllers_ = registry types)
    (hst : ∀ t ∈ types, w.dtc_state t = .NOT_RUNNING) :
    ∃ w1, step w (.Configure desired_types) = .ok w1 ∧ w1.state_ = .RESTARTING ∧
      w1.needs_start_ = sort (desired_types.elems.map DataTypeController.mk) ∧
      w1.needs_stop_ = [] ∧ w1.controllers_ = registry types ∧
      w1.paused_observer = w.paused_observer ∧ w1.pending_pause = w.pending_pause ∧
      w1.pending_resume = w.pending_resume ∧
      w1.backend_accepting = w.backend_accepting ∧ w1.dtc_state = w.dtc_state ∧
      w1.trace.map Prod.fst = w.trace.map Prod.fst ++
        [.CallConfigure desired_types.elems] := by
  have hl : sort (desired_types.elems.map DataTypeController.mk) ≠ [] := by
    intro e
    exact hne (List.map_eq_nil_iff.mp (sort_eq_nil.mp e))
  have hw := work_lists_registry h desired_types hreg
    (w := w.emit (.CallConfigure desired_types.elems)) hc hst
  simp only [step, Configure, hw]
  simp only [World.emit, hs, List.length_eq_zero, hl, false_and, if_false, Restart]
  simp [hc]

theorem step_Paused_restarting {w : World} (hs : w.state_ = .RESTARTING)
    (ho : w.paused_observer = true) (ha : w.backend_accepting = true) :
    ∃ w1, step w .Paused = .ok w1 ∧ w1.state_ = .RESTARTING ∧
      w1.needs_start_ = w.needs_start_ ∧ w1.needs_stop_ = w.needs_stop_ ∧
      w1.controllers_ = w.controllers_ ∧ w1.resumed_observer = true ∧
      w1.pending_resume = w.pending_resume + 1 ∧
      w1.backend_accepting = true ∧ w1.dtc_state = w.dtc_state ∧
      w1.trace.map Prod.fst = w.trace.map Prod.fst ++
        [.CallObserve .SYNC_PAUSED, .RemoveObserver .SYNC_PAUSED,
         .AddObserver .SYNC_RESUMED, .RequestResume true] := by
  simp only [step, ho, if_true, Observe, DCHECK, World.emit, hs, RemoveObserver,
    ResumeSyncer, AddObserver, SyncBackendHost.RequestResume, ha,
    bind, Except.bind, pure, Except.pure]
  simp [ha]

theorem step_Resumed_restarting {w : World} (hs : w.state_ = .RESTARTING)
    (ho : w.resumed_observer = true) (hn : w.needs_stop_ = [])
    (ha : w.backend_accepting = true) :
    ∃ w1, step w .Resumed = .ok w1 ∧ w1.state_ = .PAUSE_PENDING ∧
      w1.needs_start_ = w.needs_start_ ∧ w1.paused_observer = true ∧
      w1.pending_pause = w.pending_pause + 1 ∧
      w1.backend_accepting = true ∧ w1.dtc_state = w.dtc_state ∧
      w1.trace.map Prod.fst = w.trace.map Prod.fst ++
        [.CallObserve .SYNC_RESUMED, .RemoveObserver .SYNC_RESUMED,
         .AddObserver .SYNC_PAUSED, .RequestPause true] := by
  simp only [step, ho, if_true, Observe, DCHECK, World.emit, hs, RemoveObserver,
    Restart, hn, Restart.loop, PauseSyncer, AddObserver, SyncBackendHost.RequestPause, ha,
    bind, Except.bind, pure, Except.pure]
  simp [ha]

theorem run_append {w w1 : World} {es : List Event} (h : run w es = some w1)
    (es2 : List Event) : run w (es ++ es2) = run w1 es2 := by
  induction es generalizing w with
  | nil =>
    simp only [run, Option.some.injEq] at h
    subst h
    rfl
  | cons e es ih =>
    simp only [run, List.cons_append] at h ⊢
    by_cases hen : enabled w e = true
    · simp only [hen, if_true] at h ⊢
      cases hstep : step w e with
      | error f => simp [hstep] at h
      | ok w2 =>
        simp only [hstep] at h ⊢
        exact ih h
    · simp [hen] at h

theorem count_start_completions (result : ModelType → DataTypeController.StartResult)
    (l : List DataTypeController) (e : Effect)
    (h1 : ∀ x, e ≠ .Start x) (h2 : ∀ r, e ≠ .CallTypeStartCallback r) :
    (l.flatMap (fun x => [Effect.Start x,
      Effect.CallTypeStartCallback (result x.type)])).count e = 0 := by
  rw [List.count_eq_zero]
  intro hmem
  rw [List.mem_flatMap] at hmem
  obtain ⟨x, _, hx⟩ := hmem
  simp only [List.mem_cons, List.mem_singleton, List.not_mem_nil, or_false] at hx
  rcases hx with hx | hx
  · exact h1 x hx
  · exact h2 _ hx

/-- C16: from state STOPPED with every registered controller NOT_RUNNING and a backend
that accepts requests, for all non-empty sets D1 and D2 of registered identities (the
claim has D1 = {A} and D2 = {A, B}): Configure(D1) and, before the paused event,
Configure(D2) leave the state RESTARTING with one pause request recorded; the paused
event then records one resume request and no Start and leaves the state RESTARTING; the
resumed event records a second pause request and no configure-started and leaves the
state PAUSE_PENDING; after the next paused event the controllers of D2 are started in
the order of the sorted list (non-decreasing rank), each completion before the next
Start; after the final resumed event the state is CONFIGURED, exactly the controllers
of D2 are RUNNING, and over the whole sequence configure-started was recorded once and
configure-done once, with OK. -/
theorem Configure_again_before_paused (types : List ModelType)
    (htypes : types.Sorted (· < ·)) (D1 D2 : TypeSet)
    (hne1 : D1.elems ≠ []) (hne2 : D2.elems ≠ [])
    (hreg1 : ∀ t ∈ D1.elems, t ∈ types) (hreg2 : ∀ t ∈ D2.elems, t ∈ types)
    (result : ModelType → DataTypeController.StartResult)
    (hres : ∀ t, result t = .OK ∨ result t = .OK_FIRST_RUN)
    (w : World) (hs : w.state_ = .STOPPED) (hc : w.controllers_ = registry types)
    (hst : ∀ t ∈ types, w.dtc_state t = .NOT_RUNNING) (ha : w.backend_accepting = true) :
    ∃ w2 w3 w4 w6,
      run w [Event.Configure D1, Event.Configure D2] = some w2 ∧
      w2.state_ = .RESTARTING ∧
      w2.trace.map Prod.fst = w.trace.map Prod.fst ++
        [.CallConfigure D1.elems, .NotifyStart, .AddObserver .SYNC_PAUSED,
         .RequestPause true, .CallConfigure D2.elems] ∧
      run w2 [Event.Paused] = some w3 ∧ w3.state_ = .RESTARTING ∧
      w3.trace.map Prod.fst = w2.trace.map Prod.fst ++
        [.CallObserve .SYNC_PAUSED, .RemoveObserver .SYNC_PAUSED,
         .AddObserver .SYNC_RESUMED, .RequestResume true] ∧
      run w3 [Event.Resumed] = some w4 ∧ w4.state_ = .PAUSE_PENDING ∧
      w4.trace.map Prod.fst = w3.trace.map Prod.fst ++
        [.CallObserve .SYNC_RESUMED, .RemoveObserver .SYNC_RESUMED,
         .AddObserver .SYNC_PAUSED, .RequestPause true] ∧
      run w4 ([Event.Paused] ++
          (sort (D2.elems.map DataTypeController.mk)).map
            (fun x => Event.StartDone x.type (result x.type)) ++ [Event.Resumed]) =
        some w6 ∧
      w6.state_ = .CONFIGURED ∧
      w6.trace.map Prod.fst = w4.trace.map Prod.fst ++
        ([.CallObserve .SYNC_PAUSED, .RemoveObserver .SYNC_PAUSED] ++
         (sort (D2.elems.map DataTypeController.mk)).flatMap
           (fun x => [Effect.Start x, Effect.CallTypeStartCallback (result x.type)]) ++
         [.AddObserver .SYNC_RESUMED, .RequestResume true, .CallObserve .SYNC_RESUMED,
          .RemoveObserver .SYNC_RESUMED, .NotifyDone .OK]) ∧
      run w ([Event.Configure D1, Event.Configure D2, Event.Paused, Event.Resumed,
          Event.Paused] ++
          (sort (D2.elems.map DataTypeController.mk)).map
            (fun x => Event.StartDone x.type (result x.type)) ++ [Event.Resumed]) =
        some w6 ∧
      (sort (D2.elems.map DataTypeController.mk)).Sorted
        (fun lhs rhs => order lhs.type ≤ order rhs.type) ∧
      (sort (D2.elems.map DataTypeController.mk)).Nodup ∧
      (∀ dtc, dtc ∈ sort (D2.elems.map DataTypeController.mk) ↔ dtc.type ∈ D2.elems) ∧
      (∀ t ∈ types, w6.dtc_state t = .RUNNING ↔ t ∈ D2.elems) ∧
      (w6.trace.map Prod.fst).count .NotifyStart =
        (w.trace.map Prod.fst).count .NotifyStart + 1 ∧
      (∀ r, (w6.trace.map Prod.fst).count (.NotifyDone r) =
        (w.trace.map Prod.fst).count (.NotifyDone r) + if r = .OK then 1 else 0) := by
  have hmem : ∀ dtc, dtc ∈ sort (D2.elems.map DataTypeController.mk) ↔
      dtc.type ∈ D2.elems := by
    intro dtc
    rw [mem_sort, List.mem_map]
    constructor
    · rintro ⟨t, ht, rfl⟩
      exact ht
    · intro h
      exact ⟨dtc.type, h, rfl⟩
  have hnd : (sort (D2.elems.map DataTypeController.mk)).Nodup := by
    rw [nodup_sort]
    refine List.Nodup.map ?_ D2.sorted.nodup
    intro a b e
    cases e
    rfl
  obtain ⟨w1, h1, s1, c1, o1, p1, r1, a1, d1, t1⟩ :=
    step_Configure_first htypes D1 hne1 hreg1 hs hc hst ha
  have hst1 : ∀ t ∈ types, w1.dtc_state t = .NOT_RUNNING := by
    intro t ht
    rw [d1]
    exact hst t ht
  obtain ⟨w2, h2, s2, n2, ns2, c2, o2, p2, r2, a2, d2, t2⟩ :=
    step_Configure_pending htypes D2 hne2 hreg2 s1 c1 hst1
  obtain ⟨w3, h3, s3, n3, ns3, c3, o3, r3, a3, d3, t3⟩ :=
    step_Paused_restarting s2 (o2.trans o1) (a2.trans a1)
  obtain ⟨w4, h4, s4, n4, o4, p4, a4, d4, t4⟩ :=
    step_Resumed_restarting s3 o3 (ns3.trans ns2) a3
  have hst4 : ∀ t ∈ types, w4.dtc_state t = .NOT_RUNNING := by
    intro t ht
    rw [d4, d3, d2]
    exact hst1 t ht
  have en1 : enabled w (.Configure D1) = true := rfl
  have en2 : enabled w1 (.Configure D2) = true := rfl
  have en3 : enabled w2 .Paused = true := by
    simp [enabled, p2, p1]
  have en4 : enabled w3 .Resumed = true := by
    simp [enabled, r3]
  have run2 : run w [Event.Configure D1, Event.Configure D2] = some w2 := by
    rw [run_cons_ok _ en1 h1, run_cons_ok _ en2 h2]
    rfl
  have run3 : run w2 [Event.Paused] = some w3 := by
    rw [run_cons_ok _ en3 h3]
    rfl
  have run4 : run w3 [Event.Resumed] = some w4 := by
    rw [run_cons_ok _ en4 h4]
    rfl
  cases hl : sort (D2.elems.map DataTypeController.mk) with
  | nil =>
    exact absurd (List.map_eq_nil_iff.mp (sort_eq_nil.mp hl)) hne2
  | cons d rest =>
    rw [hl] at hmem hnd
    have n4' : w4.needs_start_ = d :: rest := by
      rw [n4, n3, n2, hl]
    have hd : d.type ∈ D2.elems := (hmem d).mp (List.mem_cons_self _ _)
    have hd4 : w4.dtc_state d.type = .NOT_RUNNING := hst4 _ (hreg2 _ hd)
    obtain ⟨w5, h5, s5, n5, c5, a5, d5, t5⟩ := step_Paused_start s4 n4' o4 hd4
    have hrest : ∀ x ∈ rest, w5.dtc_state x.type = .NOT_RUNNING := by
      intro x hx
      have hxd : x ≠ d := by
        intro e
        subst e
        exact (List.nodup_cons.mp hnd).1 hx
      rw [d5]
      simp only [Function.update, type_ne_of_ne hxd, dite_false]
      exact hst4 _ (hreg2 _ ((hmem x).mp (List.mem_cons_of_mem _ hx)))
    obtain ⟨w6, h6, s6, n6, d6, t6⟩ := run_start_completions result hres rest d w5 s5 n5 c5
      (by rw [d5]; simp) hrest hnd (a5.trans a4)
    have en5 : enabled w4 .Paused = true := by
      simp [enabled, p4]
    have run6 : run w4 ([Event.Paused] ++
        (d :: rest).map (fun x => Event.StartDone x.type (result x.type)) ++
        [Event.Resumed]) = some w6 := by
      rw [List.append_assoc, List.cons_append, List.nil_append, run_cons_ok _ en5 h5]
      exact h6
    have tr6 : w6.trace.map Prod.fst = w4.trace.map Prod.fst ++
        ([.CallObserve .SYNC_PAUSED, .RemoveObserver .SYNC_PAUSED] ++
         (d :: rest).flatMap
           (fun x => [Effect.Start x, Effect.CallTypeStartCallback (result x.type)]) ++
         [.AddObserver .SYNC_RESUMED, .RequestResume true, .CallObserve .SYNC_RESUMED,
          .RemoveObserver .SYNC_RESUMED, .NotifyDone .OK]) := by
      rw [t6, t5]
      simp
    refine ⟨w2, w3, w4, w6, run2, s2, ?_, run3, s3, t3, run4, s4, t4, run6, s6, tr6, ?_, ?_,
      hnd, hmem, ?_, ?_, ?_⟩
    · rw [t2, t1]
      simp
    · have e : [Event.Configure D1, Event.Configure D2, Event.Paused, Event.Resumed,
          Event.Paused] ++
          (d :: rest).map (fun x => Event.StartDone x.type (result x.type)) ++
          [Event.Resumed] =
          [Event.Configure D1, Event.Configure D2] ++ ([Event.Paused] ++ ([Event.Resumed] ++
            ([Event.Paused] ++
              (d :: rest).map (fun x => Event.StartDone x.type (result x.type)) ++
              [Event.Resumed]))) := by
        simp
      rw [e, run_append run2, run_append run3, run_append run4]
      exact run6
    · rw [← hl]
      exact sorted_sort _
    · intro t ht
      rw [d6, d5]
      by_cases hin : (⟨t⟩ : DataTypeController) ∈ d :: rest
      · rw [if_pos hin]
        simpa using (hmem ⟨t⟩).mp hin
      · rw [if_neg hin]
        have hnot : t ∉ D2.elems := fun h => hin ((hmem ⟨t⟩).mpr h)
        have htd : t ≠ d.type := by
          intro e
          apply hin
          subst e
          exact List.mem_cons_self _ _
        simp [Function.update, htd, hst4 t ht, hnot]
    · rw [tr6, t4, t3, t2, t1]
      simp only [List.count_append,
        count_start_completions result (d :: rest) .NotifyStart (by simp) (by simp)]
      simp [List.count_cons]
    · intro r
      rw [tr6, t4, t3, t2, t1]
      simp only [List.count_append,
        count_start_completions result (d :: rest) (.NotifyDone r) (by simp) (by simp)]
      by_cases hr : r = .OK
      · subst hr
        simp [List.count_cons]
      · have hr2 : ¬ DataTypeManager.ConfigureResult.OK = r := fun e => hr e.symm
        simp [List.count_cons, hr, hr2]

theorem registry_nullFree (types : List ModelType) : (registry types).NullFree := by
  intro e he
  simp only [registry, List.mem_map] at he
  obtain ⟨t, _, rfl⟩ := he
  simp

/-- C20 at a concrete input: bookmarks, preferences and autofill registered, preferences
running, the manager STOPPING; Stop is called on preferences alone. -/
theorem FinishStop_stops_all_running_witness :
    World.running { example_world with state_ := .STOPPING } =
      [⟨syncable.PREFERENCES⟩] ∧
    ∃ w1, FinishStop { example_world with state_ := .STOPPING } = .ok w1 ∧
      w1.state_ = .STOPPED ∧
      w1.trace.map Prod.fst =
        example_world.trace.map Prod.fst ++
          (World.running { example_world with state_ := .STOPPING }).map Effect.Stop ∧
      (∀ dtc, dtc ∈ World.running { example_world with state_ := .STOPPING } ↔
        ((∃ k, (k, some dtc) ∈ example_world.controllers_) ∧
          example_world.dtc_state dtc.type = .RUNNING)) ∧
      (∀ e ∈ w1.trace.drop example_world.trace.length, ∀ dtc, e.1 = .Stop dtc →
        e.2.dtc_state dtc.type = .RUNNING) ∧
      (∀ k dtc, (k, some dtc) ∈ example_world.controllers_ →
        w1.dtc_state dtc.type ≠ .RUNNING) ∧
      (∀ t, w1.dtc_state t = example_world.dtc_state t ∨
        (example_world.dtc_state t = .RUNNING ∧ w1.dtc_state t = .NOT_RUNNING)) ∧
      w1.needs_start_ = example_world.needs_start_ ∧
      w1.needs_stop_ = example_world.needs_stop_ ∧
      w1.current_dtc_ = example_world.current_dtc_ ∧
      w1.controllers_ = example_world.controllers_ ∧
      w1.paused_observer = example_world.paused_observer ∧
      w1.resumed_observer = example_world.resumed_observer ∧
      w1.pending_pause = example_world.pending_pause ∧
      w1.pending_resume = example_world.pending_resume :=
  ⟨by decide,
   FinishStop_stops_all_running { example_world with state_ := .STOPPING } (by decide)
    (registry_wellFormed (by decide)) (registry_nullFree _)⟩

/-- C12 at a concrete input: bookmarks, preferences and autofill registered, preferences
running, the start of bookmarks (the head of needs_start) just failed with
ASSOCIATION_FAILED while autofill waits behind it. -/
theorem start_failure_tears_down_witness :
    World.running { example_world with
        state_ := .CONFIGURING
        needs_start_ := [⟨syncable.BOOKMARKS⟩, ⟨syncable.AUTOFILL⟩]
        current_dtc_ := some ⟨syncable.BOOKMARKS⟩ } = [⟨syncable.PREFERENCES⟩] ∧
    ∃ w1 c, TypeStartCallback .ASSOCIATION_FAILED
        { example_world with
          state_ := .CONFIGURING
          needs_start_ := [⟨syncable.BOOKMARKS⟩, ⟨syncable.AUTOFILL⟩]
          current_dtc_ := some ⟨syncable.BOOKMARKS⟩ } = .ok w1 ∧
      w1.state_ = .STOPPED ∧
      w1.trace.map Prod.fst =
        example_world.trace.map Prod.fst ++
          (World.running { example_world with
            state_ := .CONFIGURING
            needs_start_ := [⟨syncable.BOOKMARKS⟩, ⟨syncable.AUTOFILL⟩]
            current_dtc_ := some ⟨syncable.BOOKMARKS⟩ }).map Effect.Stop ++
          [.NotifyDone c] ∧
      (DataTypeController.StartResult.ASSOCIATION_FAILED = .ABORTED → c = .ABORTED) ∧
      (DataTypeController.StartResult.ASSOCIATION_FAILED = .ASSOCIATION_FAILED →
        c = .ASSOCIATION_FAILED) ∧
      (DataTypeController.StartResult.ASSOCIATION_FAILED = .UNRECOVERABLE_ERROR →
        c = .UNRECOVERABLE_ERROR) ∧
      (∀ dtc, dtc ∈ World.running { example_world with
            state_ := .CONFIGURING
            needs_start_ := [⟨syncable.BOOKMARKS⟩, ⟨syncable.AUTOFILL⟩]
            current_dtc_ := some ⟨syncable.BOOKMARKS⟩ } ↔
        ((∃ k, (k, some dtc) ∈ example_world.controllers_) ∧
          example_world.dtc_state dtc.type = .RUNNING)) ∧
      (∀ k dtc, (k, some dtc) ∈ example_world.controllers_ →
        w1.dtc_state dtc.type ≠ .RUNNING) ∧
      w1.needs_start_ = [⟨syncable.AUTOFILL⟩] ∧ w1.current_dtc_ = none :=
  ⟨by decide,
   start_failure_tears_down
    { example_world with
      state_ := .CONFIGURING
      needs_start_ := [⟨syncable.BOOKMARKS⟩, ⟨syncable.AUTOFILL⟩]
      current_dtc_ := some ⟨syncable.BOOKMARKS⟩ }
    .ASSOCIATION_FAILED ⟨syncable.BOOKMARKS⟩ [⟨syncable.AUTOFILL⟩] rfl rfl rfl
    (registry_wellFormed (by decide)) (registry_nullFree _) (Or.inr (Or.inl rfl))⟩

/-- C13 at a concrete input: bookmarks, preferences and autofill registered, preferences
running, the start of bookmarks in progress and autofill waiting: Stop() calls Stop on
bookmarks, whose start is in progress, so the callback runs inside the call. -/
theorem Stop_while_configuring_witness :
    (Stop example_configuring).toOption.map
        (fun w => (w.state_, w.trace.map Prod.fst)) =
      some (.STOPPED, [.Stop ⟨syncable.BOOKMARKS⟩, .CallTypeStartCallback .ABORTED,
        .Stop ⟨syncable.PREFERENCES⟩, .NotifyDone .ABORTED]) ∧
    ∃ w2, w2 = (DataTypeController.Stop ⟨syncable.BOOKMARKS⟩
        { example_configuring with state_ := .STOPPING }).1 ∧
      w2.state_ = .STOPPING ∧
      w2.trace.map Prod.fst =
        example_configuring.trace.map Prod.fst ++ [.Stop ⟨syncable.BOOKMARKS⟩] ∧
      Stop example_configuring =
        (if example_configuring.dtc_state
              (DataTypeController.mk syncable.BOOKMARKS).type = .MODEL_STARTING ∨
            example_configuring.dtc_state
              (DataTypeController.mk syncable.BOOKMARKS).type = .ASSOCIATING then
          TypeStartCallback .ABORTED (w2.emit (.CallTypeStartCallback .ABORTED))
        else .ok w2) ∧
      ∀ (r : DataTypeController.StartResult) (s : ModelType → DataTypeController.State),
        ∃ w3, TypeStartCallback r
            (World.emit (.CallTypeStartCallback r) { w2 with dtc_state := s }) = .ok w3 ∧
          w3.state_ = .STOPPED ∧ w3.needs_start_ = [⟨syncable.AUTOFILL⟩] ∧
          w3.trace.map Prod.fst =
            example_configuring.trace.map Prod.fst ++
              [.Stop ⟨syncable.BOOKMARKS⟩, .CallTypeStartCallback r] ++
              (World.running { w2 with dtc_state := s }).map Effect.Stop ++
              [.NotifyDone .ABORTED] ∧
          (∀ k dtc, (k, some dtc) ∈ example_configuring.controllers_ →
            w3.dtc_state dtc.type ≠ .RUNNING) :=
  ⟨by decide,
   Stop_while_configuring example_configuring ⟨syncable.BOOKMARKS⟩ [⟨syncable.AUTOFILL⟩]
    rfl rfl rfl (registry_wellFormed (by decide)) (registry_nullFree _)⟩

/-- Restart at the input of the scenario: bookmarks and preferences running, the
manager CONFIGURED, bookmarks in needs_stop: Stop is called on bookmarks before the
pause request. -/
theorem Restart_stops_then_pauses_witness :
    (Restart example_restart).toOption.map
        (fun w => (w.state_, w.needs_stop_, w.trace.map Prod.fst)) =
      some (.PAUSE_PENDING, [], [.NotifyStart, .Stop ⟨syncable.BOOKMARKS⟩,
        .AddObserver .SYNC_PAUSED, .RequestPause true]) ∧
    ((∀ w1, Restart example_restart = .ok w1 →
      ∃ rest, w1.trace.map Prod.fst = example_restart.trace.map Prod.fst ++
          (if example_restart.state_ = .STOPPED ∨ example_restart.state_ = .CONFIGURED
            then [Effect.NotifyStart] else []) ++
          example_restart.needs_stop_.map Effect.Stop ++
          [.AddObserver .SYNC_PAUSED, .RequestPause example_restart.backend_accepting] ++
          rest ∧
        (∀ d ∈ example_restart.needs_stop_, Effect.Stop d ∉ rest) ∧
        w1.needs_stop_ = [] ∧
        (∀ d ∈ example_restart.needs_stop_, w1.dtc_state d.type = .NOT_RUNNING) ∧
        (example_restart.backend_accepting = true →
          rest = [] ∧ w1.state_ = .PAUSE_PENDING)) ∧
    ((∀ d ∈ example_restart.needs_stop_,
        ¬ (example_restart.dtc_state d.type = .MODEL_STARTING ∨
          example_restart.dtc_state d.type = .ASSOCIATING)) →
      (example_restart.backend_accepting = true ∨
        (example_restart.controllers_.WellFormed ∧
          example_restart.controllers_.NullFree)) →
      ∃ w1, Restart example_restart = .ok w1)) :=
  ⟨by decide, Restart_stops_then_pauses example_restart (by decide)⟩

/-- C15 at a concrete input: preferences running, the start of bookmarks in progress,
the manager CONFIGURING, and Configure({BOOKMARKS}), which wants preferences stopped. -/
theorem Configure_defers_restart_witness :
    (Configure (TypeSet.single syncable.BOOKMARKS) example_configuring).toOption.map
        (fun w => (w.state_, w.needs_start_, w.needs_stop_, w.current_dtc_,
          w.trace.map Prod.fst)) =
      some (.RESTARTING, [], [⟨syncable.PREFERENCES⟩], some ⟨syncable.BOOKMARKS⟩, []) ∧
    ((∀ w2, Configure.work_lists (TypeSet.single syncable.BOOKMARKS) example_configuring =
          .ok w2 →
      ¬ (w2.needs_start_.length = 0 ∧ w2.needs_stop_.length = 0) →
      Configure (TypeSet.single syncable.BOOKMARKS) example_configuring =
        .ok { w2 with state_ := .RESTARTING } ∧
      w2.trace = example_configuring.trace ∧
      w2.current_dtc_ = example_configuring.current_dtc_ ∧
      w2.dtc_state = example_configuring.dtc_state ∧
      w2.paused_observer = example_configuring.paused_observer ∧
      w2.resumed_observer = example_configuring.resumed_observer ∧
      w2.backend_accepting = example_configuring.backend_accepting ∧
      w2.pending_pause = example_configuring.pending_pause ∧
      w2.pending_resume = example_configuring.pending_resume) ∧
    (example_configuring.controllers_.WellFormed →
      example_configuring.controllers_.NullFree →
      (∀ t ∈ (TypeSet.single syncable.BOOKMARKS).elems,
        t ∈ example_configuring.controllers_.map Prod.fst) →
      ∃ w2, Configure.work_lists (TypeSet.single syncable.BOOKMARKS) example_configuring =
        .ok w2)) :=
  ⟨by decide,
   Configure_defers_restart (TypeSet.single syncable.BOOKMARKS) example_configuring
    (by decide)⟩

/-- C17 at a concrete input: bookmarks started with OK (configure-done(OK) in
CONFIGURED), then Configure({BOOKMARKS, PREFERENCES}) and the start of preferences
fails (configure-done(ASSOCIATION_FAILED) in STOPPED). -/
theorem done_emitted_in_terminal_state_witness :
    ∃ w, run (init [syncable.BOOKMARKS, syncable.PREFERENCES])
        [.Configure (TypeSet.single syncable.BOOKMARKS), .Paused,
         .StartDone syncable.BOOKMARKS .OK, .Resumed,
         .Configure (TypeSet.pair syncable.BOOKMARKS syncable.PREFERENCES (by decide)),
         .Paused, .StartDone syncable.PREFERENCES .ASSOCIATION_FAILED] = some w ∧
      doneCalls w.trace = [(.OK, .CONFIGURED), (.ASSOCIATION_FAILED, .STOPPED)] ∧
      ∀ e ∈ w.trace, ∀ r, e.1 = .NotifyDone r →
        (r = .OK → e.2.state_ = .CONFIGURED) ∧
        (r ≠ .OK → e.2.state_ = .STOPPED) ∧
        e.2.state_ ≠ .PAUSE_PENDING ∧ e.2.state_ ≠ .CONFIGURING ∧
        e.2.state_ ≠ .RESUME_PENDING ∧ e.2.state_ ≠ .RESTARTING ∧
        e.2.state_ ≠ .STOPPING := by
  have hsome : (run (init [syncable.BOOKMARKS, syncable.PREFERENCES])
        [.Configure (TypeSet.single syncable.BOOKMARKS), .Paused,
         .StartDone syncable.BOOKMARKS .OK, .Resumed,
         .Configure (TypeSet.pair syncable.BOOKMARKS syncable.PREFERENCES (by decide)),
         .Paused, .StartDone syncable.PREFERENCES .ASSOCIATION_FAILED]).isSome = true := by
    decide
  obtain ⟨w, h⟩ := Option.isSome_iff_exists.mp hsome
  have hcalls : (run (init [syncable.BOOKMARKS, syncable.PREFERENCES])
        [.Configure (TypeSet.single syncable.BOOKMARKS), .Paused,
         .StartDone syncable.BOOKMARKS .OK, .Resumed,
         .Configure (TypeSet.pair syncable.BOOKMARKS syncable.PREFERENCES (by decide)),
         .Paused, .StartDone syncable.PREFERENCES .ASSOCIATION_FAILED]).map
        (fun w => doneCalls w.trace) =
      some [(.OK, .CONFIGURED), (.ASSOCIATION_FAILED, .STOPPED)] := by decide
  rw [h] at hcalls
  exact ⟨w, h, by simpa using hcalls,
    done_emitted_in_terminal_state [syncable.BOOKMARKS, syncable.PREFERENCES] _ w h⟩

/-- C16 at the input of the scenario: bookmarks and preferences registered and stopped,
Configure({BOOKMARKS}) and then Configure({BOOKMARKS, PREFERENCES}) before the paused
event; bookmarks is started before preferences. -/
theorem Configure_again_before_paused_witness :
    sort ((TypeSet.pair syncable.BOOKMARKS syncable.PREFERENCES (by decide)).elems.map
        DataTypeController.mk) = [⟨syncable.BOOKMARKS⟩, ⟨syncable.PREFERENCES⟩] ∧
    ∃ w2 w3 w4 w6,
      run (init [syncable.BOOKMARKS, syncable.PREFERENCES])
        [Event.Configure (TypeSet.single syncable.BOOKMARKS),
         Event.Configure (TypeSet.pair syncable.BOOKMARKS syncable.PREFERENCES
           (by decide))] = some w2 ∧
      w2.state_ = .RESTARTING ∧
      w2.trace.map Prod.fst =
        (init [syncable.BOOKMARKS, syncable.PREFERENCES]).trace.map Prod.fst ++
        [.CallConfigure (TypeSet.single syncable.BOOKMARKS).elems, .NotifyStart,
         .AddObserver .SYNC_PAUSED, .RequestPause true,
         .CallConfigure (TypeSet.pair syncable.BOOKMARKS syncable.PREFERENCES
           (by decide)).elems] ∧
      run w2 [Event.Paused] = some w3 ∧ w3.state_ = .RESTARTING ∧
      w3.trace.map Prod.fst = w2.trace.map Prod.fst ++
        [.CallObserve .SYNC_PAUSED, .RemoveObserver .SYNC_PAUSED,
         .AddObserver .SYNC_RESUMED, .RequestResume true] ∧
      run w3 [Event.Resumed] = some w4 ∧ w4.state_ = .PAUSE_PENDING ∧
      w4.trace.map Prod.fst = w3.trace.map Prod.fst ++
        [.CallObserve .SYNC_RESUMED, .RemoveObserver .SYNC_RESUMED,
         .AddObserver .SYNC_PAUSED, .RequestPause true] ∧
      run w4 ([Event.Paused] ++
          (sort ((TypeSet.pair syncable.BOOKMARKS syncable.PREFERENCES
            (by decide)).elems.map DataTypeController.mk)).map
            (fun x => Event.StartDone x.type .OK) ++ [Event.Resumed]) =
        some w6 ∧
      w6.state_ = .CONFIGURED ∧
      w6.trace.map Prod.fst = w4.trace.map Prod.fst ++
        ([.CallObserve .SYNC_PAUSED, .RemoveObserver .SYNC_PAUSED] ++
         (sort ((TypeSet.pair syncable.BOOKMARKS syncable.PREFERENCES
            (by decide)).elems.map DataTypeController.mk)).flatMap
           (fun x => [Effect.Start x, Effect.CallTypeStartCallback .OK]) ++
         [.AddObserver .SYNC_RESUMED, .RequestResume true, .CallObserve .SYNC_RESUMED,
          .RemoveObserver .SYNC_RESUMED, .NotifyDone .OK]) ∧
      run (init [syncable.BOOKMARKS, syncable.PREFERENCES])
        ([Event.Configure (TypeSet.single syncable.BOOKMARKS),
          Event.Configure (TypeSet.pair syncable.BOOKMARKS syncable.PREFERENCES
            (by decide)), Event.Paused, Event.Resumed, Event.Paused] ++
          (sort ((TypeSet.pair syncable.BOOKMARKS syncable.PREFERENCES
            (by decide)).elems.map DataTypeController.mk)).map
            (fun x => Event.StartDone x.type .OK) ++ [Event.Resumed]) =
        some w6 ∧
      (sort ((TypeSet.pair syncable.BOOKMARKS syncable.PREFERENCES
          (by decide)).elems.map DataTypeController.mk)).Sorted
        (fun lhs rhs => order lhs.type ≤ order rhs.type) ∧
      (sort ((TypeSet.pair syncable.BOOKMARKS syncable.PREFERENCES
          (by decide)).elems.map DataTypeController.mk)).Nodup ∧
      (∀ dtc, dtc ∈ sort ((TypeSet.pair syncable.BOOKMARKS syncable.PREFERENCES
          (by decide)).elems.map DataTypeController.mk) ↔
        dtc.type ∈ (TypeSet.pair syncable.BOOKMARKS syncable.PREFERENCES
          (by decide)).elems) ∧
      (∀ t ∈ [syncable.BOOKMARKS, syncable.PREFERENCES],
        w6.dtc_state t = .RUNNING ↔
          t ∈ (TypeSet.pair syncable.BOOKMARKS syncable.PREFERENCES (by decide)).elems) ∧
      (w6.trace.map Prod.fst).count .NotifyStart =
        ((init [syncable.BOOKMARKS, syncable.PREFERENCES]).trace.map Prod.fst).count
          .NotifyStart + 1 ∧
      (∀ r, (w6.trace.map Prod.fst).count (.NotifyDone r) =
        ((init [syncable.BOOKMARKS, syncable.PREFERENCES]).trace.map Prod.fst).count
          (.NotifyDone r) + if r = .OK then 1 else 0) :=
  ⟨by decide,
   Configure_again_before_paused [syncable.BOOKMARKS, syncable.PREFERENCES] (by decide)
    (TypeSet.single syncable.BOOKMARKS)
    (TypeSet.pair syncable.BOOKMARKS syncable.PREFERENCES (by decide))
    (by decide) (by decide) (by decide) (by decide) (fun _ => .OK) (fun _ => Or.inl rfl)
    (init [syncable.BOOKMARKS, syncable.PREFERENCES]) rfl rfl (fun _ _ => rfl) rfl⟩

/-- C21: Configure({BOOKMARKS}), the paused event (BOOKMARKS is started),
Configure({BOOKMARKS, PREFERENCES}) while BOOKMARKS is MODEL_STARTING (needs_start =
[PREFERENCES], state RESTARTING), the start of BOOKMARKS fails (BOOKMARKS is
NOT_RUNNING), then the resumed event.  A diff of {BOOKMARKS, PREFERENCES} against the
controller states at that moment gives needs_start = [BOOKMARKS, PREFERENCES]; Restart
does not compute one and keeps needs_start = [PREFERENCES].  The cycle then starts
PREFERENCES only (over the whole run Start is called once on BOOKMARKS, the start that
failed, and once on PREFERENCES) and ends CONFIGURED with configure-done(OK) while the
desired BOOKMARKS is NOT_RUNNING. -/
theorem Restart_uses_lists_of_superseding_Configure :
    (run (init [syncable.BOOKMARKS, syncable.PREFERENCES])
        [.Configure (TypeSet.single syncable.BOOKMARKS), .Paused,
         .Configure (TypeSet.pair syncable.BOOKMARKS syncable.PREFERENCES (by decide)),
         .StartDone syncable.BOOKMARKS .ASSOCIATION_FAILED]).map
      (fun w => (w.state_, w.dtc_state syncable.BOOKMARKS,
        w.dtc_state syncable.PREFERENCES, w.needs_start_)) =
      some (.RESTARTING, .NOT_RUNNING, .NOT_RUNNING, [⟨syncable.PREFERENCES⟩]) ∧
    (run (init [syncable.BOOKMARKS, syncable.PREFERENCES])
        [.Configure (TypeSet.single syncable.BOOKMARKS), .Paused,
         .Configure (TypeSet.pair syncable.BOOKMARKS syncable.PREFERENCES (by decide)),
         .StartDone syncable.BOOKMARKS .ASSOCIATION_FAILED]).map
      (fun w => (w.needs_stop_,
        (Configure.work_lists
          (TypeSet.pair syncable.BOOKMARKS syncable.PREFERENCES (by decide)) w).toOption.map
          (fun w2 => (w2.needs_start_, w2.needs_stop_)))) =
      some ([], some ([⟨syncable.BOOKMARKS⟩, ⟨syncable.PREFERENCES⟩], [])) ∧
    (run (init [syncable.BOOKMARKS, syncable.PREFERENCES])
        [.Configure (TypeSet.single syncable.BOOKMARKS), .Paused,
         .Configure (TypeSet.pair syncable.BOOKMARKS syncable.PREFERENCES (by decide)),
         .StartDone syncable.BOOKMARKS .ASSOCIATION_FAILED, .Resumed]).map
      (fun w => (w.state_, w.needs_start_, w.needs_stop_)) =
      some (.PAUSE_PENDING, [⟨syncable.PREFERENCES⟩], []) ∧
    (run (init [syncable.BOOKMARKS, syncable.PREFERENCES])
        [.Configure (TypeSet.single syncable.BOOKMARKS), .Paused,
         .Configure (TypeSet.pair syncable.BOOKMARKS syncable.PREFERENCES (by decide)),
         .StartDone syncable.BOOKMARKS .ASSOCIATION_FAILED, .Resumed, .Paused,
         .StartDone syncable.PREFERENCES .OK, .Resumed]).map
      (fun w => (w.state_, w.dtc_state syncable.BOOKMARKS,
        w.dtc_state syncable.PREFERENCES)) =
      some (.CONFIGURED, .NOT_RUNNING, .RUNNING) ∧
    (run (init [syncable.BOOKMARKS, syncable.PREFERENCES])
        [.Configure (TypeSet.single syncable.BOOKMARKS), .Paused,
         .Configure (TypeSet.pair syncable.BOOKMARKS syncable.PREFERENCES (by decide)),
         .StartDone syncable.BOOKMARKS .ASSOCIATION_FAILED, .Resumed, .Paused,
         .StartDone syncable.PREFERENCES .OK, .Resumed]).map
      (fun w => ((startCalls [] w.trace).map Prod.fst, doneCalls w.trace)) =
      some ([⟨syncable.BOOKMARKS⟩, ⟨syncable.PREFERENCES⟩], [(.OK, .CONFIGURED)]) :=
  ⟨by decide, by decide, by decide, by decide, by decide⟩

/-- C22: Configure({BOOKMARKS}) requests a pause; Configure({BOOKMARKS, PREFERENCES})
before the paused event defers (state RESTARTING, one pause request outstanding); the
same Configure call made again, in RESTARTING with the wait still in flight, does not
return early: Restart runs through, registers for the paused event again and issues a
second pause request, and the state is PAUSE_PENDING.  With a resume wait in flight
instead, the same call leaves PAUSE_PENDING with the resume request unanswered, and the
resumed event then fails the entry check of Observe. -/
theorem Restart_proceeds_while_restarting :
    (run (init [syncable.BOOKMARKS, syncable.PREFERENCES])
        [.Configure (TypeSet.single syncable.BOOKMARKS),
         .Configure (TypeSet.pair syncable.BOOKMARKS syncable.PREFERENCES (by decide))]).map
      (fun w => (w.state_, w.pending_pause, backendRequests w.trace)) =
      some (.RESTARTING, 1, [(.RequestPause true, 0)]) ∧
    (run (init [syncable.BOOKMARKS, syncable.PREFERENCES])
        [.Configure (TypeSet.single syncable.BOOKMARKS),
         .Configure (TypeSet.pair syncable.BOOKMARKS syncable.PREFERENCES (by decide))]).map
      (fun w => (Restart w).toOption.map (fun w1 =>
          (w1.state_, w1.pending_pause, (w1.trace.drop w.trace.length).map Prod.fst))) =
      some (some (.PAUSE_PENDING, 2, [.AddObserver .SYNC_PAUSED, .RequestPause true])) ∧
    (run (init [syncable.BOOKMARKS, syncable.PREFERENCES])
        [.Configure (TypeSet.single syncable.BOOKMARKS),
         .Configure (TypeSet.pair syncable.BOOKMARKS syncable.PREFERENCES (by decide)),
         .Configure (TypeSet.pair syncable.BOOKMARKS syncable.PREFERENCES (by decide))]).map
      (fun w => (w.state_, w.pending_pause, backendRequests w.trace)) =
      some (.PAUSE_PENDING, 2, [(.RequestPause true, 0), (.RequestPause true, 1)]) ∧
    (run (init [syncable.BOOKMARKS, syncable.PREFERENCES])
        [.Configure (TypeSet.single syncable.BOOKMARKS), .Paused,
         .StartDone syncable.BOOKMARKS .OK,
         .Configure (TypeSet.pair syncable.BOOKMARKS syncable.PREFERENCES (by decide)),
         .Configure (TypeSet.pair syncable.BOOKMARKS syncable.PREFERENCES (by decide))]).map
      (fun w => (w.state_, w.pending_pause, w.pending_resume)) =
      some (.PAUSE_PENDING, 1, 1) ∧
    runFault (init [syncable.BOOKMARKS, syncable.PREFERENCES])
        [.Configure (TypeSet.single syncable.BOOKMARKS), .Paused,
         .StartDone syncable.BOOKMARKS .OK,
         .Configure (TypeSet.pair syncable.BOOKMARKS syncable.PREFERENCES (by decide)),
         .Configure (TypeSet.pair syncable.BOOKMARKS syncable.PREFERENCES (by decide)),
         .Resumed] = some .dcheck :=
  ⟨by decide, by decide, by decide, by decide, by decide⟩

/-- C23: Configure({BOOKMARKS}) requests a pause and Configure({}) sets CONFIGURED
before the answer: the paused event is delivered to Observe in state CONFIGURED and
the assertion fails.  Likewise Configure({BOOKMARKS}) made again while the resume
request is outstanding sets CONFIGURED, and the resumed event is delivered to Observe
in state CONFIGURED. -/
theorem Observe_entered_in_configured :
    (run (init [syncable.BOOKMARKS])
        [.Configure (TypeSet.single syncable.BOOKMARKS), .Configure TypeSet.empty]).map
      (fun w => (w.state_, w.paused_observer, w.pending_pause,
        decide (w.state_ = .PAUSE_PENDING ∨ w.state_ = .RESTARTING),
        (Observe .SYNC_PAUSED w).toOption.isSome)) =
      some (.CONFIGURED, true, 1, false, false) ∧
    runFault (init [syncable.BOOKMARKS])
        [.Configure (TypeSet.single syncable.BOOKMARKS), .Configure TypeSet.empty,
         .Paused] = some .dcheck ∧
    (run (init [syncable.BOOKMARKS])
        [.Configure (TypeSet.single syncable.BOOKMARKS), .Paused,
         .StartDone syncable.BOOKMARKS .OK,
         .Configure (TypeSet.single syncable.BOOKMARKS)]).map
      (fun w => (w.state_, w.resumed_observer, w.pending_resume,
        decide (w.state_ = .RESUME_PENDING ∨ w.state_ = .RESTARTING),
        (Observe .SYNC_RESUMED w).toOption.isSome)) =
      some (.CONFIGURED, true, 1, false, false) ∧
    runFault (init [syncable.BOOKMARKS])
        [.Configure (TypeSet.single syncable.BOOKMARKS), .Paused,
         .StartDone syncable.BOOKMARKS .OK,
         .Configure (TypeSet.single syncable.BOOKMARKS), .Resumed] = some .dcheck :=
  ⟨by decide, by decide, by decide, by decide⟩

/-- C24: Configure({BOOKMARKS}), the paused event (BOOKMARKS is started, needs_start =
[BOOKMARKS]), Configure({BOOKMARKS}) again: needs_start is cleared and stays empty
(BOOKMARKS is MODEL_STARTING) and the state is CONFIGURED.  The completion of the start
is then delivered in CONFIGURED with needs_start empty, and the assertion on
needs_start fails.  When Configure({BOOKMARKS, PREFERENCES}) and the paused event come
first, the completion of BOOKMARKS is delivered with PREFERENCES current and at the
head of needs_start: PREFERENCES is removed although its start has not finished. -/
theorem callback_finds_another_head :
    (run (init [syncable.BOOKMARKS])
        [.Configure (TypeSet.single syncable.BOOKMARKS), .Paused,
         .Configure (TypeSet.single syncable.BOOKMARKS)]).map
      (fun w => (w.state_, w.current_dtc_, w.needs_start_,
        w.dtc_state syncable.BOOKMARKS)) =
      some (.CONFIGURED, some ⟨syncable.BOOKMARKS⟩, [], .MODEL_STARTING) ∧
    runFault (init [syncable.BOOKMARKS])
        [.Configure (TypeSet.single syncable.BOOKMARKS), .Paused,
         .Configure (TypeSet.single syncable.BOOKMARKS),
         .StartDone syncable.BOOKMARKS .OK] = some .dcheck ∧
    (run (init [syncable.BOOKMARKS, syncable.PREFERENCES])
        [.Configure (TypeSet.single syncable.BOOKMARKS), .Paused,
         .Configure (TypeSet.single syncable.BOOKMARKS),
         .Configure (TypeSet.pair syncable.BOOKMARKS syncable.PREFERENCES (by decide)),
         .Paused]).map
      (fun w => (w.state_, w.current_dtc_, w.needs_start_,
        w.dtc_state syncable.BOOKMARKS, w.dtc_state syncable.PREFERENCES)) =
      some (.CONFIGURING, some ⟨syncable.PREFERENCES⟩, [⟨syncable.PREFERENCES⟩],
        .MODEL_STARTING, .MODEL_STARTING) ∧
    (run (init [syncable.BOOKMARKS, syncable.PREFERENCES])
        [.Configure (TypeSet.single syncable.BOOKMARKS), .Paused,
         .Configure (TypeSet.single syncable.BOOKMARKS),
         .Configure (TypeSet.pair syncable.BOOKMARKS syncable.PREFERENCES (by decide)),
         .Paused, .StartDone syncable.BOOKMARKS .OK]).map
      (fun w => (w.state_, w.current_dtc_, w.needs_start_,
        w.dtc_state syncable.BOOKMARKS, w.dtc_state syncable.PREFERENCES)) =
      some (.RESUME_PENDING, none, [], .RUNNING, .MODEL_STARTING) :=
  ⟨by decide, by decide, by decide, by decide⟩

/-- C26: bookmarks is the only registered controller and Configure({PREFERENCES}) is
called: the lookup in the first loop inserts a null entry for PREFERENCES, and the
second loop, which walks the whole registry, dereferences it. -/
theorem Configure_unregistered_identity :
    Configure.start_loop (init [syncable.BOOKMARKS]).dtc_state
        (TypeSet.single syncable.PREFERENCES).elems
        (init [syncable.BOOKMARKS]).controllers_ =
      ([], [(syncable.BOOKMARKS, some ⟨syncable.BOOKMARKS⟩),
            (syncable.PREFERENCES, none)]) ∧
    (Configure.stop_loop (init [syncable.BOOKMARKS]).dtc_state
        (TypeSet.single syncable.PREFERENCES).elems
        [(syncable.BOOKMARKS, some ⟨syncable.BOOKMARKS⟩),
         (syncable.PREFERENCES, none)]).toOption = none ∧
    (run (init [syncable.BOOKMARKS])
        [.Configure (TypeSet.single syncable.PREFERENCES)]).isSome = false ∧
    runFault (init [syncable.BOOKMARKS])
        [.Configure (TypeSet.single syncable.PREFERENCES)] = some .null_deref :=
  ⟨by decide, by decide, by decide, by decide⟩

/-- C27: Configure({BOOKMARKS}) requests a pause, Configure({BOOKMARKS, PREFERENCES})
sets RESTARTING, and Stop() returns with the state STOPPED, the interest in the paused
event still registered and the pause request unanswered.  The paused event is then
delivered to Observe in state STOPPED and the assertion fails; the statements after the
assertion set the state to CONFIGURING and call Start on BOOKMARKS. -/
theorem paused_delivered_after_Stop :
    (run (init [syncable.BOOKMARKS, syncable.PREFERENCES])
        [.Configure (TypeSet.single syncable.BOOKMARKS),
         .Configure (TypeSet.pair syncable.BOOKMARKS syncable.PREFERENCES (by decide))]).map
      (fun w => (w.state_, w.paused_observer, w.pending_pause)) =
      some (.RESTARTING, true, 1) ∧
    (run (init [syncable.BOOKMARKS, syncable.PREFERENCES])
        [.Configure (TypeSet.single syncable.BOOKMARKS),
         .Configure (TypeSet.pair syncable.BOOKMARKS syncable.PREFERENCES (by decide)),
         .Stop]).map
      (fun w => (w.state_, w.paused_observer, w.pending_pause,
        (w.trace.map Prod.fst).getLast?)) =
      some (.STOPPED, true, 1, some .CallStop) ∧
    (run (init [syncable.BOOKMARKS, syncable.PREFERENCES])
        [.Configure (TypeSet.single syncable.BOOKMARKS),
         .Configure (TypeSet.pair syncable.BOOKMARKS syncable.PREFERENCES (by decide)),
         .Stop]).map
      (fun w => (StartNextType
          { RemoveObserver .SYNC_PAUSED w with state_ := .CONFIGURING }).toOption.map
          (fun w1 => (w1.state_, (w1.trace.map Prod.fst).getLast?))) =
      some (some (.CONFIGURING, some (.Start ⟨syncable.BOOKMARKS⟩))) ∧
    runFault (init [syncable.BOOKMARKS, syncable.PREFERENCES])
        [.Configure (TypeSet.single syncable.BOOKMARKS),
         .Configure (TypeSet.pair syncable.BOOKMARKS syncable.PREFERENCES (by decide)),
         .Stop, .Paused] = some .dcheck :=
  ⟨by decide, by decide, by decide, by decide⟩

/-- C29: Configure({BOOKMARKS}), the paused event (BOOKMARKS is started), Configure({})
(state RESTARTING), the backend stops accepting requests, then the start of BOOKMARKS
completes: TypeStartCallback calls ResumeSyncer in RESTARTING, the request is rejected,
and FinishStop is entered in state RESTARTING, where its entry assertion fails. -/
theorem FinishStop_entered_while_restarting :
    (run (init [syncable.BOOKMARKS])
        [.Configure (TypeSet.single syncable.BOOKMARKS), .Paused,
         .Configure TypeSet.empty, .BackendAccepts false]).map
      (fun w => (w.state_, w.current_dtc_, w.backend_accepting,
        (RemoveObserver .SYNC_RESUMED
          (SyncBackendHost.RequestResume (AddObserver .SYNC_RESUMED w)).2).state_,
        (FinishStop (RemoveObserver .SYNC_RESUMED
          (SyncBackendHost.RequestResume (AddObserver .SYNC_RESUMED w)).2)).toOption.isSome,
        (ResumeSyncer w).toOption.isSome)) =
      some (.RESTARTING, some ⟨syncable.BOOKMARKS⟩, false, .RESTARTING, false, false) ∧
    runFault (init [syncable.BOOKMARKS])
        [.Configure (TypeSet.single syncable.BOOKMARKS), .Paused,
         .Configure TypeSet.empty, .BackendAccepts false,
         .StartDone syncable.BOOKMARKS .OK] = some .dcheck :=
  ⟨by decide, by decide⟩

theorem order_of_absent {t : ModelType} (ht : t ∉ kStartOrder) : order t = 0 := by
  have h : t ≠ syncable.BOOKMARKS ∧ t ≠ syncable.PREFERENCES ∧ t ≠ syncable.AUTOFILL ∧
      t ≠ syncable.TYPED_URLS := by
    simpa [kStartOrder] using ht
  obtain ⟨h1, h2, h3, h4⟩ := h
  have e1 : (t == syncable.BOOKMARKS) = false := by simpa using h1
  have e2 : (t == syncable.PREFERENCES) = false := by simpa using h2
  have e3 : (t == syncable.AUTOFILL) = false := by simpa using h3
  have e4 : (t == syncable.TYPED_URLS) = false := by simpa using h4
  have hs : start_order_ = [(syncable.BOOKMARKS, 0), (syncable.PREFERENCES, 1),
      (syncable.AUTOFILL, 2), (syncable.TYPED_URLS, 3)] := by decide
  unfold order
  rw [hs]
  simp [List.lookup, e1, e2, e3, e4]

/-- C25: an identity the table kStartOrder does not name has rank 0, whatever the
identity; the ranks of the table are 0 for BOOKMARKS, 1 for PREFERENCES, 2 for AUTOFILL
and 3 for TYPED_URLS, so no identity of the table has a smaller rank and the default is
the rank of BOOKMARKS; and in a sorted work list no controller behind which a
controller of that identity stands has a rank greater than the default. -/
theorem absent_identity_has_lowest_rank (t : ModelType) (ht : t ∉ kStartOrder) :
    order t = 0 ∧
    (order syncable.BOOKMARKS = 0 ∧ order syncable.PREFERENCES = 1 ∧
      order syncable.AUTOFILL = 2 ∧ order syncable.TYPED_URLS = 3) ∧
    (∀ u ∈ kStartOrder, order t ≤ order u) ∧
    order t = order syncable.BOOKMARKS ∧
    (∀ (l front back : List DataTypeController) (y x : DataTypeController),
      sort l = front ++ y :: back → x ∈ back → x.type = t →
        ¬ (order t < order y.type)) := by
  have h0 := order_of_absent ht
  refine ⟨h0, by decide, ?_, ?_, ?_⟩
  · intro u _
    rw [h0]
    exact Nat.zero_le _
  · rw [h0]
    decide
  · intro l front back y x hl hx hxt
    have hsorted := sorted_sort l
    rw [hl] at hsorted
    have h1 := (List.pairwise_append.mp hsorted).2.1
    have h2 := (List.pairwise_cons.mp h1).1 x hx
    rw [hxt] at h2
    exact Nat.not_lt.mpr h2

/-- C25 at a concrete input: identity 5 is not in the table; preferences, the
controller of identity 5 and bookmarks sort to identity 5, bookmarks, preferences. -/
theorem absent_identity_has_lowest_rank_witness :
    sort [⟨syncable.PREFERENCES⟩, ⟨5⟩, ⟨syncable.BOOKMARKS⟩] =
      [⟨5⟩, ⟨syncable.BOOKMARKS⟩, ⟨syncable.PREFERENCES⟩] ∧
    (order 5 = 0 ∧
    (order syncable.BOOKMARKS = 0 ∧ order syncable.PREFERENCES = 1 ∧
      order syncable.AUTOFILL = 2 ∧ order syncable.TYPED_URLS = 3) ∧
    (∀ u ∈ kStartOrder, order 5 ≤ order u) ∧
    order 5 = order syncable.BOOKMARKS ∧
    (∀ (l front back : List DataTypeController) (y x : DataTypeController),
      sort l = front ++ y :: back → x ∈ back → x.type = 5 →
        ¬ (order 5 < order y.type))) :=
  ⟨by decide, absent_identity_has_lowest_rank 5 (by decide)⟩

theorem CurrentIsHead.of_state {w : World} (h : w.state_ ≠ .CONFIGURING) :
    CurrentIsHead w :=
  fun e => absurd e h

theorem CurrentIsHead.frame {w w1 : World} (h : CurrentIsHead w)
    (hn : w1.needs_start_ = w.needs_start_) (hc : w1.current_dtc_ = w.current_dtc_)
    (hs : w1.state_ = w.state_ ∨ w1.state_ ≠ .CONFIGURING) : CurrentIsHead w1 := by
  intro e
  rcases hs with hs | hs
  · rw [hn, hc]
    exact h (hs ▸ e)
  · exact absurd e hs

theorem ResumeSyncer_cur {w w1 : World} (h : CurrentIsHead w)
    (hr : ResumeSyncer w = .ok w1) : CurrentIsHead w1 := by
  obtain ⟨c, hs⟩ := ResumeSyncer_calm hr
  refine h.frame c.needs_start c.current ?_
  rcases hs with hs | hs
  · exact Or.inl hs
  · exact Or.inr (by rw [hs]; simp)

theorem PauseSyncer_cur {w w1 : World} (h : CurrentIsHead w)
    (hr : PauseSyncer w = .ok w1) : CurrentIsHead w1 := by
  obtain ⟨c, hs⟩ := PauseSyncer_calm hr
  refine h.frame c.needs_start c.current ?_
  rcases hs with hs | hs
  · exact Or.inl hs
  · exact Or.inr (by rw [hs]; simp)

theorem StartNextType_cur {w w1 : World} (hr : StartNextType w = .ok w1) :
    CurrentIsHead w1 := by
  unfold StartNextType at hr
  split at hr
  · rename_i d rest hl
    simp only [Except.ok.injEq] at hr
    subst hr
    intro _
    refine ⟨d, rest, ?_, ?_⟩
    · simp only [DataTypeController.Start, World.emit]
      split <;> rfl
    · simp only [DataTypeController.Start, World.emit]
      split <;> exact hl
  · simp only [DCHECK, bind, Except.bind] at hr
    split at hr
    · cases hr
    · exact ResumeSyncer_cur (CurrentIsHead.of_state (by simp)) hr

theorem TypeStartCallback_cur {r : DataTypeController.StartResult} {w w1 : World}
    (hr : TypeStartCallback r w = .ok w1) : CurrentIsHead w1 := by
  unfold TypeStartCallback at hr
  by_cases hcur : w.current_dtc_ = none
  · simp [hcur] at hr
  by_cases hst : w.state_ = .RESTARTING
  · simp only [hcur, hst, if_true, if_false] at hr
    exact ResumeSyncer_cur (CurrentIsHead.of_state (by rw [hst]; simp)) hr
  cases hl : w.needs_start_ with
  | nil => simp [hcur, hst, hl] at hr
  | cons head tail =>
    by_cases heq : some head = w.current_dtc_
    swap
    · simp [hcur, hst, hl, heq] at hr
    simp only [hcur, hst, hl, heq, if_true, if_false] at hr
    by_cases h1 : w.state_ = .STOPPING
    · rw [if_pos h1] at hr
      simp only [bind, Except.bind, pure, Except.pure] at hr
      split at hr
      · cases hr
      · rename_i w2 hw2
        simp only [Except.ok.injEq] at hr
        subst hr
        have hs := (FinishStop_calm hw2).2
        exact CurrentIsHead.of_state (by
          show w2.state_ ≠ .CONFIGURING
          rw [hs]; simp)
    rw [if_neg h1] at hr
    by_cases h2 : w.state_ = .STOPPED
    · rw [if_pos h2] at hr
      simp only [Except.ok.injEq] at hr
      subst hr
      exact CurrentIsHead.of_state (by
        show w.state_ ≠ .CONFIGURING
        rw [h2]; simp)
    rw [if_neg h2] at hr
    by_cases h3 : r = .OK ∨ r = .OK_FIRST_RUN
    · rw [if_pos h3] at hr
      exact StartNextType_cur hr
    · rw [if_neg h3] at hr
      simp only [bind, Except.bind, pure, Except.pure] at hr
      split at hr
      · cases hr
      · rename_i w2 hw2
        split at hr
        · simp only [Except.ok.injEq] at hr
          subst hr
          have hs := (FinishStop_calm hw2).2
          exact CurrentIsHead.of_state (by
            show w2.state_ ≠ .CONFIGURING
            rw [hs]; simp)
        · cases hr

theorem callStop_cur {d : DataTypeController} {w w1 : World} (h : CurrentIsHead w)
    (hr : callStop d w = .ok w1) : CurrentIsHead w1 := by
  rw [callStop_eq] at hr
  split at hr
  · exact TypeStartCallback_cur hr
  · simp only [Except.ok.injEq] at hr
    subst hr
    rw [Stop_fst]
    exact h.frame rfl rfl (Or.inl rfl)

theorem Restart_cur {w w1 : World} (hr : Restart w = .ok w1) : CurrentIsHead w1 := by
  unfold Restart at hr
  split at hr
  · simp only [Except.ok.injEq] at hr
    subst hr
    exact CurrentIsHead.of_state (by simp)
  · simp only [DCHECK, bind, Except.bind] at hr
    split at hr
    · cases hr
    · split at hr
      · cases hr
      · exact PauseSyncer_cur (CurrentIsHead.of_state (by simp)) hr

theorem Configure_cur {desired_types : TypeSet} {w w1 : World}
    (hr : Configure desired_types w = .ok w1) : CurrentIsHead w1 := by
  unfold Configure at hr
  by_cases hs : w.state_ = .STOPPING
  · rw [if_pos hs] at hr
    simp only [Except.ok.injEq] at hr
    subst hr
    exact CurrentIsHead.of_state (by rw [hs]; simp)
  · rw [if_neg hs] at hr
    split at hr
    · cases hr
    · split at hr
      · simp only [Except.ok.injEq] at hr
        subst hr
        exact CurrentIsHead.of_state (by simp [NotifyDone, NotifyStart, World.emit])
      · exact Restart_cur hr

theorem Stop_cur {w w1 : World} (hr : Stop w = .ok w1) : CurrentIsHead w1 := by
  unfold Stop at hr
  by_cases h1 : w.state_ = .STOPPED
  · rw [if_pos h1] at hr
    simp only [Except.ok.injEq] at hr
    subst hr
    exact CurrentIsHead.of_state (by rw [h1]; simp)
  rw [if_neg h1] at hr
  by_cases h2 : w.state_ = .CONFIGURING
  · rw [if_pos h2] at hr
    simp only at hr
    split at hr
    · cases hr
    · exact callStop_cur (CurrentIsHead.of_state (by simp)) hr
  rw [if_neg h2] at hr
  have hs := (FinishStop_calm hr).2
  exact CurrentIsHead.of_state (by rw [hs]; simp)

theorem Observe_cur {type : NotificationType} {w w1 : World}
    (hr : Observe type w = .ok w1) : CurrentIsHead w1 := by
  unfold Observe at hr
  cases type with
  | SYNC_PAUSED =>
    simp only [DCHECK, bind, Except.bind] at hr
    split at hr
    · cases hr
    · by_cases hst : (RemoveObserver .SYNC_PAUSED w).state_ = .RESTARTING
      · rw [if_pos hst] at hr
        exact ResumeSyncer_cur (CurrentIsHead.of_state (by rw [hst]; simp)) hr
      · rw [if_neg hst] at hr
        exact StartNextType_cur hr
  | SYNC_RESUMED =>
    simp only [DCHECK, bind, Except.bind, pure, Except.pure] at hr
    split at hr
    · cases hr
    · by_cases hst : (RemoveObserver .SYNC_RESUMED w).state_ = .RESTARTING
      · rw [if_pos hst] at hr
        exact Restart_cur hr
      · rw [if_neg hst] at hr
        simp only [Except.ok.injEq] at hr
        subst hr
        exact CurrentIsHead.of_state (by simp [NotifyDone, World.emit])

theorem step_cur {w w1 : World} {e : Event} (h : CurrentIsHead w)
    (hr : step w e = .ok w1) : CurrentIsHead w1 := by
  cases e with
  | Configure desired_types => exact Configure_cur hr
  | Stop => exact Stop_cur hr
  | Paused =>
    simp only [step] at hr
    split at hr
    · exact Observe_cur hr
    · simp only [Except.ok.injEq] at hr
      subst hr
      exact h.frame rfl rfl (Or.inl rfl)
  | Resumed =>
    simp only [step] at hr
    split at hr
    · exact Observe_cur hr
    · simp only [Except.ok.injEq] at hr
      subst hr
      exact h.frame rfl rfl (Or.inl rfl)
  | Associating t =>
    simp only [step, Except.ok.injEq] at hr
    subst hr
    exact h.frame rfl rfl (Or.inl rfl)
  | StartDone t result =>
    simp only [step] at hr
    exact TypeStartCallback_cur hr
  | BackendAccepts b =>
    simp only [step, Except.ok.injEq] at hr
    subst hr
    exact h.frame rfl rfl (Or.inl rfl)

theorem run_cur {evs : List Event} {w w1 : World} (h : CurrentIsHead w)
    (hr : run w evs = some w1) : CurrentIsHead w1 := by
  induction evs generalizing w with
  | nil =>
    simp only [run, Option.some.injEq] at hr
    subst hr
    exact h
  | cons e es ih =>
    simp only [run] at hr
    split at hr
    · split at hr
      · rename_i w2 hw2
        exact ih (step_cur h hw2) hr
      · cases hr
    · cases hr

theorem stop_loop_nullFree {st : ModelType → DataTypeController.State}
    {D : List ModelType} {m : TypeMap} {l : List DataTypeController}
    (h : Configure.stop_loop st D m = .ok l) : m.NullFree := by
  induction m generalizing l with
  | nil =>
    intro e he
    simp at he
  | cons e rest ih =>
    obtain ⟨k, p⟩ := e
    cases p with
    | none => simp [Configure.stop_loop] at h
    | some dtc =>
      simp only [Configure.stop_loop, bind, Except.bind, pure, Except.pure] at h
      split at h
      · cases h
      · rename_i r hr
        intro x hx
        rcases List.mem_cons.mp hx with rfl | hx
        · simp
        · exact ih hr x hx

theorem work_lists_nullFree {desired_types : TypeSet} {w w2 : World}
    (h : Configure.work_lists desired_types w = .ok w2) : w2.controllers_.NullFree := by
  unfold Configure.work_lists at h
  simp only at h
  split at h
  · cases h
  · rename_i l hl
    cases h
    exact stop_loop_nullFree hl

theorem StartNextType_registry {w w1 : World} (hr : StartNextType w = .ok w1) :
    w1.controllers_ = w.controllers_ := by
  unfold StartNextType at hr
  split at hr
  · simp only [Except.ok.injEq] at hr
    subst hr
    simp only [DataTypeController.Start, World.emit]
    split <;> rfl
  · simp only [DCHECK, bind, Except.bind] at hr
    split at hr
    · cases hr
    · exact (ResumeSyncer_calm hr).1.controllers

theorem TypeStartCallback_registry {r : DataTypeController.StartResult} {w w1 : World}
    (hr : TypeStartCallback r w = .ok w1) : w1.controllers_ = w.controllers_ := by
  unfold TypeStartCallback at hr
  by_cases hcur : w.current_dtc_ = none
  · simp [hcur] at hr
  by_cases hst : w.state_ = .RESTARTING
  · simp only [hcur, hst, if_true, if_false] at hr
    exact (ResumeSyncer_calm hr).1.controllers
  cases hl : w.needs_start_ with
  | nil => simp [hcur, hst, hl] at hr
  | cons head tail =>
    by_cases heq : some head = w.current_dtc_
    swap
    · simp [hcur, hst, hl, heq] at hr
    simp only [hcur, hst, hl, heq, if_true, if_false] at hr
    by_cases h1 : w.state_ = .STOPPING
    · rw [if_pos h1] at hr
      simp only [bind, Except.bind, pure, Except.pure] at hr
      split at hr
      · cases hr
      · rename_i w2 hw2
        simp only [Except.ok.injEq] at hr
        subst hr
        exact (FinishStop_calm hw2).1.controllers
    rw [if_neg h1] at hr
    by_cases h2 : w.state_ = .STOPPED
    · rw [if_pos h2] at hr
      simp only [Except.ok.injEq] at hr
      subst hr
      rfl
    rw [if_neg h2] at hr
    by_cases h3 : r = .OK ∨ r = .OK_FIRST_RUN
    · rw [if_pos h3] at hr
      have e := StartNextType_registry hr
      exact e
    · rw [if_neg h3] at hr
      simp only [bind, Except.bind, pure, Except.pure] at hr
      split at hr
      · cases hr
      · rename_i w2 hw2
        split at hr
        · simp only [Except.ok.injEq] at hr
          subst hr
          exact (FinishStop_calm hw2).1.controllers
        · cases hr

theorem callStop_registry {d : DataTypeController} {w w1 : World}
    (hr : callStop d w = .ok w1) : w1.controllers_ = w.controllers_ := by
  rw [callStop_eq] at hr
  split at hr
  · rw [TypeStartCallback_registry hr, Stop_fst]
    rfl
  · simp only [Except.ok.injEq] at hr
    subst hr
    rw [Stop_fst]
    rfl

theorem Stop_registry {w w1 : World} (hr : Stop w = .ok w1) :
    w1.controllers_ = w.controllers_ := by
  unfold Stop at hr
  by_cases h1 : w.state_ = .STOPPED
  · rw [if_pos h1] at hr
    simp only [Except.ok.injEq] at hr
    subst hr
    rfl
  rw [if_neg h1] at hr
  by_cases h2 : w.state_ = .CONFIGURING
  · rw [if_pos h2] at hr
    simp only at hr
    split at hr
    · cases hr
    · have e := callStop_registry hr
      exact e
  rw [if_neg h2] at hr
  rw [(FinishStop_calm hr).1.controllers]
  simp only [RemoveObserver, World.emit]
  split <;> split <;> rfl

theorem Observe_registry {type : NotificationType} {w w1 : World}
    (hr : Observe type w = .ok w1) : w1.controllers_ = w.controllers_ := by
  unfold Observe at hr
  cases type with
  | SYNC_PAUSED =>
    simp only [DCHECK, bind, Except.bind] at hr
    split at hr
    · cases hr
    · by_cases hst : (RemoveObserver .SYNC_PAUSED w).state_ = .RESTARTING
      · rw [if_pos hst] at hr
        exact (ResumeSyncer_calm hr).1.controllers
      · rw [if_neg hst] at hr
        have e := StartNextType_registry hr
        exact e
  | SYNC_RESUMED =>
    simp only [DCHECK, bind, Except.bind, pure, Except.pure] at hr
    split at hr
    · cases hr
    · by_cases hst : (RemoveObserver .SYNC_RESUMED w).state_ = .RESTARTING
      · rw [if_pos hst] at hr
        exact (Restart_frame hr).2.1
      · rw [if_neg hst] at hr
        simp only [Except.ok.injEq] at hr
        subst hr
        rfl

theorem Configure_nullFree {desired_types : TypeSet} {w w1 : World}
    (h : w.controllers_.NullFree) (hr : Configure desired_types w = .ok w1) :
    w1.controllers_.NullFree := by
  by_cases hs : w.state_ = .STOPPING
  · unfold Configure at hr
    rw [if_pos hs] at hr
    simp only [Except.ok.injEq] at hr
    subst hr
    exact h
  · obtain ⟨w2, hw2, _, hc, _⟩ := Configure_frame hs hr
    rw [hc]
    exact work_lists_nullFree hw2

theorem step_nullFree {w w1 : World} {e : Event} (h : w.controllers_.NullFree)
    (hr : step w e = .ok w1) : w1.controllers_.NullFree := by
  cases e with
  | Configure desired_types =>
    simp only [step] at hr
    exact Configure_nullFree (w := w.emit (.CallConfigure desired_types.elems)) h hr
  | Stop =>
    simp only [step] at hr
    rw [Stop_registry hr]
    exact h
  | Paused =>
    simp only [step] at hr
    split at hr
    · rw [Observe_registry hr]
      exact h
    · simp only [Except.ok.injEq] at hr
      subst hr
      exact h
  | Resumed =>
    simp only [step] at hr
    split at hr
    · rw [Observe_registry hr]
      exact h
    · simp only [Except.ok.injEq] at hr
      subst hr
      exact h
  | Associating t =>
    simp only [step, Except.ok.injEq] at hr
    subst hr
    exact h
  | StartDone t result =>
    simp only [step] at hr
    rw [TypeStartCallback_registry hr]
    exact h
  | BackendAccepts b =>
    simp only [step, Except.ok.injEq] at hr
    subst hr
    exact h

theorem run_nullFree {evs : List Event} {w w1 : World} (h : w.controllers_.NullFree)
    (hr : run w evs = some w1) : w1.controllers_.NullFree := by
  induction evs generalizing w with
  | nil =>
    simp only [run, Option.some.injEq] at hr
    subst hr
    exact h
  | cons e es ih =>
    simp only [run] at hr
    split at hr
    · split at hr
      · rename_i w2 hw2
        exact ih (step_nullFree h hw2) hr
      · cases hr
    · cases hr

theorem init_cur (types : List ModelType) : CurrentIsHead (init types) :=
  CurrentIsHead.of_state (by simp [init])

/-- C30: in every state the manager is in after a run of events from the constructed
manager, state CONFIGURING implies that the current controller is set and is the head
of needs_start; so Stop() called then takes the branch that calls Stop on that
controller, and, over a registry in key order, Stop() returns. -/
theorem current_is_head_while_configuring (types : List ModelType) (evs : List Event)
    (w : World) (hr : run (init types) evs = some w) (hs : w.state_ = .CONFIGURING) :
    ∃ d tail, w.current_dtc_ = some d ∧ w.needs_start_ = d :: tail ∧
      Stop w = callStop d { w with state_ := .STOPPING } ∧
      (types.Sorted (· < ·) → ∃ w1, Stop w = .ok w1) := by
  obtain ⟨d, tail, hc, hn⟩ := run_cur (init_cur types) hr hs
  have hstop : Stop w = callStop d { w with state_ := .STOPPING } := by
    unfold Stop
    rw [if_neg (by rw [hs]; simp), if_pos hs]
    simp only [hc]
  refine ⟨d, tail, hc, hn, hstop, ?_⟩
  intro htypes
  have hwf : w.controllers_.WellFormed := (run_inv (init_inv htypes) hr).registry
  have hnull : w.controllers_.NullFree := run_nullFree (registry_nullFree types) hr
  rw [hstop, callStop_eq]
  by_cases hd : w.dtc_state d.type = .MODEL_STARTING ∨ w.dtc_state d.type = .ASSOCIATING
  · rw [if_pos hd]
    obtain ⟨w1, h1, _⟩ := @TypeStartCallback_teardown
      (World.emit (.CallTypeStartCallback .ABORTED)
        (DataTypeController.Stop d { w with state_ := .STOPPING }).1)
      .ABORTED d tail .ABORTED
      (by rw [Stop_fst]; exact hc) (by rw [Stop_fst]; exact hn)
      (by rw [Stop_fst]; exact hwf) (by rw [Stop_fst]; exact hnull)
      (Or.inl ⟨by rw [Stop_fst]; rfl, rfl⟩)
    exact ⟨w1, h1⟩
  · rw [if_neg hd]
    exact ⟨_, rfl⟩

/-- C30 at a concrete input: Configure({BOOKMARKS, AUTOFILL}) and the paused event leave
the manager CONFIGURING with bookmarks current and at the head of needs_start. -/
theorem current_is_head_while_configuring_witness :
    (run (init [syncable.BOOKMARKS, syncable.PREFERENCES, syncable.AUTOFILL])
        [.Configure (TypeSet.pair syncable.BOOKMARKS syncable.AUTOFILL (by decide)),
         .Paused]).map (fun w => (w.state_, w.current_dtc_, w.needs_start_)) =
      some (.CONFIGURING, some ⟨syncable.BOOKMARKS⟩,
        [⟨syncable.BOOKMARKS⟩, ⟨syncable.AUTOFILL⟩]) ∧
    ∃ w, run (init [syncable.BOOKMARKS, syncable.PREFERENCES, syncable.AUTOFILL])
        [.Configure (TypeSet.pair syncable.BOOKMARKS syncable.AUTOFILL (by decide)),
         .Paused] = some w ∧
      ∃ d tail, w.current_dtc_ = some d ∧ w.needs_start_ = d :: tail ∧
        Stop w = callStop d { w with state_ := .STOPPING } ∧
        ((List.Sorted (· < ·)
            [syncable.BOOKMARKS, syncable.PREFERENCES, syncable.AUTOFILL]) →
          ∃ w1, Stop w = .ok w1) := by
  have hsome : (run (init [syncable.BOOKMARKS, syncable.PREFERENCES, syncable.AUTOFILL])
        [.Configure (TypeSet.pair syncable.BOOKMARKS syncable.AUTOFILL (by decide)),
         .Paused]).isSome = true := by decide
  obtain ⟨w, h⟩ := Option.isSome_iff_exists.mp hsome
  have hst : (run (init [syncable.BOOKMARKS, syncable.PREFERENCES, syncable.AUTOFILL])
        [.Configure (TypeSet.pair syncable.BOOKMARKS syncable.AUTOFILL (by decide)),
         .Paused]).map (fun w => w.state_) = some .CONFIGURING := by decide
  refine ⟨by decide, w, h, ?_⟩
  rw [h] at hst
  exact current_is_head_while_configuring
    [syncable.BOOKMARKS, syncable.PREFERENCES, syncable.AUTOFILL] _ w h (by simpa using hst)

theorem pairing_cons_silent (o : Bool) (e : Effect) (rest : List Effect)
    (h1 : e ≠ .NotifyStart) (h2 : ∀ r, e ≠ .NotifyDone r) :
    pairing o (e :: rest) = pairing o rest := by
  cases e <;> first | rfl | exact absurd rfl h1 | exact absurd rfl (h2 _)

theorem pairing_append (o : Bool) (l1 l2 : List Effect) :
    pairing o (l1 ++ l2) = (pairing o l1).bind (fun o1 => pairing o1 l2) := by
  induction l1 generalizing o with
  | nil => rfl
  | cons e rest ih =>
    cases e with
    | NotifyStart =>
      simp only [List.cons_append, pairing]
      exact ih true
    | NotifyDone r =>
      simp only [List.cons_append, pairing]
      cases o
      · rfl
      · simp only [if_true]
        exact ih false
    | CallConfigure d =>
      rw [List.cons_append, pairing_cons_silent _ _ _ (by simp) (by simp),
        pairing_cons_silent _ _ _ (by simp) (by simp)]
      exact ih o
    | CallStop =>
      rw [List.cons_append, pairing_cons_silent _ _ _ (by simp) (by simp),
        pairing_cons_silent _ _ _ (by simp) (by simp)]
      exact ih o
    | CallObserve t =>
      rw [List.cons_append, pairing_cons_silent _ _ _ (by simp) (by simp),
        pairing_cons_silent _ _ _ (by simp) (by simp)]
      exact ih o
    | CallTypeStartCallback r =>
      rw [List.cons_append, pairing_cons_silent _ _ _ (by simp) (by simp),
        pairing_cons_silent _ _ _ (by simp) (by simp)]
      exact ih o
    | Start d =>
      rw [List.cons_append, pairing_cons_silent _ _ _ (by simp) (by simp),
        pairing_cons_silent _ _ _ (by simp) (by simp)]
      exact ih o
    | Stop d =>
      rw [List.cons_append, pairing_cons_silent _ _ _ (by simp) (by simp),
        pairing_cons_silent _ _ _ (by simp) (by simp)]
      exact ih o
    | RequestPause a =>
      rw [List.cons_append, pairing_cons_silent _ _ _ (by simp) (by simp),
        pairing_cons_silent _ _ _ (by simp) (by simp)]
      exact ih o
    | RequestResume a =>
      rw [List.cons_append, pairing_cons_silent _ _ _ (by simp) (by simp),
        pairing_cons_silent _ _ _ (by simp) (by simp)]
      exact ih o
    | AddObserver t =>
      rw [List.cons_append, pairing_cons_silent _ _ _ (by simp) (by simp),
        pairing_cons_silent _ _ _ (by simp) (by simp)]
      exact ih o
    | RemoveObserver t =>
      rw [List.cons_append, pairing_cons_silent _ _ _ (by simp) (by simp),
        pairing_cons_silent _ _ _ (by simp) (by simp)]
      exact ih o

theorem pairing_silent (o : Bool) (new : List (Effect × Machine))
    (h : ∀ e ∈ new, Silent e) : pairing o (new.map Prod.fst) = some o := by
  induction new with
  | nil => rfl
  | cons e rest ih =>
    have he := h e (List.mem_cons_self _ _)
    rw [List.map_cons, pairing_cons_silent _ _ _ he.1 he.2]
    exact ih (fun x hx => h x (List.mem_cons_of_mem _ hx))

theorem pairing_stops (o : Bool) (l : List DataTypeController) :
    pairing o (l.map Effect.Stop) = some o := by
  induction l with
  | nil => rfl
  | cons d rest ih =>
    rw [List.map_cons, pairing_cons_silent _ _ _ (by simp) (by simp)]
    exact ih

theorem pairing_grows {w w1 : World} {o : Bool} (g : Grows Silent w w1)
    (h : pairing false (w.trace.map Prod.fst) = some o) :
    pairing false (w1.trace.map Prod.fst) = some o := by
  obtain ⟨new, h1, h2⟩ := g
  rw [h1, List.map_append, pairing_append, h]
  exact pairing_silent o new h2

theorem pairing_start {w : World} {o : Bool}
    (h : pairing false (w.trace.map Prod.fst) = some o) :
    pairing false ((NotifyStart w).trace.map Prod.fst) = some true := by
  simp only [NotifyStart, World.emit, List.map_append, List.map_cons, List.map_nil,
    pairing_append, h]
  rfl

theorem pairing_done {w : World} (r : DataTypeManager.ConfigureResult)
    (h : pairing false (w.trace.map Prod.fst) = some true) :
    pairing false ((NotifyDone r w).trace.map Prod.fst) = some false := by
  simp only [NotifyDone, World.emit, List.map_append, List.map_cons, List.map_nil,
    pairing_append, h]
  rfl

/-- What a record that `pairing` accepts says of each configure-done in it. -/
theorem pairing_sound (l : List Effect) :
    ∀ (o o1 : Bool), pairing o l = some o1 →
      ∀ a b r, l = a ++ Effect.NotifyDone r :: b →
        (o = true ∧ ∀ r1, Effect.NotifyDone r1 ∉ a) ∨
        ∃ a1 a2, a = a1 ++ Effect.NotifyStart :: a2 ∧ ∀ r1, Effect.NotifyDone r1 ∉ a2 := by
  induction l with
  | nil =>
    intro o o1 _ a b r hl
    simp at hl
  | cons e rest ih =>
    intro o o1 h a b r hl
    cases a with
    | nil =>
      simp only [List.nil_append, List.cons.injEq] at hl
      obtain ⟨he, _⟩ := hl
      subst he
      simp only [pairing] at h
      cases o
      · simp at h
      · exact Or.inl ⟨rfl, by simp⟩
    | cons x a =>
      simp only [List.cons_append, List.cons.injEq] at hl
      obtain ⟨he, hrest⟩ := hl
      subst he
      by_cases hs : e = .NotifyStart
      · subst hs
        simp only [pairing] at h
        rcases ih true o1 h a b r hrest with ⟨_, hno⟩ | ⟨a1, a2, ha, hno⟩
        · exact Or.inr ⟨[], a, rfl, hno⟩
        · exact Or.inr ⟨.NotifyStart :: a1, a2, by rw [ha]; rfl, hno⟩
      · by_cases hd : ∃ r0, e = .NotifyDone r0
        · obtain ⟨r0, hr0⟩ := hd
          subst hr0
          simp only [pairing] at h
          cases o
          · simp at h
          · simp only [if_true] at h
            rcases ih false o1 h a b r hrest with ⟨hf, _⟩ | ⟨a1, a2, ha, hno⟩
            · cases hf
            · exact Or.inr ⟨.NotifyDone r0 :: a1, a2, by rw [ha]; rfl, hno⟩
        · have hd1 : ∀ r0, e ≠ .NotifyDone r0 := fun r0 he => hd ⟨r0, he⟩
          rw [pairing_cons_silent _ _ _ hs hd1] at h
          rcases ih o o1 h a b r hrest with ⟨ho, hno⟩ | ⟨a1, a2, ha, hno⟩
          · refine Or.inl ⟨ho, fun r1 hmem => ?_⟩
            rcases List.mem_cons.mp hmem with h0 | h0
            · exact hd1 r1 h0.symm
            · exact hno r1 h0
          · exact Or.inr ⟨e :: a1, a2, by rw [ha]; rfl, hno⟩

theorem Open.of_true {w : World}
    (h : pairing false (w.trace.map Prod.fst) = some true) : Open w :=
  ⟨true, h, fun _ _ => rfl⟩

theorem Open.of_idle {w : World} {o : Bool}
    (h : pairing false (w.trace.map Prod.fst) = some o)
    (hs : w.state_ = .STOPPED ∨ w.state_ = .CONFIGURED) : Open w := by
  refine ⟨o, h, fun h1 h2 => ?_⟩
  rcases hs with e | e
  · exact absurd e h1
  · exact absurd e h2

theorem Open.flag {w : World} (h : Open w) (h1 : w.state_ ≠ .STOPPED)
    (h2 : w.state_ ≠ .CONFIGURED) :
    pairing false (w.trace.map Prod.fst) = some true := by
  obtain ⟨o, ho, hp⟩ := h
  rw [ho, hp h1 h2]

theorem Open.quiet {w w1 : World} (h : Open w) (g : Grows Silent w w1)
    (hs : w1.state_ = w.state_ ∨ w1.state_ = .STOPPED ∨ w1.state_ = .CONFIGURED) :
    Open w1 := by
  obtain ⟨o, ho, hp⟩ := h
  refine ⟨o, pairing_grows g ho, fun h1 h2 => ?_⟩
  rcases hs with e | e | e
  · rw [e] at h1 h2
    exact hp h1 h2
  · exact absurd e h1
  · exact absurd e h2

theorem silent_of_ne {e : Effect} {m : Machine} (h1 : e ≠ .NotifyStart)
    (h2 : ∀ r, e ≠ .NotifyDone r) : Silent (e, m) :=
  ⟨h1, h2⟩

theorem silent_AddObserver (type : NotificationType) (w : World) :
    Grows Silent w (AddObserver type w) := by
  obtain ⟨new, h1, h2⟩ := Grows.call (P := Silent) w (.AddObserver type)
    (silent_of_ne (by simp) (by simp))
  cases type <;> exact ⟨new, h1, h2⟩

theorem silent_RemoveObserver (type : NotificationType) (w : World) :
    Grows Silent w (RemoveObserver type w) := by
  obtain ⟨new, h1, h2⟩ := Grows.call (P := Silent) w (.RemoveObserver type)
    (silent_of_ne (by simp) (by simp))
  cases type <;> exact ⟨new, h1, h2⟩

theorem silent_RequestResume (w : World) :
    Grows Silent w (SyncBackendHost.RequestResume w).2 := by
  obtain ⟨new, h1, h2⟩ := Grows.call (P := Silent) w (.RequestResume w.backend_accepting)
    (silent_of_ne (by simp) (by simp))
  unfold SyncBackendHost.RequestResume
  simp only
  split <;> exact ⟨new, h1, h2⟩

theorem silent_RequestPause (w : World) :
    Grows Silent w (SyncBackendHost.RequestPause w).2 := by
  obtain ⟨new, h1, h2⟩ := Grows.call (P := Silent) w (.RequestPause w.backend_accepting)
    (silent_of_ne (by simp) (by simp))
  unfold SyncBackendHost.RequestPause
  simp only
  split <;> exact ⟨new, h1, h2⟩

theorem silent_Stop (d : DataTypeController) (w : World) :
    Grows Silent w (DataTypeController.Stop d w).1 := by
  rw [Stop_fst]
  obtain ⟨new, h1, h2⟩ := Grows.call (P := Silent) w (.Stop d)
    (silent_of_ne (by simp) (by simp))
  exact ⟨new, h1, h2⟩

theorem silent_Start (d : DataTypeController) (w : World) :
    Grows Silent w (DataTypeController.Start d w) := by
  obtain ⟨new, h1, h2⟩ := Grows.call (P := Silent) w (.Start d)
    (silent_of_ne (by simp) (by simp))
  unfold DataTypeController.Start
  simp only
  split <;> exact ⟨new, h1, h2⟩

theorem FinishStop_loop_silent {m : TypeMap} {w w1 : World}
    (h : FinishStop.loop m w = .ok w1) : Grows Silent w w1 := by
  induction m generalizing w with
  | nil =>
    simp only [FinishStop.loop, Except.ok.injEq] at h
    subst h
    exact Grows.same _ _
  | cons e rest ih =>
    obtain ⟨k, p⟩ := e
    cases p with
    | none => simp [FinishStop.loop] at h
    | some dtc =>
      simp only [FinishStop.loop] at h
      split at h
      · exact (silent_Stop dtc w).chain (ih h)
      · exact ih h

/-- A call of `FinishStop` that returns records no notification, ends STOPPED, and was
entered in a state other than STOPPED and CONFIGURED (its entry check). -/
theorem FinishStop_silent {w w1 : World} (h : FinishStop w = .ok w1) :
    Grows Silent w w1 ∧ w1.state_ = .STOPPED ∧
      w.state_ ≠ .STOPPED ∧ w.state_ ≠ .CONFIGURED := by
  have hst := (FinishStop_calm h).2
  simp only [FinishStop, DCHECK, bind, Except.bind, pure, Except.pure] at h
  split at h
  · cases h
  · rename_i hd
    split at hd
    swap
    · cases hd
    rename_i hcond
    have hcond1 : w.state_ = .CONFIGURING ∨ w.state_ = .STOPPING ∨
        w.state_ = .PAUSE_PENDING ∨ w.state_ = .RESUME_PENDING := by simpa using hcond
    split at h
    · cases h
    · rename_i w2 hw2
      simp only [Except.ok.injEq] at h
      subst h
      refine ⟨(FinishStop_loop_silent hw2).chain (Grows.of_trace_eq rfl), hst, ?_, ?_⟩
      · rcases hcond1 with e | e | e | e <;> rw [e] <;> simp
      · rcases hcond1 with e | e | e | e <;> rw [e] <;> simp

theorem Open.teardown {w w2 : World} (h : Open w) (hf : FinishStop w = .ok w2)
    (r : DataTypeManager.ConfigureResult) : Open (NotifyDone r w2) := by
  obtain ⟨g, hs, h1, h2⟩ := FinishStop_silent hf
  have hp := pairing_grows g (h.flag h1 h2)
  exact Open.of_idle (pairing_done r hp) (Or.inl hs)

theorem ResumeSyncer_open {w w1 : World} (h : Open w) (hr : ResumeSyncer w = .ok w1) :
    Open w1 := by
  have c1 := (silent_AddObserver .SYNC_RESUMED w).chain
    (silent_RequestResume (AddObserver .SYNC_RESUMED w))
  have s1 : (SyncBackendHost.RequestResume (AddObserver .SYNC_RESUMED w)).2.state_ =
      w.state_ := by
    simp only [SyncBackendHost.RequestResume, AddObserver, World.emit]
    split <;> rfl
  simp only [ResumeSyncer, bind, Except.bind, pure, Except.pure] at hr
  split at hr
  · simp only [Except.ok.injEq] at hr
    subst hr
    exact h.quiet c1 (Or.inl s1)
  · split at hr
    · cases hr
    · rename_i w3 hw3
      simp only [Except.ok.injEq] at hr
      subst hr
      have h3 : Open (RemoveObserver .SYNC_RESUMED
          (SyncBackendHost.RequestResume (AddObserver .SYNC_RESUMED w)).2) :=
        h.quiet (c1.chain (silent_RemoveObserver _ _)) (Or.inl s1)
      exact h3.teardown hw3 _

theorem PauseSyncer_open {w w1 : World} (h : Open w) (hr : PauseSyncer w = .ok w1) :
    Open w1 := by
  have c1 := (silent_AddObserver .SYNC_PAUSED w).chain
    (silent_RequestPause (AddObserver .SYNC_PAUSED w))
  have s1 : (SyncBackendHost.RequestPause (AddObserver .SYNC_PAUSED w)).2.state_ =
      w.state_ := by
    simp only [SyncBackendHost.RequestPause, AddObserver, World.emit]
    split <;> rfl
  simp only [PauseSyncer, bind, Except.bind, pure, Except.pure] at hr
  split at hr
  · simp only [Except.ok.injEq] at hr
    subst hr
    exact h.quiet c1 (Or.inl s1)
  · split at hr
    · cases hr
    · rename_i w3 hw3
      simp only [Except.ok.injEq] at hr
      subst hr
      have h3 : Open (RemoveObserver .SYNC_PAUSED
          (SyncBackendHost.RequestPause (AddObserver .SYNC_PAUSED w)).2) :=
        h.quiet (c1.chain (silent_RemoveObserver _ _)) (Or.inl s1)
      exact h3.teardown hw3 _

theorem StartNextType_open {w w1 : World} (h : Open w) (hr : StartNextType w = .ok w1) :
    Open w1 := by
  unfold StartNextType at hr
  split at hr
  · rename_i dtc rest hl
    simp only [Except.ok.injEq] at hr
    subst hr
    have g : Grows Silent w
        (DataTypeController.Start dtc { w with current_dtc_ := some dtc }) :=
      (Grows.of_trace_eq rfl).chain (silent_Start _ _)
    refine h.quiet g (Or.inl ?_)
    simp only [DataTypeController.Start, World.emit]
    split <;> rfl
  · simp only [DCHECK, bind, Except.bind] at hr
    split at hr
    · cases hr
    · rename_i hd
      split at hd
      swap
      · cases hd
      rename_i hcond
      have hcond1 : w.state_ = .CONFIGURING := by simpa using hcond
      have hp := h.flag (by rw [hcond1]; simp) (by rw [hcond1]; simp)
      have h2 : Open { w with state_ := .RESUME_PENDING } := Open.of_true hp
      exact ResumeSyncer_open h2 hr

theorem TypeStartCallback_open {r : DataTypeController.StartResult} {w w1 : World}
    (h : Open w) (hr : TypeStartCallback r w = .ok w1) : Open w1 := by
  unfold TypeStartCallback at hr
  by_cases hcur : w.current_dtc_ = none
  · simp [hcur] at hr
  by_cases hst : w.state_ = .RESTARTING
  · simp only [hcur, hst, if_true, if_false] at hr
    exact ResumeSyncer_open h hr
  cases hl : w.needs_start_ with
  | nil => simp [hcur, hst, hl] at hr
  | cons head tail =>
    by_cases heq : some head = w.current_dtc_
    swap
    · simp [hcur, hst, hl, heq] at hr
    simp only [hcur, hst, hl, heq, if_true, if_false] at hr
    have hpop : Open { w with needs_start_ := tail, current_dtc_ := none } :=
      h.quiet (Grows.of_trace_eq rfl) (Or.inl rfl)
    by_cases h1 : w.state_ = .STOPPING
    · rw [if_pos h1] at hr
      simp only [bind, Except.bind, pure, Except.pure] at hr
      split at hr
      · cases hr
      · rename_i w2 hw2
        simp only [Except.ok.injEq] at hr
        subst hr
        exact hpop.teardown hw2 _
    rw [if_neg h1] at hr
    by_cases h2 : w.state_ = .STOPPED
    · rw [if_pos h2] at hr
      simp only [Except.ok.injEq] at hr
      subst hr
      exact hpop
    rw [if_neg h2] at hr
    by_cases h3 : r = .OK ∨ r = .OK_FIRST_RUN
    · rw [if_pos h3] at hr
      exact StartNextType_open hpop hr
    · rw [if_neg h3] at hr
      simp only [bind, Except.bind, pure, Except.pure] at hr
      split at hr
      · cases hr
      · rename_i w2 hw2
        split at hr
        · simp only [Except.ok.injEq] at hr
          subst hr
          exact hpop.teardown hw2 _
        · cases hr

theorem callStop_open {d : DataTypeController} {w w1 : World} (h : Open w)
    (hr : callStop d w = .ok w1) : Open w1 := by
  have h1 : Open (DataTypeController.Stop d w).1 :=
    h.quiet (silent_Stop d w) (Or.inl (state_Stop d w))
  rw [callStop_eq] at hr
  split at hr
  · have h2 : Open ((DataTypeController.Stop d w).1.emit (.CallTypeStartCallback .ABORTED)) :=
      h1.quiet (Grows.call _ _ (silent_of_ne (by simp) (by simp))) (Or.inl rfl)
    exact TypeStartCallback_open h2 hr
  · simp only [Except.ok.injEq] at hr
    subst hr
    exact h1

theorem Restart_open {w w1 : World} (h : Open w) (hr : Restart w = .ok w1) : Open w1 := by
  unfold Restart at hr
  by_cases hb : w.state_ = .DOWNLOAD_PENDING ∨ w.state_ = .PAUSE_PENDING ∨
      w.state_ = .CONFIGURING ∨ w.state_ = .RESUME_PENDING
  · rw [if_pos hb] at hr
    simp only [Except.ok.injEq] at hr
    subst hr
    have hp := h.flag (by rcases hb with e | e | e | e <;> rw [e] <;> simp)
      (by rcases hb with e | e | e | e <;> rw [e] <;> simp)
    exact Open.of_true hp
  · rw [if_neg hb] at hr
    simp only [DCHECK, bind, Except.bind] at hr
    split at hr
    · cases hr
    · split at hr
      · cases hr
      · rename_i w3 hw3
        have h2 : pairing false ((if w.state_ = .STOPPED ∨ w.state_ = .CONFIGURED then
            NotifyStart { w with current_dtc_ := none }
            else { w with current_dtc_ := none }).trace.map Prod.fst) = some true := by
          by_cases hsc : w.state_ = .STOPPED ∨ w.state_ = .CONFIGURED
          · rw [if_pos hsc]
            obtain ⟨o, ho, _⟩ := h
            exact pairing_start (w := { w with current_dtc_ := none }) ho
          · rw [if_neg hsc]
            exact h.flag (fun e => hsc (Or.inl e)) (fun e => hsc (Or.inr e))
        have hc2 : (if w.state_ = .STOPPED ∨ w.state_ = .CONFIGURED then
            NotifyStart { w with current_dtc_ := none }
            else { w with current_dtc_ := none }).current_dtc_ = none := by
          split <;> rfl
        obtain ⟨t1, _⟩ := Restart_loop_trace hc2 hw3
        have h3 : pairing false (w3.trace.map Prod.fst) = some true := by
          rw [t1, pairing_append, h2]
          exact pairing_stops true _
        have h5 : Open { w3 with needs_stop_ := [], state_ := .PAUSE_PENDING } :=
          Open.of_true h3
        exact PauseSyncer_open h5 hr

theorem Configure_open {desired_types : TypeSet} {w w1 : World} (h : Open w)
    (hr : Configure desired_types w = .ok w1) : Open w1 := by
  unfold Configure at hr
  by_cases hs : w.state_ = .STOPPING
  · rw [if_pos hs] at hr
    simp only [Except.ok.injEq] at hr
    subst hr
    exact h
  · rw [if_neg hs] at hr
    split at hr
    · cases hr
    · rename_i w2 hw2
      obtain ⟨f1, _, _, f4, _⟩ := work_lists_frame hw2
      have h2 : Open w2 := h.quiet (Grows.of_trace_eq f4) (Or.inl f1)
      split at hr
      · simp only [Except.ok.injEq] at hr
        subst hr
        obtain ⟨o, ho, _⟩ := h2
        have hp := pairing_start (w := { w2 with state_ := .CONFIGURED }) ho
        exact Open.of_idle (pairing_done .OK hp) (Or.inr rfl)
      · exact Restart_open h2 hr

theorem Stop_open {w w1 : World} (h : Open w) (hr : Stop w = .ok w1) : Open w1 := by
  unfold Stop at hr
  by_cases h1 : w.state_ = .STOPPED
  · rw [if_pos h1] at hr
    simp only [Except.ok.injEq] at hr
    subst hr
    exact h
  rw [if_neg h1] at hr
  by_cases h2 : w.state_ = .CONFIGURING
  · rw [if_pos h2] at hr
    simp only at hr
    split at hr
    · cases hr
    · have hp := h.flag h1 (by rw [h2]; simp)
      have h3 : Open { w with state_ := .STOPPING } := Open.of_true hp
      exact callStop_open h3 hr
  rw [if_neg h2] at hr
  obtain ⟨g, hs, _, _⟩ := FinishStop_silent hr
  have c1 : Grows Silent w
      (if w.state_ = .PAUSE_PENDING then RemoveObserver .SYNC_PAUSED w else w) :=
    Grows.ite (silent_RemoveObserver _ _)
  have c2 : Grows Silent (if w.state_ = .PAUSE_PENDING then RemoveObserver .SYNC_PAUSED w else w)
      (if (if w.state_ = .PAUSE_PENDING then RemoveObserver .SYNC_PAUSED w else w).state_ =
          .RESUME_PENDING then
        RemoveObserver .SYNC_RESUMED
          (if w.state_ = .PAUSE_PENDING then RemoveObserver .SYNC_PAUSED w else w)
        else (if w.state_ = .PAUSE_PENDING then RemoveObserver .SYNC_PAUSED w else w)) :=
    Grows.ite (silent_RemoveObserver _ _)
  exact h.quiet (((c1.chain c2).chain (Grows.of_trace_eq rfl)).chain g) (Or.inr (Or.inl hs))

theorem Observe_open {type : NotificationType} {w w1 : World} (h : Open w)
    (hr : Observe type w = .ok w1) : Open w1 := by
  unfold Observe at hr
  cases type with
  | SYNC_PAUSED =>
    simp only [DCHECK, bind, Except.bind] at hr
    split at hr
    · cases hr
    · rename_i hd
      split at hd
      swap
      · cases hd
      rename_i hcond
      have hcond1 : w.state_ = .PAUSE_PENDING ∨ w.state_ = .RESTARTING := by
        simpa using hcond
      have hrem : Open (RemoveObserver .SYNC_PAUSED w) :=
        h.quiet (silent_RemoveObserver _ _) (Or.inl rfl)
      by_cases hst : (RemoveObserver .SYNC_PAUSED w).state_ = .RESTARTING
      · rw [if_pos hst] at hr
        exact ResumeSyncer_open hrem hr
      · rw [if_neg hst] at hr
        have hp := hrem.flag
          (by
            show w.state_ ≠ .STOPPED
            rcases hcond1 with e | e <;> rw [e] <;> simp)
          (by
            show w.state_ ≠ .CONFIGURED
            rcases hcond1 with e | e <;> rw [e] <;> simp)
        have h3 : Open { RemoveObserver .SYNC_PAUSED w with state_ := .CONFIGURING } :=
          Open.of_true hp
        exact StartNextType_open h3 hr
  | SYNC_RESUMED =>
    simp only [DCHECK, bind, Except.bind, pure, Except.pure] at hr
    split at hr
    · cases hr
    · rename_i hd
      split at hd
      swap
      · cases hd
      rename_i hcond
      have hcond1 : w.state_ = .RESUME_PENDING ∨ w.state_ = .RESTARTING := by
        simpa using hcond
      have hrem : Open (RemoveObserver .SYNC_RESUMED w) :=
        h.quiet (silent_RemoveObserver _ _) (Or.inl rfl)
      by_cases hst : (RemoveObserver .SYNC_RESUMED w).state_ = .RESTARTING
      · rw [if_pos hst] at hr
        exact Restart_open hrem hr
      · rw [if_neg hst] at hr
        simp only [Except.ok.injEq] at hr
        subst hr
        have hp := hrem.flag
          (by
            show w.state_ ≠ .STOPPED
            rcases hcond1 with e | e <;> rw [e] <;> simp)
          (by
            show w.state_ ≠ .CONFIGURED
            rcases hcond1 with e | e <;> rw [e] <;> simp)
        exact Open.of_idle
          (pairing_done (w := { RemoveObserver .SYNC_RESUMED w with state_ := .CONFIGURED })
            .OK hp) (Or.inr rfl)

theorem step_open {w w1 : World} {e : Event} (h : Open w) (hr : step w e = .ok w1) :
    Open w1 := by
  cases e with
  | Configure desired_types =>
    simp only [step] at hr
    exact Configure_open
      (h.quiet (Grows.call _ _ (silent_of_ne (by simp) (by simp))) (Or.inl rfl)) hr
  | Stop =>
    simp only [step] at hr
    exact Stop_open
      (h.quiet (Grows.call _ _ (silent_of_ne (by simp) (by simp))) (Or.inl rfl)) hr
  | Paused =>
    simp only [step] at hr
    have h0 : Open { w with pending_pause := w.pending_pause - 1 } :=
      h.quiet (Grows.of_trace_eq rfl) (Or.inl rfl)
    split at hr
    · exact Observe_open
        (h0.quiet (Grows.call _ (.CallObserve .SYNC_PAUSED)
          (silent_of_ne (by simp) (by simp))) (Or.inl rfl)) hr
    · simp only [Except.ok.injEq] at hr
      subst hr
      exact h0
  | Resumed =>
    simp only [step] at hr
    have h0 : Open { w with pending_resume := w.pending_resume - 1 } :=
      h.quiet (Grows.of_trace_eq rfl) (Or.inl rfl)
    split at hr
    · exact Observe_open
        (h0.quiet (Grows.call _ (.CallObserve .SYNC_RESUMED)
          (silent_of_ne (by simp) (by simp))) (Or.inl rfl)) hr
    · simp only [Except.ok.injEq] at hr
      subst hr
      exact h0
  | Associating t =>
    simp only [step, Except.ok.injEq] at hr
    subst hr
    exact h.quiet (Grows.of_trace_eq rfl) (Or.inl rfl)
  | StartDone t result =>
    simp only [step] at hr
    have h0 : Open
        { w with dtc_state := (Function.update w.dtc_state t
            (if result = .OK ∨ result = .OK_FIRST_RUN then .RUNNING else .NOT_RUNNING)) } :=
      h.quiet (Grows.of_trace_eq rfl) (Or.inl rfl)
    exact TypeStartCallback_open
      (h0.quiet (Grows.call _ (.CallTypeStartCallback result)
        (silent_of_ne (by simp) (by simp))) (Or.inl rfl)) hr
  | BackendAccepts b =>
    simp only [step, Except.ok.injEq] at hr
    subst hr
    exact h.quiet (Grows.of_trace_eq rfl) (Or.inl rfl)

theorem run_open {evs : List Event} {w w1 : World} (h : Open w)
    (hr : run w evs = some w1) : Open w1 := by
  induction evs generalizing w with
  | nil =>
    simp only [run, Option.some.injEq] at hr
    subst hr
    exact h
  | cons e es ih =>
    simp only [run] at hr
    split at hr
    · split at hr
      · rename_i w2 hw2
        exact ih (step_open h hw2) hr
      · cases hr
    · cases hr

theorem init_open (types : List ModelType) : Open (init types) :=
  ⟨false, rfl, fun h _ => absurd rfl h⟩

/-- In every execution of the debug build from the constructed manager, up to the
first failed assertion, each configure-done notification recorded has a
configure-started notification before it with no configure-done between the two.
Nothing is said here of the release build, where the code runs on after the
condition of an assertion is false. -/
theorem done_preceded_by_start (types : List ModelType) (evs : List Event) (w : World)
    (hr : run (init types) evs = some w) :
    ∀ a b r, w.trace.map Prod.fst = a ++ Effect.NotifyDone r :: b →
      ∃ a1 a2, a = a1 ++ Effect.NotifyStart :: a2 ∧
        ∀ r1, Effect.NotifyDone r1 ∉ a2 := by
  obtain ⟨o, ho, _⟩ := run_open (init_open types) hr
  intro a b r hl
  rcases pairing_sound _ false o ho a b r hl with ⟨hf, _⟩ | h
  · cases hf
  · exact h

/-- The pairing at a concrete input: bookmarks started with OK, then
Configure({BOOKMARKS, PREFERENCES}) and the start of preferences fails: the
notifications recorded are started, done(OK), started, done(ASSOCIATION_FAILED). -/
theorem done_preceded_by_start_witness :
    ∃ w, run (init [syncable.BOOKMARKS, syncable.PREFERENCES])
        [.Configure (TypeSet.single syncable.BOOKMARKS), .Paused,
         .StartDone syncable.BOOKMARKS .OK, .Resumed,
         .Configure (TypeSet.pair syncable.BOOKMARKS syncable.PREFERENCES (by decide)),
         .Paused, .StartDone syncable.PREFERENCES .ASSOCIATION_FAILED] = some w ∧
      (w.trace.map Prod.fst).filter (fun e => match e with
        | .NotifyStart => true
        | .NotifyDone _ => true
        | _ => false) =
        [.NotifyStart, .NotifyDone .OK, .NotifyStart, .NotifyDone .ASSOCIATION_FAILED] ∧
      ∀ a b r, w.trace.map Prod.fst = a ++ Effect.NotifyDone r :: b →
        ∃ a1 a2, a = a1 ++ Effect.NotifyStart :: a2 ∧
          ∀ r1, Effect.NotifyDone r1 ∉ a2 := by
  have hsome : (run (init [syncable.BOOKMARKS, syncable.PREFERENCES])
        [.Configure (TypeSet.single syncable.BOOKMARKS), .Paused,
         .StartDone syncable.BOOKMARKS .OK, .Resumed,
         .Configure (TypeSet.pair syncable.BOOKMARKS syncable.PREFERENCES (by decide)),
         .Paused, .StartDone syncable.PREFERENCES .ASSOCIATION_FAILED]).isSome = true := by
    decide
  obtain ⟨w, h⟩ := Option.isSome_iff_exists.mp hsome
  have hcalls : (run (init [syncable.BOOKMARKS, syncable.PREFERENCES])
        [.Configure (TypeSet.single syncable.BOOKMARKS), .Paused,
         .StartDone syncable.BOOKMARKS .OK, .Resumed,
         .Configure (TypeSet.pair syncable.BOOKMARKS syncable.PREFERENCES (by decide)),
         .Paused, .StartDone syncable.PREFERENCES .ASSOCIATION_FAILED]).map
        (fun w => (w.trace.map Prod.fst).filter (fun e => match e with
          | .NotifyStart => true
          | .NotifyDone _ => true
          | _ => false)) =
      some [.NotifyStart, .NotifyDone .OK, .NotifyStart,
        .NotifyDone .ASSOCIATION_FAILED] := by decide
  rw [h] at hcalls
  exact ⟨w, h, by simpa using hcalls,
    done_preceded_by_start [syncable.BOOKMARKS, syncable.PREFERENCES] _ w h⟩

/-- C8: Configure({BOOKMARKS}), the paused event (BOOKMARKS is started), Configure({})
(needs_stop = [BOOKMARKS], state RESTARTING), Stop() (state STOPPED; BOOKMARKS, not
RUNNING, is left MODEL_STARTING), then Configure({PREFERENCES}).  The lists the call
computes are needs_start = [PREFERENCES] and needs_stop = [BOOKMARKS]; Restart clears
the current controller and calls Stop on BOOKMARKS, whose start is in progress, so the
start callback runs inside the call.  In the debug build the callback fails its check of
the current controller.  In the release build the callback erases the head of
needs_start, which is PREFERENCES, and returns because the state is STOPPED: when
Configure returns needs_start is empty although PREFERENCES is desired, registered and
NOT_RUNNING, and the cycle ends CONFIGURED with configure-done(OK) and PREFERENCES never
started. -/
theorem Configure_returns_with_needs_start_erased :
    (run (init [syncable.BOOKMARKS, syncable.PREFERENCES])
        [.Configure (TypeSet.single syncable.BOOKMARKS), .Paused,
         .Configure TypeSet.empty, .Stop]).map
      (fun w => (w.state_, w.current_dtc_, w.dtc_state syncable.BOOKMARKS,
        w.dtc_state syncable.PREFERENCES)) =
      some (.STOPPED, some ⟨syncable.BOOKMARKS⟩, .MODEL_STARTING, .NOT_RUNNING) ∧
    (run (init [syncable.BOOKMARKS, syncable.PREFERENCES])
        [.Configure (TypeSet.single syncable.BOOKMARKS), .Paused,
         .Configure TypeSet.empty, .Stop]).map
      (fun w => (Configure.work_lists (TypeSet.single syncable.PREFERENCES)
          w).toOption.map (fun w2 => (w2.needs_start_, w2.needs_stop_))) =
      some (some ([⟨syncable.PREFERENCES⟩], [⟨syncable.BOOKMARKS⟩])) ∧
    runFault (init [syncable.BOOKMARKS, syncable.PREFERENCES])
        [.Configure (TypeSet.single syncable.BOOKMARKS), .Paused,
         .Configure TypeSet.empty, .Stop,
         .Configure (TypeSet.single syncable.PREFERENCES)] = some .dcheck ∧
    (Release.run (init [syncable.BOOKMARKS, syncable.PREFERENCES])
        [.Configure (TypeSet.single syncable.BOOKMARKS), .Paused,
         .Configure TypeSet.empty, .Stop]).map
      (fun w => (w.state_, w.current_dtc_, w.dtc_state syncable.BOOKMARKS,
        w.dtc_state syncable.PREFERENCES)) =
      some (.STOPPED, some ⟨syncable.BOOKMARKS⟩, .MODEL_STARTING, .NOT_RUNNING) ∧
    (Release.run (init [syncable.BOOKMARKS, syncable.PREFERENCES])
        [.Configure (TypeSet.single syncable.BOOKMARKS), .Paused,
         .Configure TypeSet.empty, .Stop,
         .Configure (TypeSet.single syncable.PREFERENCES)]).map
      (fun w => (w.state_, w.needs_start_, w.dtc_state syncable.PREFERENCES,
        stopCalls w.trace)) =
      some (.PAUSE_PENDING, [], .NOT_RUNNING,
        [(⟨syncable.BOOKMARKS⟩, .MODEL_STARTING)]) ∧
    (Release.run (init [syncable.BOOKMARKS, syncable.PREFERENCES])
        [.Configure (TypeSet.single syncable.BOOKMARKS), .Paused,
         .Configure TypeSet.empty, .Stop,
         .Configure (TypeSet.single syncable.PREFERENCES), .Paused, .Resumed]).map
      (fun w => (w.state_, w.dtc_state syncable.PREFERENCES,
        (startCalls [] w.trace).map Prod.fst, doneCalls w.trace)) =
      some (.CONFIGURED, .NOT_RUNNING, [⟨syncable.BOOKMARKS⟩],
        [(.OK, .CONFIGURED)]) :=
  ⟨by decide, by decide, by decide, by decide, by decide, by decide⟩

/-- C11: Configure({BOOKMARKS}), the paused event (BOOKMARKS is started) and
Configure({}) leave RESTARTING with needs_stop = [BOOKMARKS] and BOOKMARKS
MODEL_STARTING.  Restart in that world clears the current controller and calls Stop on
BOOKMARKS, which runs the start callback inside the call: in the debug build the
callback fails its check of the current controller, so Restart does not complete (a
further Configure({}) reaches it).  With PREFERENCES RUNNING as well (needs_stop =
[BOOKMARKS, PREFERENCES]) and a backend that rejects requests, the release build runs
the callback in RESTARTING, whose rejected resume request tears everything down
(Stop on PREFERENCES), and the loop of Restart then calls Stop on PREFERENCES a second
time: Stop is called twice on a controller of needs_stop, and configure-done is emitted
twice. -/
theorem Restart_stops_starting_controller :
    (run (init [syncable.BOOKMARKS])
        [.Configure (TypeSet.single syncable.BOOKMARKS), .Paused,
         .Configure TypeSet.empty]).map
      (fun w => (w.state_, w.needs_stop_, w.dtc_state syncable.BOOKMARKS,
        (Restart w).toOption.isSome)) =
      some (.RESTARTING, [⟨syncable.BOOKMARKS⟩], .MODEL_STARTING, false) ∧
    runFault (init [syncable.BOOKMARKS])
        [.Configure (TypeSet.single syncable.BOOKMARKS), .Paused,
         .Configure TypeSet.empty, .Configure TypeSet.empty] = some .dcheck ∧
    (Release.run (init [syncable.BOOKMARKS, syncable.PREFERENCES])
        [.Configure (TypeSet.single syncable.PREFERENCES), .Paused,
         .StartDone syncable.PREFERENCES .OK, .Resumed,
         .Configure (TypeSet.pair syncable.BOOKMARKS syncable.PREFERENCES (by decide)),
         .Paused, .Configure TypeSet.empty, .BackendAccepts false]).map
      (fun w => (w.state_, w.needs_stop_, w.dtc_state syncable.BOOKMARKS,
        w.dtc_state syncable.PREFERENCES)) =
      some (.RESTARTING, [⟨syncable.BOOKMARKS⟩, ⟨syncable.PREFERENCES⟩],
        .MODEL_STARTING, .RUNNING) ∧
    (Release.run (init [syncable.BOOKMARKS, syncable.PREFERENCES])
        [.Configure (TypeSet.single syncable.PREFERENCES), .Paused,
         .StartDone syncable.PREFERENCES .OK, .Resumed,
         .Configure (TypeSet.pair syncable.BOOKMARKS syncable.PREFERENCES (by decide)),
         .Paused, .Configure TypeSet.empty, .BackendAccepts false]).map
      (fun w => stopCalls w.trace) = some [] ∧
    (Release.run (init [syncable.BOOKMARKS, syncable.PREFERENCES])
        [.Configure (TypeSet.single syncable.PREFERENCES), .Paused,
         .StartDone syncable.PREFERENCES .OK, .Resumed,
         .Configure (TypeSet.pair syncable.BOOKMARKS syncable.PREFERENCES (by decide)),
         .Paused, .Configure TypeSet.empty, .BackendAccepts false,
         .Configure TypeSet.empty]).map
      (fun w => (w.state_, stopCalls w.trace, notifications w.trace)) =
      some (.STOPPED,
        [(⟨syncable.BOOKMARKS⟩, .MODEL_STARTING), (⟨syncable.PREFERENCES⟩, .RUNNING),
         (⟨syncable.PREFERENCES⟩, .NOT_RUNNING)],
        [.NotifyStart, .NotifyDone .OK, .NotifyStart,
         .NotifyDone .UNRECOVERABLE_ERROR, .NotifyDone .UNRECOVERABLE_ERROR]) ∧
    runFault (init [syncable.BOOKMARKS, syncable.PREFERENCES])
        [.Configure (TypeSet.single syncable.PREFERENCES), .Paused,
         .StartDone syncable.PREFERENCES .OK, .Resumed,
         .Configure (TypeSet.pair syncable.BOOKMARKS syncable.PREFERENCES (by decide)),
         .Paused, .Configure TypeSet.empty, .BackendAccepts false,
         .Configure TypeSet.empty] = some .dcheck :=
  ⟨by decide, by decide, by decide, by decide, by decide, by decide⟩

/-- C28: Configure({BOOKMARKS}) emits configure-started and requests a pause;
Configure({}) made before the answer emits configure-started and configure-done(OK) and
sets CONFIGURED.  In the debug build the paused event then fails the check of Observe.
In the release build the paused event sets CONFIGURING, finds nothing to start and
requests a resume, and the resumed event sets CONFIGURED and emits configure-done(OK)
again: the notifications are started, started, done(OK), done(OK), two configure-done
with no configure-started between them. -/
theorem done_emitted_twice_after_one_start :
    (run (init [syncable.BOOKMARKS])
        [.Configure (TypeSet.single syncable.BOOKMARKS), .Configure TypeSet.empty]).map
      (fun w => (w.state_, w.paused_observer, w.pending_pause, notifications w.trace)) =
      some (.CONFIGURED, true, 1, [.NotifyStart, .NotifyStart, .NotifyDone .OK]) ∧
    runFault (init [syncable.BOOKMARKS])
        [.Configure (TypeSet.single syncable.BOOKMARKS), .Configure TypeSet.empty,
         .Paused] = some .dcheck ∧
    (Release.run (init [syncable.BOOKMARKS])
        [.Configure (TypeSet.single syncable.BOOKMARKS), .Configure TypeSet.empty,
         .Paused]).map
      (fun w => (w.state_, w.resumed_observer, w.pending_resume,
        notifications w.trace)) =
      some (.RESUME_PENDING, true, 1, [.NotifyStart, .NotifyStart, .NotifyDone .OK]) ∧
    (Release.run (init [syncable.BOOKMARKS])
        [.Configure (TypeSet.single syncable.BOOKMARKS), .Configure TypeSet.empty,
         .Paused, .Resumed]).map
      (fun w => (w.state_, notifications w.trace)) =
      some (.CONFIGURED,
        [.NotifyStart, .NotifyStart, .NotifyDone .OK, .NotifyDone .OK]) :=
  ⟨by decide, by decide, by decide, by decide⟩

end browser_sync
